import Mathlib

/-!
# EscapeOreo: the simulation core of `src/main.cpp`

A shallow embedding of the platformer's core (entities, level builder, per-tick
update) and theorems about it.

Conventions of the embedding

* C++ `float` values are modelled by exact rationals `ℚ`.  Every constant of the
  player physics (4, 0.5, -12, 32, 46, 568, 800) is a small dyadic rational, for
  which `float` arithmetic is exact; where a constant is not (enemy speeds such
  as `1.2f`) the rational model is the idealised arithmetic.
* C++ `int` members (`lives`, `score`, `direction`, ...) are modelled by `Int`.
  The pickup counters `score` and `diamondsCollected`, which only grow, are
  added to in 32-bit two's complement arithmetic (`wrapInt`); `lives` and
  `currentLevel` stay within 0 .. 3 and 1 .. 4 in every state the program
  reaches (`flowInv_runSteps`), where `int` arithmetic is exact.
* SFML is a library outside the repository.  The few SFML operations the core
  depends on are modelled here from SFML 2.x: `sf::Rect::intersects`,
  `sf::Sprite::getGlobalBounds` for an unrotated sprite with origin (0,0),
  `sf::Shape::getGlobalBounds` for a rectangle (the outline is part of the
  bounds).  What cannot be expressed over `ℚ` (`std::sin`, the bounds of the
  circle and triangle shapes, the content of image files) is a field of `Env`.
* The one place where the float code leaves the finite numbers is the scale of a
  sprite computed by a division by the height of an image that did not load: the
  scale is then +infinity and the bounds of the sprite are NaN.  `Bounds` and the
  flag `Sprite.infiniteScale` model it.
* Presentation-only members (colours, animation frames of the player, the view,
  menu particles) are left out; they never feed back into the simulation.
* A range-for loop over a `std::vector` is a structural recursion over a `List`,
  in the order of the vector; an early `return` in a loop body ends the
  recursion.
-/

namespace EscapeOreo

/-! ## Geometry -/

/-- Two float coordinates, as `sf::Vector2f`. -/
structure Vector2f where
  x : ℚ
  y : ℚ
deriving DecidableEq

/-- Axis-aligned rectangle, as `sf::FloatRect`. -/
structure FloatRect where
  left : ℚ
  top : ℚ
  width : ℚ
  height : ℚ
deriving DecidableEq

/-- A rectangle as the float code computes it: a rectangle of finite numbers, or
`nan`, the rectangle whose four members are NaN (the global bounds of a sprite
whose scale is infinite). -/
inductive Bounds where
  | rect (r : FloatRect)
  | nan
deriving DecidableEq

instance : Coe FloatRect Bounds := ⟨Bounds.rect⟩

/-- SFML 2.x `Rect<T>::intersects`, called on a finite rectangle `r1`:
rectangles with negative dimensions are allowed; the rectangles intersect when
the intersection has positive area.  When the members of the argument are NaN,
`std::min(a, b)` and `std::max(a, b)` return `a` for `b` NaN (every comparison
with NaN is false), so the intersection computed is `r1` itself. -/
def FloatRect.intersects (r1 : FloatRect) (b : Bounds) : Bool :=
  let r1MinX := min r1.left (r1.left + r1.width)
  let r1MaxX := max r1.left (r1.left + r1.width)
  let r1MinY := min r1.top (r1.top + r1.height)
  let r1MaxY := max r1.top (r1.top + r1.height)
  match b with
  | Bounds.rect r2 =>
    let r2MinX := min r2.left (r2.left + r2.width)
    let r2MaxX := max r2.left (r2.left + r2.width)
    let r2MinY := min r2.top (r2.top + r2.height)
    let r2MaxY := max r2.top (r2.top + r2.height)
    let interLeft := max r1MinX r2MinX
    let interTop := max r1MinY r2MinY
    let interRight := min r1MaxX r2MaxX
    let interBottom := min r1MaxY r2MaxY
    decide (interLeft < interRight) && decide (interTop < interBottom)
  | Bounds.nan =>
    decide (r1MinX < r1MaxX) && decide (r1MinY < r1MaxY)

/-- The `int` result of an addition on a 32-bit two's complement machine: the
sum wrapped into -2147483648 .. 2147483647 (the language leaves signed overflow
undefined; the compiled code wraps). -/
def wrapInt (n : Int) : Int :=
  (n + 2147483648) % 4294967296 - 2147483648

/-- Pixel size of a loaded image, as `sf::Texture::getSize`; a texture that was
never loaded has size 0 x 0. -/
structure Texture where
  width : ℕ
  height : ℕ
deriving DecidableEq

/-- The part of `sf::Sprite` the core reads: whether a texture is set, the size
of the texture rectangle, position and scale (origin (0,0), no rotation).
`infiniteScale` says that the scale factors are +infinity, the result of a float
division by 0; `scale` then holds no information. -/
structure Sprite where
  hasTexture : Bool
  rectWidth : ℚ
  rectHeight : ℚ
  position : Vector2f
  scale : Vector2f
  infiniteScale : Bool
deriving DecidableEq

/-- A default-constructed `sf::Sprite`. -/
def Sprite.default : Sprite :=
  { hasTexture := false, rectWidth := 0, rectHeight := 0,
    position := ⟨0, 0⟩, scale := ⟨1, 1⟩, infiniteScale := false }

/-- SFML `Sprite::setTexture(texture, resetRect)`: the texture rectangle is set
to the size of the texture when `resetRect` is true, or when the sprite had no
texture and an empty rectangle. -/
def Sprite.setTexture (s : Sprite) (tex : Texture) (resetRect : Bool) : Sprite :=
  if resetRect || (!s.hasTexture && decide (s.rectWidth = 0 ∧ s.rectHeight = 0)) then
    { s with hasTexture := true, rectWidth := tex.width, rectHeight := tex.height }
  else
    { s with hasTexture := true }

/-- SFML `Sprite::getLocalBounds`: the texture rectangle at the origin. -/
def Sprite.getLocalBounds (s : Sprite) : FloatRect :=
  ⟨0, 0, |s.rectWidth|, |s.rectHeight|⟩

/-- SFML `Sprite::getGlobalBounds`: the bounding rectangle of the local bounds
scaled and moved to the sprite position (a negative scale mirrors the sprite
about its position).  With an infinite scale the transform of the sprite holds
the products infinity * sin 0 = NaN, and every member of the bounds is NaN. -/
def Sprite.getGlobalBounds (s : Sprite) : Bounds :=
  if s.infiniteScale then Bounds.nan
  else
    let b := s.getLocalBounds
    let x1 := s.position.x + s.scale.x * b.left
    let x2 := s.position.x + s.scale.x * (b.left + b.width)
    let y1 := s.position.y + s.scale.y * b.top
    let y2 := s.position.y + s.scale.y * (b.top + b.height)
    Bounds.rect ⟨min x1 x2, min y1 y2, max x1 x2 - min x1 x2, max y1 y2 - min y1 y2⟩

/-- What the simulation takes from outside the repository's code. -/
structure Env where
  /-- The function `std::sin` on floats. -/
  sin : ℚ → ℚ
  /-- Result of loading `tiles/diamond.png` (none when the load fails). -/
  diamondPng : Option Texture
  /-- Result of loading `tiles/diamond2.png`. -/
  diamond2Png : Option Texture
  /-- Local bounds of `sf::CircleShape` of radius 12 with outline 2. -/
  rockLocalBounds : FloatRect
  /-- Local bounds of the icicle triangle (0,0),(8,0),(4,30) with outline 1. -/
  icicleLocalBounds : FloatRect

/-- Keys held during a tick, as polled by `sf::Keyboard::isKeyPressed`. -/
structure Input where
  /-- Left or A. -/
  left : Bool
  /-- Right or D. -/
  right : Bool
  /-- Space, Up or W. -/
  jump : Bool
deriving DecidableEq

/-! ## Entities -/

inductive GameState where
  | MENU
  | PLAYING
  | PAUSED
  | LEVEL_COMPLETE
  | GAME_OVER
deriving DecidableEq

inductive MenuPage where
  | MAIN_MENU
  | MAP_PAGE
  | SETTINGS_PAGE
  | INSTRUCTIONS_PAGE
  | SHOP_PAGE
deriving DecidableEq

/-- Which image a textured platform uses. -/
inductive TileTexture where
  | iceBlock
  | seaweed
deriving DecidableEq

/-- The part of `sf::RectangleShape` the core reads: position, size and outline
thickness (no rotation, origin (0,0)). -/
structure RectangleShape where
  position : Vector2f
  size : Vector2f
  outlineThickness : ℚ
deriving DecidableEq

/-- A default-constructed `sf::RectangleShape`. -/
def RectangleShape.default : RectangleShape :=
  { position := ⟨0, 0⟩, size := ⟨0, 0⟩, outlineThickness := 0 }

/-- SFML `Shape::getGlobalBounds` for a rectangle: the outline is part of the
bounds, so they extend the rectangle by the outline thickness on every side. -/
def RectangleShape.getGlobalBounds (r : RectangleShape) : FloatRect :=
  ⟨r.position.x - r.outlineThickness, r.position.y - r.outlineThickness,
   r.size.x + 2 * r.outlineThickness, r.size.y + 2 * r.outlineThickness⟩

/-- A tile, `struct Platform`: its rectangle shape, its texture (none for a
colour-based tile) and the breakable data. -/
structure Platform where
  shape : RectangleShape
  texture : Option TileTexture
  breakable : Bool
  breakTimer : ℚ
deriving DecidableEq

/-- The colour-based constructor `Platform(x, y, w, h, color, canBreak)`: the
shape gets an outline of thickness 2. -/
def Platform.ofColor (x y w h : ℚ) (canBreak : Bool) : Platform :=
  { shape := { position := ⟨x, y⟩, size := ⟨w, h⟩, outlineThickness := 2 },
    texture := none, breakable := canBreak, breakTimer := 0 }

/-- The texture-based constructor `Platform(x, y, w, h, tex, canBreak)`: no
outline. -/
def Platform.ofTexture (x y w h : ℚ) (tex : TileTexture) (canBreak : Bool) : Platform :=
  { shape := { position := ⟨x, y⟩, size := ⟨w, h⟩, outlineThickness := 0 },
    texture := some tex, breakable := canBreak, breakTimer := 0 }

/-- Collectible diamond, `struct Diamond`. -/
structure Diamond where
  sprite : Sprite
  collected : Bool
  animOffset : ℚ
  basePos : Vector2f
deriving DecidableEq

/-- The constructor `Diamond(x, y, tex)`; every call site passes a non-null
texture pointer, whose texture may be unloaded (size 0 x 0): the scale
`26 / 0` is then +infinity and the bounds of the diamond are NaN. -/
def Diamond.new (x y : ℚ) (tex : Texture) : Diamond :=
  let s0 := Sprite.default.setTexture tex false
  let b := s0.getLocalBounds
  let targetHeight : ℚ := 26
  let scale := targetHeight / b.height
  { sprite := { s0 with scale := ⟨scale, scale⟩, infiniteScale := decide (b.height = 0),
                        position := ⟨x, y⟩ },
    collected := false, animOffset := 0, basePos := ⟨x, y⟩ }

/-- The method `Diamond::update`: the bob animation. -/
def Diamond.update (env : Env) (d : Diamond) : Diamond :=
  let animOffset := d.animOffset + 1 / 20
  let yOffset := env.sin animOffset * 5
  { d with animOffset := animOffset,
           sprite := { d.sprite with position := ⟨d.basePos.x, d.basePos.y + yOffset⟩ } }

def Diamond.getBounds (d : Diamond) : Bounds :=
  d.sprite.getGlobalBounds

/-- Patrolling enemy, `struct Enemy`; `textures` of the source points at the
game's `batTextures`, passed to the functions that read it. -/
structure Enemy where
  sprite : Sprite
  position : Vector2f
  speed : ℚ
  direction : Int
  minX : ℚ
  maxX : ℚ
  currentFrame : ℕ
  frameTimer : ℚ
deriving DecidableEq

/-- The constructor `Enemy(x, y, spd, min, max, texPtr)`. -/
def Enemy.new (x y spd min max : ℚ) (textures : List Texture) : Enemy :=
  let s0 := match textures with
    | [] => Sprite.default
    | t :: _ => Sprite.default.setTexture t false
  { sprite := { s0 with position := ⟨x, y⟩ },
    position := ⟨x, y⟩, speed := spd, direction := 1, minX := min, maxX := max,
    currentFrame := 0, frameTimer := 0 }

/-- The patrol part of `Enemy::update`: move, then flip the direction at or
beyond either bound. -/
def Enemy.patrol (e : Enemy) : Enemy :=
  let x := e.position.x + e.direction * e.speed
  let direction := if x ≤ e.minX ∨ x ≥ e.maxX then e.direction * -1 else e.direction
  { e with position := ⟨x, e.position.y⟩, direction := direction }

/-- The method `Enemy::update`: patrol, vertical bob, sprite placement, mirror
and frame animation. -/
def Enemy.update (env : Env) (textures : List Texture) (e : Enemy) : Enemy :=
  let e1 := e.patrol
  let y := e1.position.y + env.sin (e1.position.x * (1 / 100)) * (1 / 5)
  let position : Vector2f := ⟨e1.position.x, y⟩
  let sprite1 := { e1.sprite with position := position }
  let sprite2 :=
    if textures.isEmpty then sprite1
    else { sprite1 with scale := ⟨if e1.direction > 0 then -1 else 1, 1⟩,
                        infiniteScale := false }
  let frameTimer := e1.frameTimer + 3 / 20
  if frameTimer ≥ 1 then
    match textures with
    | [] => { e1 with position := position, sprite := sprite2, frameTimer := 0 }
    | t0 :: ts =>
      let currentFrame := (e1.currentFrame + 1) % (t0 :: ts).length
      { e1 with position := position, frameTimer := 0, currentFrame := currentFrame,
                sprite := sprite2.setTexture ((t0 :: ts).getD currentFrame t0) true }
  else
    { e1 with position := position, sprite := sprite2, frameTimer := frameTimer }

def Enemy.getBounds (e : Enemy) : Bounds :=
  e.sprite.getGlobalBounds

/-- The state after `n` calls of `Enemy::update`. -/
def Enemy.updateN (env : Env) (textures : List Texture) : ℕ → Enemy → Enemy
  | 0, e => e
  | n + 1, e => Enemy.update env textures (Enemy.updateN env textures n e)

/-- Hammer pickup, `struct Hammer`. -/
structure Hammer where
  sprite : Sprite
  position : Vector2f
  collected : Bool
deriving DecidableEq

/-- The constructor `Hammer(x, y, tex)`, called with a non-null texture only; as
for a diamond, the scale `65 / 0` of a texture of height 0 is +infinity. -/
def Hammer.new (x y : ℚ) (tex : Texture) : Hammer :=
  let s0 := Sprite.default.setTexture tex false
  let bounds := s0.getLocalBounds
  let targetHeight : ℚ := 65
  let scale := targetHeight / bounds.height
  { sprite := { s0 with scale := ⟨scale, scale⟩,
                        infiniteScale := decide (bounds.height = 0), position := ⟨x, y⟩ },
    position := ⟨x, y⟩, collected := false }

def Hammer.getBounds (h : Hammer) : Bounds :=
  h.sprite.getGlobalBounds

/-- Falling rock, `struct FallingRock`; `shapePos` is the position of its circle
shape, which the source moves only while the rock is active. -/
structure FallingRock where
  shapePos : Vector2f
  position : Vector2f
  velocity : Vector2f
  active : Bool
  triggered : Bool
  resetTimer : ℚ
  startY : ℚ
deriving DecidableEq

def FallingRock.new (x y : ℚ) : FallingRock :=
  { shapePos := ⟨x, y⟩, position := ⟨x, y⟩, velocity := ⟨0, 0⟩, active := false,
    triggered := false, resetTimer := 0, startY := y }

/-- The method `FallingRock::update`. -/
def FallingRock.update (playerBounds : FloatRect) (r : FallingRock) : FallingRock :=
  let r1 :=
    if !r.triggered && decide (r.resetTimer ≤ 0) then
      if decide (|playerBounds.left - r.position.x| < 40) &&
          decide (playerBounds.top > r.position.y) then
        { r with triggered := true, active := true }
      else r
    else r
  let r2 :=
    if r1.active then
      let vy := r1.velocity.y + 1 / 2
      let y := r1.position.y + vy
      if y > 650 then
        { r1 with active := false, triggered := false, resetTimer := 240,
                  position := ⟨r1.position.x, r1.startY⟩,
                  velocity := ⟨r1.velocity.x, 0⟩,
                  shapePos := ⟨r1.position.x, r1.startY⟩ }
      else
        { r1 with velocity := ⟨r1.velocity.x, vy⟩, position := ⟨r1.position.x, y⟩,
                  shapePos := ⟨r1.position.x, y⟩ }
    else r1
  if r2.resetTimer > 0 then { r2 with resetTimer := r2.resetTimer - 1 } else r2

def FallingRock.getBounds (env : Env) (r : FallingRock) : FloatRect :=
  ⟨r.shapePos.x + env.rockLocalBounds.left, r.shapePos.y + env.rockLocalBounds.top,
   env.rockLocalBounds.width, env.rockLocalBounds.height⟩

/-- Icicle, `struct Icicle`; `shapePos` is the position of its triangle shape,
which the source moves only while the icicle falls. -/
structure Icicle where
  shapePos : Vector2f
  position : Vector2f
  velocity : Vector2f
  falling : Bool
  fallTimer : ℚ
  resetTimer : ℚ
  startY : ℚ
deriving DecidableEq

/-- The constructor `Icicle(x, y)`. -/
def Icicle.new (x y : ℚ) : Icicle :=
  { shapePos := ⟨x, y⟩, position := ⟨x, y⟩, velocity := ⟨0, 0⟩, falling := false,
    fallTimer := 60, resetTimer := 0, startY := y }

/-- The proximity condition tested by `Icicle::update`:
`std::abs(playerBounds.left - position.x) < 40 && playerBounds.top < position.y`. -/
def Icicle.proximity (playerBounds : FloatRect) (i : Icicle) : Bool :=
  decide (|playerBounds.left - i.position.x| < 40) &&
    decide (playerBounds.top < i.position.y)

/-- First block of `Icicle::update`: the countdown while at rest. -/
def Icicle.arm (playerBounds : FloatRect) (i : Icicle) : Icicle :=
  if !i.falling && decide (i.resetTimer ≤ 0) then
    if i.proximity playerBounds then
      let fallTimer := i.fallTimer - 1
      if fallTimer ≤ 0 then { i with fallTimer := fallTimer, falling := true }
      else { i with fallTimer := fallTimer }
    else
      { i with fallTimer := 60 }
  else i

/-- Second block of `Icicle::update`: the fall and the reset past y = 650. -/
def Icicle.fall (i : Icicle) : Icicle :=
  if i.falling then
    let vy := i.velocity.y + 4 / 5
    let y := i.position.y + vy
    if y > 650 then
      { i with falling := false, resetTimer := 300,
               position := ⟨i.position.x, i.startY⟩,
               velocity := ⟨i.velocity.x, 0⟩, fallTimer := 60,
               shapePos := ⟨i.position.x, i.startY⟩ }
    else
      { i with velocity := ⟨i.velocity.x, vy⟩, position := ⟨i.position.x, y⟩,
               shapePos := ⟨i.position.x, y⟩ }
  else i

/-- Last statement of `Icicle::update`: `if (resetTimer > 0) resetTimer--`. -/
def Icicle.cool (i : Icicle) : Icicle :=
  if i.resetTimer > 0 then { i with resetTimer := i.resetTimer - 1 } else i

/-- The method `Icicle::update`: its three blocks in order. -/
def Icicle.update (playerBounds : FloatRect) (i : Icicle) : Icicle :=
  (Icicle.fall (Icicle.arm playerBounds i)).cool

def Icicle.getBounds (env : Env) (i : Icicle) : FloatRect :=
  ⟨i.shapePos.x + env.icicleLocalBounds.left, i.shapePos.y + env.icicleLocalBounds.top,
   env.icicleLocalBounds.width, env.icicleLocalBounds.height⟩

/-- The icicle after the ticks `0 .. n-1`, the player's bounds at tick `k` being
`bounds k`. -/
def Icicle.run (bounds : ℕ → FloatRect) : ℕ → Icicle → Icicle
  | 0, i => i
  | n + 1, i => Icicle.update (bounds n) (Icicle.run bounds n i)

/-- Lava pool, `struct LavaPool`: a rectangle of height 30 without outline. -/
structure LavaPool where
  shape : RectangleShape
  position : Vector2f
  animOffset : ℚ
deriving DecidableEq

def LavaPool.new (x y w : ℚ) : LavaPool :=
  { shape := { position := ⟨x, y⟩, size := ⟨w, 30⟩, outlineThickness := 0 },
    position := ⟨x, y⟩, animOffset := 0 }

/-- The method `LavaPool::update`: only the colour phase advances. -/
def LavaPool.update (l : LavaPool) : LavaPool :=
  { l with animOffset := l.animOffset + 1 / 10 }

def LavaPool.getBounds (l : LavaPool) : FloatRect :=
  l.shape.getGlobalBounds

/-- The simulation members of `class Player`. -/
structure Player where
  position : Vector2f
  velocity : Vector2f
  speed : ℚ
  jumpPower : ℚ
  grounded : Bool
  hasHammer : Bool
  facingDir : Int
deriving DecidableEq

/-- The constructor `Player(x, y)`. -/
def Player.new (x y : ℚ) : Player :=
  { position := ⟨x, y⟩, velocity := ⟨0, 0⟩, speed := 4, jumpPower := -12,
    grounded := false, hasHammer := false, facingDir := 1 }

/-- The method `Player::getBounds`: a 32 x 46 box at the position. -/
def Player.getBounds (p : Player) : FloatRect :=
  ⟨p.position.x, p.position.y, 32, 46⟩

/-- The method `Player::reset`. -/
def Player.reset (p : Player) (x y : ℚ) : Player :=
  { p with position := ⟨x, y⟩, velocity := ⟨0, 0⟩, grounded := false,
           hasHammer := false, facingDir := 1 }

/-! ## The game -/

/-- The simulation members of `class Game`. -/
structure Game where
  player : Player
  platforms : List Platform
  diamonds : List Diamond
  enemies : List Enemy
  fallingRocks : List FallingRock
  icicles : List Icicle
  lavaPools : List LavaPool
  hammer : Option Hammer
  exitDoor : RectangleShape
  state : GameState
  menuPage : MenuPage
  currentLevel : Int
  lives : Int
  diamondsCollected : Int
  score : Int
  friction : ℚ
  axeTexture : Texture
  axeLoaded : Bool
  diamondTexture : Texture
  diamondLoaded : Bool
  diamondTexture2 : Texture
  diamond2Loaded : Bool
  iceBlockLoaded : Bool
  seaweedLoaded : Bool
  doorLoaded : Bool
  batTextures : List Texture

def GRAVITY : ℚ := 1 / 2
def WINDOW_WIDTH : Int := 800
def WINDOW_HEIGHT : Int := 600
def WORLD_WIDTH : ℚ := 2400
def GROUND_Y : ℚ := 568

/-! ## The level builder, `Game::buildCommonLevelLayout` -/

/-- The integers `a, a+1, ..., b` of a loop `for (int c = a; c <= b; ++c)`. -/
def cols (a b : ℕ) : List ℕ :=
  (List.range (b + 1 - a)).map (fun i => a + i)

def blockSize : ℚ := 32

/-- A 32 x 32 tile at world position (x, y), as the three helper lambdas create
it: textured with the ice block on level 2 when that image is loaded, coloured
otherwise. -/
def addMainPlatform (g : Game) (x y : ℚ) : Platform :=
  if g.currentLevel = 2 ∧ g.iceBlockLoaded = true then
    Platform.ofTexture x y blockSize blockSize TileTexture.iceBlock false
  else
    Platform.ofColor x y blockSize blockSize false

/-- The lambda `addBlock(gx, gy)`: a tile on the 32-pixel grid. -/
def addBlock (g : Game) (gx gy : ℕ) : Platform :=
  addMainPlatform g (gx * blockSize) (gy * blockSize)

/-- The lambda `addPathTile(gx, heightOffset)`. -/
def addPathTile (g : Game) (gx heightOffset : ℕ) : Platform :=
  let basePathY := GROUND_Y - blockSize
  addMainPlatform g (gx * blockSize) (basePathY - heightOffset * blockSize)

/-- The icicle of the lambda `addIcicleWithBlock(gx, gy)`; its block is
`addBlock g gx gy`. -/
def icicleUnderBlock (gx gy : ℕ) : Icicle :=
  Icicle.new (gx * blockSize + blockSize / 2 - 4) ((gy + 1 : ℕ) * blockSize)

/-- Grid cells of the level-2 icicle blocks, in source order. -/
def icicleCells : List (ℕ × ℕ) :=
  [(6, 2), (12, 3), (18, 3), (24, 2), (30, 3), (36, 3), (42, 2)]

/-- The ground strip: columns 0 .. 74 at `GROUND_Y`. -/
def groundTiles (g : Game) : List Platform :=
  (List.range 75).map (fun (gx : ℕ) => addMainPlatform g (gx * blockSize) GROUND_Y)

/-- The decorative ceiling rows 0 and 1 (row 1 skips columns with gx % 4 == 1). -/
def ceilingTiles (g : Game) : List Platform :=
  (List.range 75).map (fun gx => addBlock g gx 0) ++
  ((List.range 75).filter (fun gx => gx % 4 ≠ 1)).map (fun gx => addBlock g gx 1)

def h1 : ℚ := GROUND_Y - 60
def h2 : ℚ := GROUND_Y - 120
def h3 : ℚ := GROUND_Y - 180

/-- The level-specific platforms ("CAVE PATH / PLATFORMS"). -/
def levelPlatforms (g : Game) : List Platform :=
  if g.currentLevel = 1 then
    (cols 1 6).map (fun gx => addBlock g gx 16) ++
    (cols 7 12).map (fun gx => addBlock g gx 15) ++
    (cols 13 18).map (fun gx => addBlock g gx 14) ++
    (cols 19 22).map (fun gx => addBlock g gx 15) ++
    (cols 23 26).map (fun gx => addBlock g gx 16) ++
    [addMainPlatform g 1080 h1, addMainPlatform g 1230 h2,
     addMainPlatform g 1564 h2, addMainPlatform g 1740 h1,
     addMainPlatform g 1900 h2, addMainPlatform g 2060 h1,
     addMainPlatform g 700 h3, addMainPlatform g 1600 h3]
  else if g.currentLevel = 2 then
    [addMainPlatform g 400 h1, addMainPlatform g 520 h2, addMainPlatform g 640 h1,
     addMainPlatform g 950 h2, addMainPlatform g 1030 h3, addMainPlatform g 1150 h2,
     addMainPlatform g 1500 h2, addMainPlatform g 1650 h3, addMainPlatform g 1820 h2,
     addMainPlatform g 1980 h1, addMainPlatform g 1350 h3]
  else []

/-- The "extra decorative blocks" and stalactites. -/
def decorTiles (g : Game) : List Platform :=
  (List.range 25).map (fun c => addBlock g c 0) ++
  (cols 3 7).map (fun c => addBlock g c 1) ++
  (cols 12 17).map (fun c => addBlock g c 1) ++
  (cols 20 23).map (fun c => addBlock g c 1) ++
  [addBlock g 5 2, addBlock g 5 3, addBlock g 14 2, addBlock g 14 3,
   addBlock g 21 2, addBlock g 21 3] ++
  (cols 25 49).map (fun c => addBlock g c 0) ++
  (cols 28 32).map (fun c => addBlock g c 1) ++
  (cols 40 44).map (fun c => addBlock g c 1) ++
  (cols 10 13).map (fun c => addBlock g c 8) ++
  (cols 35 38).map (fun c => addBlock g c 9)

/-- The bottom walkway.  Level 1: the float loop `x = 0, 32, ..., 2368` (75
coloured tiles at `GROUND_Y - 32`); level 2: the stepped path. -/
def pathTiles (g : Game) : List Platform :=
  if g.currentLevel = 1 then
    (List.range 75).map
      (fun (k : ℕ) =>
        Platform.ofColor (k * blockSize) (GROUND_Y - blockSize) blockSize blockSize false)
  else if g.currentLevel = 2 then
    (cols 0 8).map (fun gx => addPathTile g gx 0) ++
    (cols 9 13).map (fun gx => addPathTile g gx 1) ++
    (cols 15 20).map (fun gx => addPathTile g gx 0) ++
    (cols 21 24).map (fun gx => addPathTile g gx 2) ++
    (cols 26 32).map (fun gx => addPathTile g gx 1) ++
    (cols 33 70).map (fun gx => addPathTile g gx 0)
  else []

/-- The "extra end-of-level ice fix": the last three columns, path row then
ground row, only on level 2 with the ice image loaded. -/
def iceFixTiles (g : Game) : List Platform :=
  if g.currentLevel = 2 ∧ g.iceBlockLoaded = true then
    (cols 1 3).flatMap (fun (i : ℕ) =>
      [Platform.ofTexture (WORLD_WIDTH - i * blockSize) (GROUND_Y - blockSize)
         blockSize blockSize TileTexture.iceBlock false,
       Platform.ofTexture (WORLD_WIDTH - i * blockSize) GROUND_Y
         blockSize blockSize TileTexture.iceBlock false])
  else []

/-- The right-hand wall: column 74, rows 0 .. 16. -/
def wallTiles (g : Game) : List Platform :=
  (cols 0 16).map (fun gy => addBlock g 74 gy)

/-- The lambda `addColumnBlock(gx, gy)` of the level-3 layout. -/
def addColumnBlock (g : Game) (gx gy : ℕ) : Platform :=
  if g.seaweedLoaded = true then
    Platform.ofTexture (gx * blockSize) (gy * blockSize) blockSize blockSize
      TileTexture.seaweed false
  else
    Platform.ofColor (gx * blockSize) (gy * blockSize) blockSize blockSize false

/-- Floor height of column `gx` on level 3 (the `switch (gx % 7)`). -/
def floorHeight (gx : ℕ) : ℕ :=
  match gx % 7 with
  | 0 => 4
  | 1 => 4
  | 2 => 3
  | 3 => 3
  | 4 => 2
  | 5 => 2
  | _ => 1

/-- Ceiling height of column `gx` on level 3. -/
def ceilingHeight (gx : ℕ) : ℕ :=
  if gx % 5 = 0 ∨ gx % 5 = 3 then 3 else 2

/-- The level-3 tiles: per column the floor (rows 17, 16, ...) for all columns,
then per column the ceiling (rows 0, 1, ...). -/
def level3Tiles (g : Game) : List Platform :=
  let groundRow : ℕ := 17
  (List.range 75).flatMap (fun gx =>
    (List.range (floorHeight gx)).map (fun i => addColumnBlock g gx (groundRow - i))) ++
  (List.range 75).flatMap (fun gx =>
    (List.range (ceilingHeight gx)).map (fun gy => addColumnBlock g gx gy))

/-- The tile list at the end of `buildCommonLevelLayout`, in vector order. -/
def buildPlatforms (g : Game) : List Platform :=
  if g.currentLevel = 3 then level3Tiles g
  else
    groundTiles g ++ ceilingTiles g ++ levelPlatforms g ++ decorTiles g ++
    pathTiles g ++ iceFixTiles g ++ wallTiles g ++
    (if g.currentLevel = 2 then icicleCells.map (fun c => addBlock g c.1 c.2) else [])

/-- The ten diamonds, all with texture `tex`. -/
def buildDiamonds (tex : Texture) : List Diamond :=
  [Diamond.new (320 + 4) (h2 - 40) tex, Diamond.new (600 + 4) (h2 - 40) tex,
   Diamond.new (930 + 4) (h2 - 40) tex, Diamond.new (1230 + 4) (h2 - 40) tex,
   Diamond.new (1420 + 4) (h1 - 40) tex, Diamond.new (1580 + 4) (h2 - 40) tex,
   Diamond.new (1900 + 4) (h2 - 40) tex, Diamond.new (2060 + 4) (h1 - 40) tex,
   Diamond.new (700 + 4) (h3 - 40) tex, Diamond.new (1600 + 4) (h3 - 40) tex]

/-- The enemies of the level. -/
def buildEnemies (g : Game) : List Enemy :=
  if g.currentLevel = 1 then
    [Enemy.new 550 (h2 - 40) 1 480 720 g.batTextures,
     Enemy.new 1150 (h2 - 40) (6 / 5) 1080 1350 g.batTextures,
     Enemy.new 1850 (h2 - 80) 1 1780 2100 g.batTextures]
  else if g.currentLevel = 2 then
    [Enemy.new 520 (h2 - 50) (3 / 2) 380 680 g.batTextures,
     Enemy.new 1030 (h3 - 50) (8 / 5) 940 1180 g.batTextures,
     Enemy.new 1600 (h2 - 40) (17 / 10) 1480 1760 g.batTextures,
     Enemy.new 1900 (h2 - 60) (9 / 5) 1820 2140 g.batTextures]
  else []

/-- The hammer: present only when the axe image is loaded. -/
def buildHammer (g : Game) : Option Hammer :=
  let hammerX : ℚ := if g.currentLevel = 2 then 1600 else 1100
  let hammerY : ℚ := if g.currentLevel = 2 then h3 - 30 else h2 - 30
  if g.axeLoaded then some (Hammer.new hammerX hammerY g.axeTexture) else none

/-- The exit door: a 40 x 70 rectangle next to the right wall. -/
def buildExitDoor (g : Game) : RectangleShape :=
  let doorWidth : ℚ := 40
  let doorHeight : ℚ := 70
  let doorX := WORLD_WIDTH - 72
  let doorY := (GROUND_Y - doorHeight) - 32
  { g.exitDoor with size := ⟨doorWidth, doorHeight⟩, position := ⟨doorX, doorY⟩ }

/-- The method `Game::buildCommonLevelLayout`. -/
def Game.buildCommonLevelLayout (env : Env) (g : Game) : Game :=
  let diamondLoaded := g.diamondLoaded || env.diamondPng.isSome
  let diamondTexture := env.diamondPng.getD g.diamondTexture
  let diamond2Loaded := g.diamond2Loaded || env.diamond2Png.isSome
  let diamondTexture2 := env.diamond2Png.getD g.diamondTexture2
  let diamondTexToUse :=
    if g.currentLevel = 2 ∧ diamond2Loaded = true then diamondTexture2 else diamondTexture
  { g with
    platforms := buildPlatforms g
    diamonds := buildDiamonds diamondTexToUse
    enemies := buildEnemies g
    fallingRocks := []
    icicles := if g.currentLevel = 2 then icicleCells.map (fun c => icicleUnderBlock c.1 c.2)
               else []
    lavaPools := []
    hammer := buildHammer g
    exitDoor := buildExitDoor g
    friction := 17 / 20
    diamondLoaded := diamondLoaded
    diamondTexture := diamondTexture
    diamond2Loaded := diamond2Loaded
    diamondTexture2 := diamondTexture2
    player := g.player.reset 50 (GROUND_Y - 60) }

/-- The method `Game::loadLevel`. -/
def Game.loadLevel (env : Env) (level : Int) (g : Game) : Game :=
  Game.buildCommonLevelLayout env { g with currentLevel := level }

/-! ## The per-tick update, `Game::update` -/

/-- Input section of `Game::update`: horizontal velocity from the held keys,
facing direction, jump. -/
def applyInput (inp : Input) (p : Player) : Player :=
  let vx0 : ℚ := 0
  let vx1 := if inp.left then vx0 - p.speed else vx0
  let vx2 := if inp.right then vx1 + p.speed else vx1
  let facing1 := if vx2 > 0 then 1 else p.facingDir
  let facing2 := if vx2 < 0 then -1 else facing1
  let p1 := { p with velocity := ⟨vx2, p.velocity.y⟩, facingDir := facing2 }
  if inp.jump && p1.grounded then
    { p1 with velocity := ⟨p1.velocity.x, p1.jumpPower⟩, grounded := false }
  else p1

/-- Body of the horizontal collision loop for one tile. -/
def resolveHorizontal (p : Player) (platform : Platform) : Player :=
  let playerBounds := p.getBounds
  let platformBounds := platform.shape.getGlobalBounds
  if playerBounds.intersects platformBounds then
    if p.velocity.x > 0 then
      { p with position := ⟨platformBounds.left - playerBounds.width, p.position.y⟩ }
    else if p.velocity.x < 0 then
      { p with position := ⟨platformBounds.left + platformBounds.width, p.position.y⟩ }
    else p
  else p

/-- The horizontal pass: move by the horizontal velocity, then test every tile
in order. -/
def horizontalPass (platforms : List Platform) (p : Player) : Player :=
  platforms.foldl resolveHorizontal
    { p with position := ⟨p.position.x + p.velocity.x, p.position.y⟩ }

/-- Body of the vertical collision loop for one tile; `vyBefore` is the vertical
velocity after gravity.  Returns the player and the tile (whose rest timer
grows when it is breakable and landed on). -/
def resolveVertical (vyBefore : ℚ) (p : Player) (platform : Platform) : Player × Platform :=
  let playerBounds := p.getBounds
  let platformBounds := platform.shape.getGlobalBounds
  if playerBounds.intersects platformBounds then
    if vyBefore > 0 then
      ({ p with position := ⟨p.position.x, platformBounds.top - playerBounds.height⟩,
                velocity := ⟨p.velocity.x, 0⟩, grounded := true },
       if platform.breakable then { platform with breakTimer := platform.breakTimer + 1 }
       else platform)
    else if vyBefore < 0 then
      ({ p with position := ⟨p.position.x, platformBounds.top + platformBounds.height⟩,
                velocity := ⟨p.velocity.x, 0⟩ },
       platform)
    else (p, platform)
  else (p, platform)

/-- The vertical collision loop over the tiles, in order. -/
def verticalLoop (vyBefore : ℚ) : Player → List Platform → Player × List Platform
  | p, [] => (p, [])
  | p, platform :: rest =>
    let r := resolveVertical vyBefore p platform
    let rs := verticalLoop vyBefore r.1 rest
    (rs.1, r.2 :: rs.2)

/-- The vertical pass: gravity, move, clear `grounded`, then test every tile. -/
def verticalPass (platforms : List Platform) (p : Player) : Player × List Platform :=
  let vy := p.velocity.y + GRAVITY
  let vyBefore := vy
  verticalLoop vyBefore
    { p with velocity := ⟨p.velocity.x, vy⟩,
             position := ⟨p.position.x, p.position.y + vy⟩,
             grounded := false }
    platforms

/-- The world-bounds clamp of the horizontal position. -/
def clampToWorld (p : Player) : Player :=
  let p1 := if p.position.x < 0 then { p with position := ⟨0, p.position.y⟩ } else p
  if p1.position.x + 32 > WORLD_WIDTH then
    { p1 with position := ⟨WORLD_WIDTH - 32, p1.position.y⟩ }
  else p1

/-- The physics part of a tick: input, horizontal pass, vertical pass, clamp. -/
def physics (inp : Input) (g : Game) : Game :=
  let p1 := applyInput inp g.player
  let p2 := horizontalPass g.platforms p1
  let r := verticalPass g.platforms p2
  { g with player := clampToWorld r.1, platforms := r.2 }

/-- The life-loss rule, repeated verbatim at every hazard in `Game::update`:
`lives--`, then game over or a rebuild of the current level. -/
def loseLife (env : Env) (g : Game) : Game :=
  let g1 := { g with lives := g.lives - 1 }
  if g1.lives ≤ 0 then { g1 with state := GameState.GAME_OVER }
  else Game.loadLevel env g1.currentLevel g1

/-- Body of the diamond loop for one diamond: returns the diamond and the
counters `diamondsCollected` and `score` (`diamondsCollected++` and
`score += 50` are `int` additions). -/
def collectDiamond (env : Env) (p : Player) (d : Diamond) (dc sc : Int) :
    Diamond × Int × Int :=
  let d1 := d.update env
  if !d1.collected && p.getBounds.intersects d1.getBounds then
    ({ d1 with collected := true }, wrapInt (dc + 1), wrapInt (sc + 50))
  else (d1, dc, sc)

/-- The diamond loop ("Collectables"). -/
def collectDiamonds (env : Env) (p : Player) :
    List Diamond → Int → Int → List Diamond × Int × Int
  | [], dc, sc => ([], dc, sc)
  | d :: ds, dc, sc =>
    let r := collectDiamond env p d dc sc
    let rs := collectDiamonds env p ds r.2.1 r.2.2
    (r.1 :: rs.1, rs.2.1, rs.2.2)

/-- The collectible step of a tick on the game. -/
def collectablesStep (env : Env) (g : Game) : Game :=
  let r := collectDiamonds env g.player g.diamonds g.diamondsCollected g.score
  { g with diamonds := r.1, diamondsCollected := r.2.1, score := r.2.2 }

/-- The hammer pickup step of a tick (`score += 75` is an `int` addition). -/
def hammerStep (g : Game) : Game :=
  match g.hammer with
  | none => g
  | some h =>
    if !h.collected && g.player.getBounds.intersects h.getBounds then
      { g with hammer := some { h with collected := true },
               player := { g.player with hasHammer := true },
               score := wrapInt (g.score + 75) }
    else g

/-- The enemy loop: every enemy is updated and tested in order until the first
contact; returns the enemies and whether a contact occurred. -/
def updateEnemies (env : Env) (textures : List Texture) (playerBounds : FloatRect) :
    List Enemy → List Enemy × Bool
  | [] => ([], false)
  | e :: es =>
    let e1 := e.update env textures
    if playerBounds.intersects e1.getBounds then (e1 :: es, true)
    else
      let rs := updateEnemies env textures playerBounds es
      (e1 :: rs.1, rs.2)

/-- The falling-rock loop, with contact only while the rock is active. -/
def updateRocks (env : Env) (playerBounds : FloatRect) :
    List FallingRock → List FallingRock × Bool
  | [] => ([], false)
  | r :: rs =>
    let r1 := r.update playerBounds
    if r1.active && playerBounds.intersects (r1.getBounds env) then (r1 :: rs, true)
    else
      let rest := updateRocks env playerBounds rs
      (r1 :: rest.1, rest.2)

/-- The icicle loop, with contact only while the icicle falls. -/
def updateIcicles (env : Env) (playerBounds : FloatRect) :
    List Icicle → List Icicle × Bool
  | [] => ([], false)
  | i :: is =>
    let i1 := i.update playerBounds
    if i1.falling && playerBounds.intersects (i1.getBounds env) then (i1 :: is, true)
    else
      let rest := updateIcicles env playerBounds is
      (i1 :: rest.1, rest.2)

/-- The lava loop. -/
def updateLava (playerBounds : FloatRect) : List LavaPool → List LavaPool × Bool
  | [] => ([], false)
  | l :: ls =>
    let l1 := l.update
    if playerBounds.intersects l1.getBounds then (l1 :: ls, true)
    else
      let rest := updateLava playerBounds ls
      (l1 :: rest.1, rest.2)

/-- The exit test at the end of a tick. -/
def exitStep (g : Game) : Game :=
  if g.player.hasHammer && g.player.getBounds.intersects g.exitDoor.getGlobalBounds then
    { g with state := GameState.LEVEL_COMPLETE }
  else g

/-- The hazard part of a tick, after the pickups: enemies, rocks, icicles, lava
(each ending the tick with a life loss on contact), then the exit test. -/
def hazardsAndExit (env : Env) (g : Game) : Game :=
  let re := updateEnemies env g.batTextures g.player.getBounds g.enemies
  let g1 := { g with enemies := re.1 }
  if re.2 then loseLife env g1
  else
    let rr := updateRocks env g1.player.getBounds g1.fallingRocks
    let g2 := { g1 with fallingRocks := rr.1 }
    if rr.2 then loseLife env g2
    else
      let ri := updateIcicles env g2.player.getBounds g2.icicles
      let g3 := { g2 with icicles := ri.1 }
      if ri.2 then loseLife env g3
      else
        let rl := updateLava g3.player.getBounds g3.lavaPools
        let g4 := { g3 with lavaPools := rl.1 }
        if rl.2 then loseLife env g4
        else exitStep g4

/-- The method `Game::update`: one tick. -/
def Game.update (env : Env) (inp : Input) (g : Game) : Game :=
  if g.state ≠ GameState.PLAYING then g
  else
    let g1 := physics inp g
    if g1.player.position.y > WINDOW_HEIGHT + 200 then loseLife env g1
    else hazardsAndExit env (hammerStep (collectablesStep env g1))

/-! ## Input handling, `Game::handleInput` -/

/-- SFML 2.x `Rect<T>::contains(x, y)`: the left and top edges are inside, the
right and bottom edges are not. -/
def FloatRect.contains (r : FloatRect) (x y : ℚ) : Bool :=
  let minX := min r.left (r.left + r.width)
  let maxX := max r.left (r.left + r.width)
  let minY := min r.top (r.top + r.height)
  let maxY := max r.top (r.top + r.height)
  decide (x ≥ minX) && decide (x < maxX) && decide (y ≥ minY) && decide (y < maxY)

/-- The key codes `handleInput` tests. -/
inductive Key where
  | Enter
  | Escape
  | R
  | Other
deriving DecidableEq

/-- A window event as `handleInput` reads it.  A mouse press carries the pixel
position that `sf::Mouse::getPosition(window)` returns while it is handled. -/
inductive Event where
  | Closed
  | MouseButtonPressed (mouseX mouseY : Int)
  | KeyPressed (code : Key)
  | Other
deriving DecidableEq

/-- The menu buttons as they stand when `handleInput` runs.  They are members of
`Game` that the constructor places and that the menu drawing code restyles
(position, outline thickness) every frame; `handleInput` only reads them.  The
volume buttons are left out with the music settings they change. -/
structure MenuUi where
  startButton : RectangleShape
  mapButton : RectangleShape
  settingsButton : RectangleShape
  instructionsButton : RectangleShape
  shopButton : RectangleShape
  backButton : RectangleShape

/-- The start command, written twice in `handleInput` (start button and Enter):
`lives = 3; score = 0; diamondsCollected = 0; loadLevel(1); state = PLAYING`. -/
def startGame (env : Env) (g : Game) : Game :=
  { Game.loadLevel env 1 { g with lives := 3, score := 0, diamondsCollected := 0 } with
    state := GameState.PLAYING }

/-- The mouse-press block of the menu branch. -/
def menuClick (env : Env) (ui : MenuUi) (mouseX mouseY : Int) (g : Game) : Game :=
  if g.menuPage = MenuPage.MAIN_MENU then
    if ui.startButton.getGlobalBounds.contains mouseX mouseY then startGame env g
    else if ui.mapButton.getGlobalBounds.contains mouseX mouseY then
      { g with menuPage := MenuPage.MAP_PAGE }
    else if ui.settingsButton.getGlobalBounds.contains mouseX mouseY then
      { g with menuPage := MenuPage.SETTINGS_PAGE }
    else if ui.instructionsButton.getGlobalBounds.contains mouseX mouseY then
      { g with menuPage := MenuPage.INSTRUCTIONS_PAGE }
    else if ui.shopButton.getGlobalBounds.contains mouseX mouseY then
      { g with menuPage := MenuPage.SHOP_PAGE }
    else g
  else
    if ui.backButton.getGlobalBounds.contains mouseX mouseY then
      { g with menuPage := MenuPage.MAIN_MENU }
    else g

/-- The key block outside the menu: Escape toggles pause, R restarts the level
while Playing, Enter advances from LEVEL_COMPLETE and acknowledges GAME_OVER. -/
def keyPressed (env : Env) (code : Key) (g : Game) : Game :=
  let g1 :=
    if code = Key.Escape then
      { g with state :=
          if g.state = GameState.PLAYING then GameState.PAUSED
          else if g.state = GameState.PAUSED then GameState.PLAYING
          else g.state }
    else g
  let g2 :=
    if code = Key.R ∧ g1.state = GameState.PLAYING then Game.loadLevel env g1.currentLevel g1
    else g1
  if code = Key.Enter then
    if g2.state = GameState.LEVEL_COMPLETE then
      if g2.currentLevel < 4 then
        { Game.loadLevel env (g2.currentLevel + 1) g2 with state := GameState.PLAYING }
      else
        { g2 with state := GameState.MENU, menuPage := MenuPage.MAIN_MENU }
    else if g2.state = GameState.GAME_OVER then
      { g2 with state := GameState.MENU, menuPage := MenuPage.MAIN_MENU }
    else g2
  else g2

/-- The body of the event loop of `handleInput` for one event (closing the
window is not part of the simulation state). -/
def handleEvent (env : Env) (ui : MenuUi) (event : Event) (g : Game) : Game :=
  if g.state = GameState.MENU then
    let g1 :=
      match event with
      | Event.MouseButtonPressed mouseX mouseY => menuClick env ui mouseX mouseY g
      | _ => g
    match event with
    | Event.KeyPressed Key.Enter => startGame env g1
    | _ => g1
  else
    match event with
    | Event.KeyPressed code => keyPressed env code g
    | _ => g

/-- The method `Game::handleInput`: every pending event in order. -/
def Game.handleInput (env : Env) (ui : MenuUi) (events : List Event) (g : Game) : Game :=
  events.foldl (fun acc event => handleEvent env ui event acc) g

/-! ## Fixtures for concrete evaluation -/

/-- An environment with a flat sine, no image files and empty shape bounds. -/
def Env.still : Env :=
  { sin := fun _ => 0, diamondPng := none, diamond2Png := none,
    rockLocalBounds := ⟨0, 0, 0, 0⟩, icicleLocalBounds := ⟨0, 0, 0, 0⟩ }

/-- The patrol invariant: the position is within one step of the patrol range
and, when strictly outside the range, the direction points back to it. -/
def Enemy.PatrolInv (e : Enemy) : Prop :=
  e.minX - e.speed ≤ e.position.x ∧ e.position.x ≤ e.maxX + e.speed ∧
  (e.direction = 1 ∨ e.direction = -1) ∧
  (e.maxX < e.position.x → e.direction = -1) ∧
  (e.position.x < e.minX → e.direction = 1)

/-- The player's box when its left edge is at `x` and its top edge at `y`. -/
def playerBox (x y : ℚ) : FloatRect :=
  ⟨x, y, 32, 46⟩

/-- A coloured 32 x 32 tile whose bounds (outline included) have their top edge
at y = 46. -/
def sampleFloor : Platform :=
  Platform.ofColor 0 48 32 32 false

/-- A coloured 32 x 32 tile to the right of the origin: bounds 34 .. 70. -/
def sampleBlock : Platform :=
  Platform.ofColor 36 0 32 32 false

/-- A player at the origin, at rest. -/
def samplePlayer : Player :=
  Player.new 0 0

/-- The sample player with the right key held: velocity.x = +speed = 4. -/
def samplePusher : Player :=
  applyInput ⟨false, true, false⟩ samplePlayer

/-- The countdown invariant of an icicle `s` reached at tick `n` of a run from
`i0`: the reset timer is a whole number, and while the icicle is at rest its
fall timer is `60 - m` where the last `m` ticks all saw the icicle at rest with
the proximity condition true (and `m = 0` during the reset cooldown). -/
def Icicle.Armed (bounds : ℕ → FloatRect) (i0 : Icicle) (n : ℕ) (s : Icicle) : Prop :=
  (∃ r : ℕ, s.resetTimer = r) ∧
  (s.falling = false →
    ∃ m : ℕ, m ≤ 59 ∧ m ≤ n ∧ s.fallTimer = 60 - m ∧ (0 < s.resetTimer → m = 0) ∧
      ∀ k, 1 ≤ k → k ≤ m →
        (Icicle.run bounds (n - k) i0).falling = false ∧
        (Icicle.run bounds (n - k) i0).proximity (bounds (n - k)) = true)

/-- The first icicle of level 2, under the block at grid cell (6, 2). -/
def sampleIcicle : Icicle :=
  icicleUnderBlock 6 2

/-- Player bounds next to and above `sampleIcicle`. -/
def sampleNear : FloatRect :=
  playerBox 200 50

/-- Player bounds far to the right of `sampleIcicle`. -/
def sampleFar : FloatRect :=
  playerBox 900 50

/-- A small Playing state: the player at the origin, no tiles, no entities,
three lives, a 40 x 40 bat image. -/
def sampleGame : Game :=
  { player := Player.new 0 0, platforms := [], diamonds := [], enemies := [],
    fallingRocks := [], icicles := [], lavaPools := [], hammer := none,
    exitDoor := RectangleShape.default, state := GameState.PLAYING,
    menuPage := MenuPage.MAIN_MENU, currentLevel := 1, lives := 3,
    diamondsCollected := 0, score := 0, friction := 17 / 20,
    axeTexture := ⟨65, 65⟩, axeLoaded := true,
    diamondTexture := ⟨26, 26⟩, diamondLoaded := true,
    diamondTexture2 := ⟨26, 26⟩, diamond2Loaded := true,
    iceBlockLoaded := true, seaweedLoaded := true, doorLoaded := true,
    batTextures := [⟨40, 40⟩] }

/-- The second enemy of level 1 as `buildEnemies` creates it in the sample state:
x = 1150, speed 1.2, patrol range 1080 .. 1350. -/
def level1Bat : Enemy :=
  Enemy.new 1150 (h2 - 40) (6 / 5) 1080 1350 sampleGame.batTextures

/-- No key held. -/
def noInput : Input :=
  ⟨false, false, false⟩

/-- A 26 x 26 diamond at the origin. -/
def sampleDiamond : Diamond :=
  Diamond.new 0 0 ⟨26, 26⟩

/-- A bat at the origin with a 40 x 40 image, patrolling -100 .. 100. -/
def sampleEnemy : Enemy :=
  Enemy.new 0 0 1 (-100) 100 [⟨40, 40⟩]

/-- The sample state on its last life with the player far below the window. -/
def fallingGame : Game :=
  { sampleGame with lives := 1, player := Player.new 0 900 }

/-- The sample diamond, already collected. -/
def takenDiamond : Diamond :=
  { sampleDiamond with collected := true }

/-- The sample state with both the sample diamond and the sample enemy on the
player. -/
def contactGame : Game :=
  { sampleGame with diamonds := [sampleDiamond], enemies := [sampleEnemy] }

/-- The sample state with only the sample enemy on the player. -/
def enemyGame : Game :=
  { sampleGame with enemies := [sampleEnemy] }

/-- The sample state with the exit door on a player who holds the hammer. -/
def doorGame : Game :=
  { sampleGame with
    player := { Player.new 0 0 with hasHammer := true }
    exitDoor := { position := ⟨0, 0⟩, size := ⟨40, 70⟩, outlineThickness := 0 }
    diamonds := [sampleDiamond] }

/-- The door state with the sample enemy on the player as well. -/
def doorEnemyGame : Game :=
  { doorGame with enemies := [sampleEnemy] }

/-- Two games have the same setup when they agree on what a rebuild reads (the
player's speed and jump power, the door shape, the flow state, the loaded
images) and on the current level and the lives. -/
def SameSetup (a b : Game) : Prop :=
  a.player.speed = b.player.speed ∧ a.player.jumpPower = b.player.jumpPower ∧
  a.exitDoor = b.exitDoor ∧ a.state = b.state ∧ a.menuPage = b.menuPage ∧
  (a.axeTexture = b.axeTexture ∧ a.axeLoaded = b.axeLoaded) ∧
  (a.diamondTexture = b.diamondTexture ∧ a.diamondLoaded = b.diamondLoaded ∧
    a.diamondTexture2 = b.diamondTexture2 ∧ a.diamond2Loaded = b.diamond2Loaded) ∧
  (a.iceBlockLoaded = b.iceBlockLoaded ∧ a.seaweedLoaded = b.seaweedLoaded ∧
    a.doorLoaded = b.doorLoaded ∧ a.batTextures = b.batTextures) ∧
  a.currentLevel = b.currentLevel ∧ a.lives = b.lives

/-- The menu buttons as the constructor places them (outline thickness 2). -/
def sampleUi : MenuUi :=
  { startButton := { position := ⟨270, 400⟩, size := ⟨260, 50⟩, outlineThickness := 2 }
    mapButton := { position := ⟨270, 190⟩, size := ⟨260, 40⟩, outlineThickness := 2 }
    settingsButton := { position := ⟨270, 240⟩, size := ⟨260, 40⟩, outlineThickness := 2 }
    instructionsButton := { position := ⟨270, 290⟩, size := ⟨260, 40⟩, outlineThickness := 2 }
    shopButton := { position := ⟨270, 340⟩, size := ⟨260, 40⟩, outlineThickness := 2 }
    backButton := { position := ⟨40, 520⟩, size := ⟨120, 35⟩, outlineThickness := 2 } }

/-- The sample state after level 4 was completed. -/
def completeGame4 : Game :=
  { sampleGame with state := GameState.LEVEL_COMPLETE, currentLevel := 4, score := 700,
                    diamondsCollected := 9, lives := 2 }

/-- The sample state after level 2 was completed, the player holding the hammer. -/
def completeGame2 : Game :=
  { sampleGame with state := GameState.LEVEL_COMPLETE, currentLevel := 2, score := 300,
                    diamondsCollected := 4, lives := 2,
                    player := { Player.new 2300 490 with hasHammer := true } }

/-- The sample state back in the menu after a lost run. -/
def menuGame : Game :=
  { sampleGame with state := GameState.MENU, currentLevel := 3, score := 425,
                    diamondsCollected := 7, lives := 0 }

/-- The sample state, Playing, with the player holding the hammer. -/
def armedGame : Game :=
  { sampleGame with player := { Player.new 300 400 with hasHammer := true } }

/-- The sample state, paused. -/
def pausedGame : Game :=
  { sampleGame with state := GameState.PAUSED }

/-- Position, size and breakable flag of a tile. -/
def Platform.geometry (t : Platform) : Vector2f × Vector2f × Bool :=
  (t.shape.position, t.shape.size, t.breakable)

/-- A tile whose shape is 32 x 32. -/
def Platform.Sized (t : Platform) : Prop :=
  t.shape.size = ⟨32, 32⟩

/-- A coordinate that is an integer multiple of 32. -/
def OnGrid (x : ℚ) : Prop :=
  ∃ k : ℤ, x = 32 * k

/-- Floor height of column `gx` on level 3 in the words of the specification:
4, 3, 2, 1 for gx mod 7 in {0,1}, {2,3}, {4,5}, {6}. -/
def specFloorHeight (gx : ℕ) : ℕ :=
  if gx % 7 = 0 ∨ gx % 7 = 1 then 4
  else if gx % 7 = 2 ∨ gx % 7 = 3 then 3
  else if gx % 7 = 4 ∨ gx % 7 = 5 then 2
  else 1

/-- Ceiling height of column `gx` on level 3 in the words of the specification:
3 when gx mod 5 is 0 or 3, and 2 otherwise. -/
def specCeilingHeight (gx : ℕ) : ℕ :=
  if gx % 5 = 0 ∨ gx % 5 = 3 then 3 else 2

/-- The sample state without the ice block image. -/
def noIceGame : Game :=
  { sampleGame with iceBlockLoaded := false }

/-- The sample state without the axe image. -/
def noAxeGame : Game :=
  { sampleGame with axeLoaded := false }

/-- The sample icicle late in its fall: after 36 fall steps from y = 96 it is at
y = 628.8 with vertical velocity 28.8, so the next step takes it past y = 650. -/
def droppingIcicle : Icicle :=
  { sampleIcicle with falling := true, fallTimer := 0, position := ⟨204, 3144 / 5⟩,
                      shapePos := ⟨204, 3144 / 5⟩, velocity := ⟨0, 144 / 5⟩ }

/-- A tile whose bounds the player's box at the spawn point (50, GROUND_Y - 60)
does not intersect. -/
def Platform.ClearOfSpawn (t : Platform) : Prop :=
  (playerBox 50 (GROUND_Y - 60)).intersects t.shape.getGlobalBounds = false

/-- The image files the constructor `Game::Game` reads (the simulation uses the
frames of the bat, the axe image and whether the tile and door images load). -/
structure Assets where
  /-- Result of loading `tiles/bat<i>.png` (none when the load fails). -/
  batPng : ℕ → Option Texture
  /-- Result of loading `tiles/axe.png`. -/
  axePng : Option Texture
  /-- Whether `tiles/door.png` loads. -/
  doorPngLoads : Bool
  /-- Whether `tiles/iceBlock.png` loads. -/
  iceBlockPngLoads : Bool
  /-- Whether `tiles/seaweed.png` loads. -/
  seaweedPngLoads : Bool

/-- The frame loading loop of the constructor: the files are loaded in order
and the loop ends at the first one that fails. -/
def loadFrames (png : ℕ → Option Texture) : List ℕ → List Texture
  | [] => []
  | i :: rest =>
    match png i with
    | none => []
    | some tex => tex :: loadFrames png rest

/-- The constructor `Game::Game`: the member initialisers (player at (100, 300),
state MENU on the main page, level 1, three lives, counters 0, no hammer,
friction 0.85) and the image loading; every list is empty and no diamond image
is loaded yet. -/
def Game.new (a : Assets) : Game :=
  { player := Player.new 100 300, platforms := [], diamonds := [], enemies := [],
    fallingRocks := [], icicles := [], lavaPools := [], hammer := none,
    exitDoor := RectangleShape.default, state := GameState.MENU,
    menuPage := MenuPage.MAIN_MENU, currentLevel := 1, lives := 3,
    diamondsCollected := 0, score := 0, friction := 17 / 20,
    axeTexture := a.axePng.getD ⟨0, 0⟩, axeLoaded := a.axePng.isSome,
    diamondTexture := ⟨0, 0⟩, diamondLoaded := false,
    diamondTexture2 := ⟨0, 0⟩, diamond2Loaded := false,
    iceBlockLoaded := a.iceBlockPngLoads, seaweedLoaded := a.seaweedPngLoads,
    doorLoaded := a.doorPngLoads,
    batTextures := loadFrames a.batPng (cols 1 9) }

/-- One call made by the loop of `Game::run`: `handleInput` with the pending
events, or `update` with the keys held; each with what it reads from outside. -/
inductive Step where
  | input (env : Env) (ui : MenuUi) (events : List Event)
  | tick (env : Env) (inp : Input)

def Step.apply : Step → Game → Game
  | Step.input env ui events, g => Game.handleInput env ui events g
  | Step.tick env inp, g => Game.update env inp g

/-- The game after a sequence of calls, in order. -/
def Game.runSteps (steps : List Step) (g : Game) : Game :=
  steps.foldl (fun acc s => s.apply acc) g

/-- The flow invariant on the state, the lives and the current level: lives in
0 .. 3, at least one life while Playing, Paused or LevelComplete, no life in
GameOver, and the level in 1 .. 4. -/
def FlowInv (state : GameState) (lives level : Int) : Prop :=
  0 ≤ lives ∧ lives ≤ 3 ∧
  ((state = GameState.PLAYING ∨ state = GameState.PAUSED ∨
      state = GameState.LEVEL_COMPLETE) → 1 ≤ lives) ∧
  (state = GameState.GAME_OVER → lives = 0) ∧
  1 ≤ level ∧ level ≤ 4

/-- An asset set in which every image loads. -/
def sampleAssets : Assets :=
  { batPng := fun _ => some ⟨40, 40⟩, axePng := some ⟨65, 65⟩, doorPngLoads := true,
    iceBlockPngLoads := true, seaweedPngLoads := true }

/-- A textured 32 x 32 tile with bounds x 110 .. 142, y 0 .. 32. -/
def rightTile : Platform :=
  Platform.ofTexture 110 0 32 32 TileTexture.iceBlock false

/-- A textured 32 x 32 tile with bounds x 60 .. 92, y 0 .. 32. -/
def leftTile : Platform :=
  Platform.ofTexture 60 0 32 32 TileTexture.iceBlock false

/-- A player at (96, 0) moving right with velocity.x = 4; its box, x 96 .. 128,
already overlaps `rightTile`. -/
def overlappingPusher : Player :=
  { Player.new 96 0 with velocity := ⟨4, 0⟩ }

/-- A textured 32 x 32 tile under the origin: bounds x 0 .. 32, y 46 .. 78. -/
def restTile : Platform :=
  Platform.ofTexture 0 46 32 32 TileTexture.iceBlock false

/-- A textured 32 x 32 tile over the origin whose bottom edge is at y = 0.5:
bounds x 0 .. 32, y -31.5 .. 0.5. -/
def headTile : Platform :=
  Platform.ofTexture 0 (-63 / 2) 32 32 TileTexture.iceBlock false

/-- The sample state with the player standing on `restTile` alone. -/
def restOnlyGame : Game :=
  { sampleGame with platforms := [restTile] }

/-- The sample state with the player standing on `restTile`, the tile `headTile`
listed after it. -/
def restGame : Game :=
  { sampleGame with platforms := [restTile, headTile] }

/-- A textured 32 x 32 tile left of the world: bounds x -10 .. 22, y 46 .. 78. -/
def outsideTile : Platform :=
  Platform.ofTexture (-10) 46 32 32 TileTexture.iceBlock false

/-- The sample state with the player standing on `outsideTile` at x = -10. -/
def outsideGame : Game :=
  { sampleGame with player := Player.new (-10) 0, platforms := [outsideTile] }

theorem wrapInt_range (n : Int) : -2147483648 ≤ wrapInt n ∧ wrapInt n ≤ 2147483647 := by
  unfold wrapInt
  omega

theorem wrapInt_add_wrapInt (a b : Int) : wrapInt (wrapInt a + b) = wrapInt (a + b) := by
  unfold wrapInt
  omega

theorem Enemy.update_patrol (env : Env) (textures : List Texture) (e : Enemy) :
    (e.update env textures).position.x = e.patrol.position.x ∧
    (e.update env textures).direction = e.patrol.direction ∧
    (e.update env textures).speed = e.speed ∧
    (e.update env textures).minX = e.minX ∧
    (e.update env textures).maxX = e.maxX := by
  unfold Enemy.update
  cases textures <;> simp only [] <;> split <;> simp [Enemy.patrol]

theorem Enemy.patrolInv_patrol (e : Enemy) (hs : 0 ≤ e.speed) (h : e.PatrolInv) :
    e.patrol.PatrolInv ∧ e.patrol.speed = e.speed ∧ e.patrol.minX = e.minX ∧
      e.patrol.maxX = e.maxX := by
  obtain ⟨h1, h2, h3, h4, h5⟩ := h
  refine ⟨?_, rfl, rfl, rfl⟩
  unfold Enemy.PatrolInv Enemy.patrol
  simp only []
  rcases h3 with hd | hd
  · have hx : e.position.x ≤ e.maxX := by
      by_contra hc
      have := h4 (lt_of_not_ge hc)
      omega
    simp only [hd, Int.cast_one, one_mul]
    split_ifs with hc
    · refine ⟨by linarith, by linarith, Or.inr (by norm_num), fun _ => by norm_num, ?_⟩
      intro hlt
      rcases hc with hc | hc <;> linarith
    · push_neg at hc
      refine ⟨by linarith, by linarith, Or.inl rfl, fun hgt => ?_, fun _ => rfl⟩
      linarith [hc.2]
  · have hx : e.minX ≤ e.position.x := by
      by_contra hc
      have := h5 (lt_of_not_ge hc)
      omega
    simp only [hd, Int.cast_neg, Int.cast_one, neg_mul, one_mul]
    split_ifs with hc
    · refine ⟨by linarith, by linarith, Or.inl (by norm_num), ?_, fun _ => by norm_num⟩
      intro hgt
      rcases hc with hc | hc <;> linarith
    · push_neg at hc
      refine ⟨by linarith, by linarith, Or.inr rfl, fun _ => rfl, fun hlt => ?_⟩
      linarith [hc.1]

theorem Enemy.patrolInv_updateN (env : Env) (textures : List Texture) (e : Enemy)
    (hs : 0 ≤ e.speed) (h : e.PatrolInv) (n : ℕ) :
    (Enemy.updateN env textures n e).PatrolInv ∧
      (Enemy.updateN env textures n e).speed = e.speed ∧
      (Enemy.updateN env textures n e).minX = e.minX ∧
      (Enemy.updateN env textures n e).maxX = e.maxX := by
  induction n with
  | zero => exact ⟨h, rfl, rfl, rfl⟩
  | succ n ih =>
    obtain ⟨ih1, ih2, ih3, ih4⟩ := ih
    obtain ⟨u1, u2, u3, u4, u5⟩ :=
      Enemy.update_patrol env textures (Enemy.updateN env textures n e)
    obtain ⟨p1, p2, p3, p4⟩ :=
      Enemy.patrolInv_patrol (Enemy.updateN env textures n e)
        (by rw [ih2]; exact hs) ih1
    simp only [Enemy.updateN]
    refine ⟨?_, by rw [u3, ih2], by rw [u4, ih3], by rw [u5, ih4]⟩
    unfold Enemy.PatrolInv at p1 ⊢
    rw [u1, u2, u3, u4, u5]
    rw [p2, p3, p4] at p1
    exact p1

theorem Enemy.patrolInv_of_start (e : Enemy) (hs : 0 ≤ e.speed)
    (hlo : e.minX ≤ e.position.x) (hhi : e.position.x ≤ e.maxX)
    (hd : e.direction = 1 ∨ e.direction = -1) : e.PatrolInv :=
  ⟨by linarith, by linarith, hd, fun h => absurd hhi (not_le.mpr h),
   fun h => absurd hlo (not_le.mpr h)⟩

/-- While an enemy heading right stays strictly inside its range, `n` updates
move it by `n * speed`. -/
theorem Enemy.updateN_inside (env : Env) (textures : List Texture) (e : Enemy)
    (hd : e.direction = 1) (n : ℕ)
    (h : ∀ k : ℕ, 1 ≤ k → k ≤ n →
      e.minX < e.position.x + k * e.speed ∧ e.position.x + k * e.speed < e.maxX) :
    (Enemy.updateN env textures n e).position.x = e.position.x + n * e.speed ∧
      (Enemy.updateN env textures n e).direction = 1 ∧
      (Enemy.updateN env textures n e).speed = e.speed ∧
      (Enemy.updateN env textures n e).minX = e.minX ∧
      (Enemy.updateN env textures n e).maxX = e.maxX := by
  induction n with
  | zero => simp [Enemy.updateN, hd]
  | succ n ih =>
    obtain ⟨i1, i2, i3, i4, i5⟩ := ih (fun k hk1 hk2 => h k hk1 (by omega))
    obtain ⟨u1, u2, u3, u4, u5⟩ :=
      Enemy.update_patrol env textures (Enemy.updateN env textures n e)
    obtain ⟨b1, b2⟩ := h (n + 1) (by omega) le_rfl
    simp only [Enemy.updateN]
    rw [u1, u2, u3, u4, u5, i3, i4, i5]
    have hx : (Enemy.updateN env textures n e).patrol.position.x
        = e.position.x + ((n + 1 : ℕ) : ℚ) * e.speed := by
      simp only [Enemy.patrol, i1, i2, i3]
      push_cast
      ring
    refine ⟨hx, ?_, rfl, rfl, rfl⟩
    have hx2 := hx
    simp only [Enemy.patrol] at hx2 ⊢
    rw [hx2, i2, i4, i5]
    rw [if_neg]
    push_neg
    exact ⟨b1, b2⟩

/-- C1 (as stated, refuted): the level-1 enemy built with x = 1150, speed 1.2,
minX = 1080, maxX = 1350 (an enemy of the level-1 build) starts inside its range
heading right, and after 167 calls of `Enemy::update` its position.x is 1350.4,
beyond maxX. -/
theorem c1_enemy_leaves_range :
    level1Bat ∈ buildEnemies sampleGame ∧
    level1Bat.minX ≤ level1Bat.position.x ∧ level1Bat.position.x ≤ level1Bat.maxX ∧
    level1Bat.direction = 1 ∧
    (Enemy.updateN Env.still sampleGame.batTextures 167 level1Bat).position.x = 6752 / 5 ∧
    ¬ ((Enemy.updateN Env.still sampleGame.batTextures 167 level1Bat).position.x
        ≤ level1Bat.maxX) := by
  have hfields : level1Bat.position.x = 1150 ∧ level1Bat.speed = 6 / 5 ∧
      level1Bat.minX = 1080 ∧ level1Bat.maxX = 1350 ∧ level1Bat.direction = 1 := by
    simp [level1Bat, Enemy.new]
  obtain ⟨f1, f2, f3, f4, f5⟩ := hfields
  have hrun := Enemy.updateN_inside Env.still sampleGame.batTextures level1Bat f5 166 (by
    intro k _ hk
    have hk2 : (k : ℚ) ≤ 166 := by exact_mod_cast hk
    have hk0 : (0 : ℚ) ≤ k := Nat.cast_nonneg k
    rw [f1, f2, f3, f4]
    constructor <;> linarith)
  obtain ⟨r1, r2, r3, r4, r5⟩ := hrun
  obtain ⟨u1, -, -, -, -⟩ :=
    Enemy.update_patrol Env.still sampleGame.batTextures
      (Enemy.updateN Env.still sampleGame.batTextures 166 level1Bat)
  have hx : (Enemy.updateN Env.still sampleGame.batTextures 167 level1Bat).position.x
      = 6752 / 5 := by
    show (Enemy.update Env.still sampleGame.batTextures
      (Enemy.updateN Env.still sampleGame.batTextures 166 level1Bat)).position.x = _
    rw [u1]
    simp only [Enemy.patrol, r1, r2, r3, f1, f2]
    norm_num
  refine ⟨?_, by rw [f1, f3]; norm_num, by rw [f1, f4]; norm_num, f5, hx, ?_⟩
  · have hl : sampleGame.currentLevel = 1 := rfl
    unfold buildEnemies
    rw [if_pos hl]
    simp [level1Bat]
  · rw [hx, f4]
    norm_num

/-- C1 (amended): an enemy with speed >= 0 that starts inside its patrol range
with direction -1 or +1 stays, after any number of `Enemy::update` calls, within
one step of the range: minX - speed <= position.x <= maxX + speed. -/
theorem c1_enemy_within_one_step (env : Env) (textures : List Texture) (e : Enemy)
    (hs : 0 ≤ e.speed) (hlo : e.minX ≤ e.position.x) (hhi : e.position.x ≤ e.maxX)
    (hd : e.direction = 1 ∨ e.direction = -1) (n : ℕ) :
    e.minX - e.speed ≤ (Enemy.updateN env textures n e).position.x ∧
      (Enemy.updateN env textures n e).position.x ≤ e.maxX + e.speed := by
  obtain ⟨hinv, h2, h3, h4⟩ :=
    Enemy.patrolInv_updateN env textures e hs
      (Enemy.patrolInv_of_start e hs hlo hhi hd) n
  obtain ⟨a, b, -⟩ := hinv
  rw [h2, h3] at a
  rw [h2, h4] at b
  exact ⟨a, b⟩

theorem c1_enemy_within_one_step_witness :
    level1Bat.minX - level1Bat.speed
        ≤ (Enemy.updateN Env.still sampleGame.batTextures 167 level1Bat).position.x ∧
      (Enemy.updateN Env.still sampleGame.batTextures 167 level1Bat).position.x
        ≤ level1Bat.maxX + level1Bat.speed :=
  c1_enemy_within_one_step Env.still sampleGame.batTextures level1Bat
    (by norm_num [level1Bat, Enemy.new]) (by norm_num [level1Bat, Enemy.new])
    (by norm_num [level1Bat, Enemy.new]) (by simp [level1Bat, Enemy.new]) 167

/-! ## Collision passes -/

theorem verticalLoop_shapes (vy : ℚ) (tiles : List Platform) (p : Player) :
    (verticalLoop vy p tiles).2.map Platform.shape = tiles.map Platform.shape := by
  induction tiles generalizing p with
  | nil => rfl
  | cons t ts ih =>
    simp only [verticalLoop, List.map_cons, ih]
    congr 1
    unfold resolveVertical
    simp only []
    split_ifs <;> rfl

theorem resolveVertical_grounded (vy : ℚ) (p : Player) (t : Platform)
    (h : (resolveVertical vy p t).1.grounded = true) :
    (0 < vy ∧ t.shape.getGlobalBounds.top = (resolveVertical vy p t).1.position.y + 46) ∨
    (p.grounded = true ∧ ¬ vy < 0 ∧ (resolveVertical vy p t).1 = p) ∨
    (p.grounded = true ∧ vy < 0) := by
  unfold resolveVertical at h ⊢
  simp only [] at h ⊢
  by_cases h1 : p.getBounds.intersects t.shape.getGlobalBounds = true
  · by_cases h2 : vy > 0
    · left
      refine ⟨h2, ?_⟩
      simp only [h1, h2, if_true]
      simp [Player.getBounds]
    · by_cases h3 : vy < 0
      · right; right
        simp only [h1, h2, h3, if_true, if_false] at h
        exact ⟨h, h3⟩
      · right; left
        simp only [h1, h2, h3, if_true, if_false] at h
        refine ⟨h, h3, ?_⟩
        simp only [h1, h2, h3, if_true, if_false]
  · simp only [h1] at h ⊢
    by_cases hv : vy < 0
    · right; right; exact ⟨h, hv⟩
    · right; left; exact ⟨h, hv, rfl⟩

theorem verticalLoop_grounded (vy : ℚ) (all : List Platform) (tiles : List Platform)
    (hsub : ∀ t ∈ tiles, t ∈ all) (p : Player)
    (hp : p.grounded = true →
      0 < vy ∧ ∃ t ∈ all, t.shape.getGlobalBounds.top = p.position.y + 46) :
    (verticalLoop vy p tiles).1.grounded = true →
      0 < vy ∧ ∃ t ∈ all,
        t.shape.getGlobalBounds.top = (verticalLoop vy p tiles).1.position.y + 46 := by
  induction tiles generalizing p with
  | nil => simpa [verticalLoop] using hp
  | cons t ts ih =>
    simp only [verticalLoop]
    apply ih (fun u hu => hsub u (List.mem_cons_of_mem _ hu))
    intro hg
    rcases resolveVertical_grounded vy p t hg with ⟨hv, ht⟩ | ⟨hpg, _, heq⟩ | ⟨hpg, hv⟩
    · exact ⟨hv, t, hsub t (List.mem_cons_self _ _), ht⟩
    · rw [heq]
      exact hp hpg
    · exact absurd (hp hpg).1 (not_lt.mpr (le_of_lt hv))

/-- C2: after the vertical resolution pass of `Game::update`, if the player is
grounded then some tile of the list has the top edge of its bounds exactly at
the player's bottom edge, position.y + 46 (the pass leaves every tile's shape
as it was). -/
theorem c2_grounded_on_tile_top (platforms : List Platform) (p : Player)
    (hg : (verticalPass platforms p).1.grounded = true) :
    (∃ t ∈ platforms,
      t.shape.getGlobalBounds.top = (verticalPass platforms p).1.position.y + 46) ∧
    (verticalPass platforms p).2.map Platform.shape = platforms.map Platform.shape := by
  refine ⟨?_, verticalLoop_shapes _ _ _⟩
  unfold verticalPass at hg ⊢
  simp only [] at hg ⊢
  exact (verticalLoop_grounded _ platforms platforms (fun _ h => h) _
    (fun h => by simp at h) hg).2

theorem c2_grounded_on_tile_top_witness :
    (∃ t ∈ [sampleFloor],
      t.shape.getGlobalBounds.top = (verticalPass [sampleFloor] samplePlayer).1.position.y + 46) ∧
    (verticalPass [sampleFloor] samplePlayer).2.map Platform.shape
      = [sampleFloor].map Platform.shape :=
  c2_grounded_on_tile_top [sampleFloor] samplePlayer (by
    norm_num [verticalPass, verticalLoop, resolveVertical, sampleFloor, samplePlayer,
      Platform.ofColor, Player.new, Player.getBounds, RectangleShape.getGlobalBounds,
      FloatRect.intersects, GRAVITY])

theorem playerBox_intersects_iff (x y : ℚ) (b : FloatRect) (hw : 0 < b.width)
    (hh : 0 < b.height) :
    (playerBox x y).intersects b = true ↔
      (b.left < x + 32 ∧ x < b.left + b.width) ∧ (b.top < y + 46 ∧ y < b.top + b.height) := by
  unfold FloatRect.intersects playerBox
  simp only [Bool.and_eq_true, decide_eq_true_eq]
  rw [min_eq_left (show x ≤ x + 32 by linarith), max_eq_right (show x ≤ x + 32 by linarith),
    min_eq_left (show y ≤ y + 46 by linarith), max_eq_right (show y ≤ y + 46 by linarith),
    min_eq_left (show b.left ≤ b.left + b.width by linarith),
    max_eq_right (show b.left ≤ b.left + b.width by linarith),
    min_eq_left (show b.top ≤ b.top + b.height by linarith),
    max_eq_right (show b.top ≤ b.top + b.height by linarith)]
  simp only [max_lt_iff, lt_min_iff]
  constructor
  · rintro ⟨⟨⟨-, h1⟩, h2, -⟩, ⟨-, h3⟩, h4, -⟩
    exact ⟨⟨h1, h2⟩, h3, h4⟩
  · rintro ⟨⟨h1, h2⟩, h3, h4⟩
    exact ⟨⟨⟨by linarith, h1⟩, h2, by linarith⟩, ⟨by linarith, h3⟩, h4, by linarith⟩

/-- The bounds of a 32 x 32 tile with a non-negative outline have positive
width and height. -/
theorem Platform.bounds_pos (t : Platform) (hs : t.shape.size = ⟨32, 32⟩)
    (ho : 0 ≤ t.shape.outlineThickness) :
    0 < t.shape.getGlobalBounds.width ∧ 0 < t.shape.getGlobalBounds.height := by
  simp only [RectangleShape.getGlobalBounds, hs]
  constructor <;> linarith

theorem resolveHorizontal_right (x0 y : ℚ) (t : Platform)
    (hpos : 0 < t.shape.getGlobalBounds.width ∧ 0 < t.shape.getGlobalBounds.height)
    (hfree : (playerBox x0 y).intersects t.shape.getGlobalBounds = false)
    (q : Player) (hy : q.position.y = y) (hv : 0 < q.velocity.x)
    (hx : x0 ≤ q.position.x) (hx4 : q.position.x ≤ x0 + 32) :
    (resolveHorizontal q t).position.y = y ∧
    (resolveHorizontal q t).velocity = q.velocity ∧
    x0 ≤ (resolveHorizontal q t).position.x ∧
    (resolveHorizontal q t).position.x ≤ q.position.x ∧
    ∀ x1, x0 ≤ x1 → x1 ≤ (resolveHorizontal q t).position.x →
      (playerBox x1 y).intersects t.shape.getGlobalBounds = false := by
  have hbox : q.getBounds = playerBox q.position.x y := by
    simp [Player.getBounds, playerBox, hy]
  have hfree2 := (Bool.eq_false_iff.mp hfree)
  rw [Ne, playerBox_intersects_iff x0 y _ hpos.1 hpos.2] at hfree2
  unfold resolveHorizontal
  simp only [hbox]
  by_cases hi : (playerBox q.position.x y).intersects t.shape.getGlobalBounds = true
  · rw [if_pos hi, if_pos hv]
    rw [playerBox_intersects_iff _ y _ hpos.1 hpos.2] at hi
    obtain ⟨⟨i1, i2⟩, i3, i4⟩ := hi
    have hL : x0 + 32 ≤ t.shape.getGlobalBounds.left := by
      by_contra hc
      push_neg at hc
      exact hfree2 ⟨⟨hc, by
        by_contra hc2
        push_neg at hc2
        exact absurd (⟨⟨hc, lt_of_le_of_lt hx i2⟩, i3, i4⟩ :
          (t.shape.getGlobalBounds.left < x0 + 32 ∧
            x0 < t.shape.getGlobalBounds.left + t.shape.getGlobalBounds.width) ∧ _)
          hfree2⟩, i3, i4⟩
    refine ⟨hy, rfl, ?_, ?_, ?_⟩
    · simp only [playerBox]; linarith
    · simp only [playerBox]; linarith
    · intro x1 _ h2
      simp only [playerBox] at h2
      rw [Bool.eq_false_iff, Ne, playerBox_intersects_iff _ y _ hpos.1 hpos.2]
      rintro ⟨⟨j1, -⟩, -⟩
      linarith
  · rw [if_neg hi]
    refine ⟨hy, rfl, hx, le_rfl, ?_⟩
    intro x1 h1 h2
    rw [Bool.eq_false_iff, Ne, playerBox_intersects_iff _ y _ hpos.1 hpos.2]
    rintro ⟨⟨j1, j2⟩, j3, j4⟩
    rw [playerBox_intersects_iff _ y _ hpos.1 hpos.2] at hi
    have k1 : t.shape.getGlobalBounds.left + t.shape.getGlobalBounds.width ≤ q.position.x := by
      by_contra hc
      push_neg at hc
      exact hi ⟨⟨by linarith, hc⟩, j3, j4⟩
    have k2 : x0 + 32 ≤ t.shape.getGlobalBounds.left := by
      by_contra hc
      push_neg at hc
      exact hfree2 ⟨⟨hc, by linarith⟩, j3, j4⟩
    linarith [hpos.1]

theorem resolveHorizontal_left (x0 y : ℚ) (t : Platform)
    (hpos : 0 < t.shape.getGlobalBounds.width ∧ 0 < t.shape.getGlobalBounds.height)
    (hfree : (playerBox x0 y).intersects t.shape.getGlobalBounds = false)
    (q : Player) (hy : q.position.y = y) (hv : q.velocity.x < 0)
    (hx : q.position.x ≤ x0) (hx4 : x0 - 32 ≤ q.position.x) :
    (resolveHorizontal q t).position.y = y ∧
    (resolveHorizontal q t).velocity = q.velocity ∧
    (resolveHorizontal q t).position.x ≤ x0 ∧
    q.position.x ≤ (resolveHorizontal q t).position.x ∧
    ∀ x1, (resolveHorizontal q t).position.x ≤ x1 → x1 ≤ x0 →
      (playerBox x1 y).intersects t.shape.getGlobalBounds = false := by
  have hbox : q.getBounds = playerBox q.position.x y := by
    simp [Player.getBounds, playerBox, hy]
  have hfree2 := (Bool.eq_false_iff.mp hfree)
  rw [Ne, playerBox_intersects_iff x0 y _ hpos.1 hpos.2] at hfree2
  have hnv : ¬ q.velocity.x > 0 := not_lt.mpr (le_of_lt hv)
  unfold resolveHorizontal
  simp only [hbox]
  by_cases hi : (playerBox q.position.x y).intersects t.shape.getGlobalBounds = true
  · rw [if_pos hi, if_neg hnv, if_pos hv]
    rw [playerBox_intersects_iff _ y _ hpos.1 hpos.2] at hi
    obtain ⟨⟨i1, i2⟩, i3, i4⟩ := hi
    have hR : t.shape.getGlobalBounds.left + t.shape.getGlobalBounds.width ≤ x0 := by
      by_contra hc
      push_neg at hc
      exact hfree2 ⟨⟨by linarith, hc⟩, i3, i4⟩
    refine ⟨hy, rfl, hR, le_of_lt i2, ?_⟩
    intro x1 h1 _
    dsimp only at h1
    rw [Bool.eq_false_iff, Ne, playerBox_intersects_iff _ y _ hpos.1 hpos.2]
    rintro ⟨⟨-, j2⟩, -⟩
    linarith
  · rw [if_neg hi]
    refine ⟨hy, rfl, hx, le_rfl, ?_⟩
    intro x1 h1 h2
    rw [Bool.eq_false_iff, Ne, playerBox_intersects_iff _ y _ hpos.1 hpos.2]
    rintro ⟨⟨j1, j2⟩, j3, j4⟩
    rw [playerBox_intersects_iff _ y _ hpos.1 hpos.2] at hi
    have k1 : q.position.x + 32 ≤ t.shape.getGlobalBounds.left := by
      by_contra hc
      push_neg at hc
      exact hi ⟨⟨hc, by linarith⟩, j3, j4⟩
    have k2 : t.shape.getGlobalBounds.left + t.shape.getGlobalBounds.width ≤ x0 := by
      by_contra hc
      push_neg at hc
      exact hfree2 ⟨⟨by linarith, hc⟩, j3, j4⟩
    linarith [hpos.1]

theorem foldl_resolveHorizontal_right (x0 y : ℚ) (tiles : List Platform)
    (hpos : ∀ t ∈ tiles,
      0 < t.shape.getGlobalBounds.width ∧ 0 < t.shape.getGlobalBounds.height)
    (hfree : ∀ t ∈ tiles, (playerBox x0 y).intersects t.shape.getGlobalBounds = false)
    (q : Player) (hy : q.position.y = y) (hv : 0 < q.velocity.x)
    (hx : x0 ≤ q.position.x) (hx4 : q.position.x ≤ x0 + 32) :
    (tiles.foldl resolveHorizontal q).position.y = y ∧
    x0 ≤ (tiles.foldl resolveHorizontal q).position.x ∧
    (tiles.foldl resolveHorizontal q).position.x ≤ q.position.x ∧
    ∀ t ∈ tiles, ∀ x1, x0 ≤ x1 → x1 ≤ (tiles.foldl resolveHorizontal q).position.x →
      (playerBox x1 y).intersects t.shape.getGlobalBounds = false := by
  induction tiles generalizing q with
  | nil => exact ⟨hy, hx, le_rfl, fun t ht => absurd ht (List.not_mem_nil t)⟩
  | cons t ts ih =>
    obtain ⟨s1, s2, s3, s4, s5⟩ :=
      resolveHorizontal_right x0 y t (hpos t (List.mem_cons_self _ _))
        (hfree t (List.mem_cons_self _ _)) q hy hv hx hx4
    obtain ⟨r1, r2, r3, r4⟩ :=
      ih (fun u hu => hpos u (List.mem_cons_of_mem _ hu))
        (fun u hu => hfree u (List.mem_cons_of_mem _ hu))
        (resolveHorizontal q t) s1 (by rw [s2]; exact hv) s3 (le_trans s4 hx4)
    simp only [List.foldl_cons]
    refine ⟨r1, r2, le_trans r3 s4, ?_⟩
    intro u hu x1 h1 h2
    rcases List.mem_cons.mp hu with rfl | hu
    · exact s5 x1 h1 (le_trans h2 r3)
    · exact r4 u hu x1 h1 h2

theorem foldl_resolveHorizontal_left (x0 y : ℚ) (tiles : List Platform)
    (hpos : ∀ t ∈ tiles,
      0 < t.shape.getGlobalBounds.width ∧ 0 < t.shape.getGlobalBounds.height)
    (hfree : ∀ t ∈ tiles, (playerBox x0 y).intersects t.shape.getGlobalBounds = false)
    (q : Player) (hy : q.position.y = y) (hv : q.velocity.x < 0)
    (hx : q.position.x ≤ x0) (hx4 : x0 - 32 ≤ q.position.x) :
    (tiles.foldl resolveHorizontal q).position.y = y ∧
    (tiles.foldl resolveHorizontal q).position.x ≤ x0 ∧
    q.position.x ≤ (tiles.foldl resolveHorizontal q).position.x ∧
    ∀ t ∈ tiles, ∀ x1, (tiles.foldl resolveHorizontal q).position.x ≤ x1 → x1 ≤ x0 →
      (playerBox x1 y).intersects t.shape.getGlobalBounds = false := by
  induction tiles generalizing q with
  | nil => exact ⟨hy, hx, le_rfl, fun t ht => absurd ht (List.not_mem_nil t)⟩
  | cons t ts ih =>
    obtain ⟨s1, s2, s3, s4, s5⟩ :=
      resolveHorizontal_left x0 y t (hpos t (List.mem_cons_self _ _))
        (hfree t (List.mem_cons_self _ _)) q hy hv hx hx4
    obtain ⟨r1, r2, r3, r4⟩ :=
      ih (fun u hu => hpos u (List.mem_cons_of_mem _ hu))
        (fun u hu => hfree u (List.mem_cons_of_mem _ hu))
        (resolveHorizontal q t) s1 (by rw [s2]; exact hv) s3 (le_trans hx4 s4)
    simp only [List.foldl_cons]
    refine ⟨r1, r2, le_trans s4 r3, ?_⟩
    intro u hu x1 h1 h2
    rcases List.mem_cons.mp hu with rfl | hu
    · exact s5 x1 (le_trans r3 h1) h2
    · exact r4 u hu x1 h1 h2

/-- C3: for a list of 32 x 32 tiles (with any non-negative outline) and a player
whose 32 x 46 box overlaps no tile, a single horizontal push (velocity.x = +speed
or -speed, speed = 4) followed by the horizontal resolution pass of
`Game::update` leaves the player's box overlapping no tile of the list. -/
theorem c3_horizontal_pass_no_overlap (platforms : List Platform) (p : Player)
    (hsize : ∀ t ∈ platforms, t.shape.size = ⟨32, 32⟩ ∧ 0 ≤ t.shape.outlineThickness)
    (hfree : ∀ t ∈ platforms, p.getBounds.intersects t.shape.getGlobalBounds = false)
    (hspeed : p.speed = 4)
    (hv : p.velocity.x = p.speed ∨ p.velocity.x = -p.speed) :
    ∀ t ∈ platforms,
      (horizontalPass platforms p).getBounds.intersects t.shape.getGlobalBounds = false := by
  have hpos : ∀ t ∈ platforms,
      0 < t.shape.getGlobalBounds.width ∧ 0 < t.shape.getGlobalBounds.height :=
    fun t ht => Platform.bounds_pos t (hsize t ht).1 (hsize t ht).2
  have hfree2 : ∀ t ∈ platforms,
      (playerBox p.position.x p.position.y).intersects t.shape.getGlobalBounds = false :=
    hfree
  intro t ht
  unfold horizontalPass
  rw [hspeed] at hv
  rcases hv with hv | hv
  · obtain ⟨r1, r2, -, r4⟩ :=
      foldl_resolveHorizontal_right p.position.x p.position.y platforms hpos hfree2
        { p with position := ⟨p.position.x + p.velocity.x, p.position.y⟩ } rfl
        (by simp only [hv]; norm_num) (by simp only [hv]; linarith)
        (by simp only [hv]; linarith)
    have hb : (platforms.foldl resolveHorizontal
        { p with position := ⟨p.position.x + p.velocity.x, p.position.y⟩ }).getBounds
        = playerBox (platforms.foldl resolveHorizontal
            { p with position := ⟨p.position.x + p.velocity.x, p.position.y⟩ }).position.x
            p.position.y := by
      simp only [Player.getBounds, playerBox, r1]
    rw [hb]
    exact r4 t ht _ r2 le_rfl
  · obtain ⟨r1, r2, -, r4⟩ :=
      foldl_resolveHorizontal_left p.position.x p.position.y platforms hpos hfree2
        { p with position := ⟨p.position.x + p.velocity.x, p.position.y⟩ } rfl
        (by simp only [hv]; norm_num) (by simp only [hv]; linarith)
        (by simp only [hv]; linarith)
    have hb : (platforms.foldl resolveHorizontal
        { p with position := ⟨p.position.x + p.velocity.x, p.position.y⟩ }).getBounds
        = playerBox (platforms.foldl resolveHorizontal
            { p with position := ⟨p.position.x + p.velocity.x, p.position.y⟩ }).position.x
            p.position.y := by
      simp only [Player.getBounds, playerBox, r1]
    rw [hb]
    exact r4 t ht _ le_rfl r2

theorem c3_horizontal_pass_no_overlap_witness :
    (horizontalPass [sampleBlock] samplePusher).getBounds.intersects
      sampleBlock.shape.getGlobalBounds = false :=
  c3_horizontal_pass_no_overlap [sampleBlock] samplePusher
    (by norm_num [sampleBlock, Platform.ofColor])
    (by norm_num [sampleBlock, samplePusher, samplePlayer, applyInput, Platform.ofColor,
      Player.new, Player.getBounds, RectangleShape.getGlobalBounds, FloatRect.intersects])
    (by simp [samplePusher, samplePlayer, applyInput, Player.new])
    (by norm_num [samplePusher, samplePlayer, applyInput, Player.new])
    sampleBlock (List.mem_singleton.mpr rfl)

/-! ## Icicle countdown -/

theorem Icicle.fall_cool_of_falling (i : Icicle) (hf : i.falling = true)
    (hr : ∃ r : ℕ, i.resetTimer = r) :
    (∃ r : ℕ, (Icicle.fall i).cool.resetTimer = r) ∧
      ((Icicle.fall i).cool.falling = false → (Icicle.fall i).cool.fallTimer = 60) := by
  obtain ⟨r, hr⟩ := hr
  unfold Icicle.fall
  rw [if_pos hf]
  simp only []
  by_cases hy : i.position.y + (i.velocity.y + 4 / 5) > 650
  · rw [if_pos hy]
    unfold Icicle.cool
    simp only []
    rw [if_pos (by norm_num)]
    exact ⟨⟨299, by norm_num⟩, fun _ => rfl⟩
  · rw [if_neg hy]
    unfold Icicle.cool
    simp only []
    by_cases h0 : i.resetTimer > 0
    · rw [if_pos h0]
      refine ⟨⟨r - 1, ?_⟩, fun h => ?_⟩
      · have hr1 : 1 ≤ r := by
          rw [hr] at h0
          have : (0 : ℚ) < r := h0
          exact_mod_cast this
        simp only [hr]
        push_cast [Nat.cast_sub hr1]
        ring
      · simp only [hf] at h
        exact absurd h (by simp)
    · rw [if_neg h0]
      refine ⟨⟨r, hr⟩, fun h => ?_⟩
      simp only [hf] at h
      exact absurd h (by simp)

theorem Icicle.armed_step (bounds : ℕ → FloatRect) (i0 : Icicle) (n : ℕ)
    (h : Icicle.Armed bounds i0 n (Icicle.run bounds n i0)) :
    Icicle.Armed bounds i0 (n + 1) (Icicle.run bounds (n + 1) i0) := by
  obtain ⟨hr, hb⟩ := h
  show Icicle.Armed bounds i0 (n + 1) (Icicle.update (bounds n) (Icicle.run bounds n i0))
  generalize hs : Icicle.run bounds n i0 = s at hr hb ⊢
  have rest0 : ∀ j : Icicle, (∃ r : ℕ, j.resetTimer = r) →
      (j.falling = false → j.fallTimer = 60) → Icicle.Armed bounds i0 (n + 1) j := by
    intro j h1 h2
    refine ⟨h1, fun hf => ⟨0, by norm_num, by omega, ?_, fun _ => rfl, ?_⟩⟩
    · rw [h2 hf]; norm_num
    · intro k hk1 hk2
      omega
  unfold Icicle.update
  by_cases hf : s.falling = true
  · have harm : Icicle.arm (bounds n) s = s := by
      unfold Icicle.arm
      simp [hf]
    rw [harm]
    obtain ⟨a, b⟩ := Icicle.fall_cool_of_falling s hf hr
    exact rest0 _ a b
  · have hf2 : s.falling = false := by simpa using hf
    obtain ⟨m, hm59, hmn, hft, hrm, hprev⟩ := hb hf2
    by_cases hrt : s.resetTimer ≤ 0
    · have hcond : (!s.falling && decide (s.resetTimer ≤ 0)) = true := by simp [hf2, hrt]
      by_cases hp : s.proximity (bounds n) = true
      · by_cases hz : s.fallTimer - 1 ≤ 0
        · have harm : Icicle.arm (bounds n) s
              = { s with fallTimer := s.fallTimer - 1, falling := true } := by
            unfold Icicle.arm
            rw [if_pos hcond, if_pos hp]
            simp only []
            rw [if_pos hz]
          rw [harm]
          obtain ⟨a, b⟩ := Icicle.fall_cool_of_falling
            { s with fallTimer := s.fallTimer - 1, falling := true } rfl hr
          exact rest0 _ a b
        · have harm : Icicle.arm (bounds n) s = { s with fallTimer := s.fallTimer - 1 } := by
            unfold Icicle.arm
            rw [if_pos hcond, if_pos hp]
            simp only []
            rw [if_neg hz]
          rw [harm]
          have hfall : Icicle.fall { s with fallTimer := s.fallTimer - 1 }
              = { s with fallTimer := s.fallTimer - 1 } := by
            unfold Icicle.fall
            simp [hf2]
          rw [hfall]
          have hcool : Icicle.cool { s with fallTimer := s.fallTimer - 1 }
              = { s with fallTimer := s.fallTimer - 1 } := by
            unfold Icicle.cool
            simp only []
            rw [if_neg (not_lt.mpr hrt)]
          rw [hcool]
          have hm58 : m + 1 ≤ 59 := by
            by_contra hc
            have hm : m = 59 := by omega
            apply hz
            rw [hft, hm]
            norm_num
          refine ⟨hr, fun _ => ⟨m + 1, hm58, by omega, ?_, ?_, ?_⟩⟩
          · simp only [hft]
            push_cast
            ring
          · intro hpos
            exact absurd hrt (not_le.mpr hpos)
          · intro k hk1 hk2
            by_cases hk : k = 1
            · subst hk
              simp only [Nat.add_sub_cancel, hs]
              exact ⟨hf2, hp⟩
            · have := hprev (k - 1) (by omega) (by omega)
              have he : n + 1 - k = n - (k - 1) := by omega
              rw [he]
              exact this
      · have harm : Icicle.arm (bounds n) s = { s with fallTimer := 60 } := by
          unfold Icicle.arm
          rw [if_pos hcond, if_neg hp]
        rw [harm]
        have hfall : Icicle.fall { s with fallTimer := 60 } = { s with fallTimer := 60 } := by
          unfold Icicle.fall
          simp [hf2]
        rw [hfall]
        have hcool : Icicle.cool { s with fallTimer := 60 } = { s with fallTimer := 60 } := by
          unfold Icicle.cool
          simp only []
          rw [if_neg (not_lt.mpr hrt)]
        rw [hcool]
        exact rest0 _ hr (fun _ => rfl)
    · have hpos : 0 < s.resetTimer := lt_of_not_ge hrt
      have harm : Icicle.arm (bounds n) s = s := by
        unfold Icicle.arm
        simp [hf2, hrt]
      rw [harm]
      have hfall : Icicle.fall s = s := by
        unfold Icicle.fall
        simp [hf2]
      rw [hfall]
      obtain ⟨r, hrr⟩ := hr
      have hr1 : 1 ≤ r := by
        rw [hrr] at hpos
        exact_mod_cast hpos
      apply rest0
      · refine ⟨r - 1, ?_⟩
        unfold Icicle.cool
        rw [if_pos hpos]
        simp only [hrr]
        push_cast [Nat.cast_sub hr1]
        ring
      · intro _
        unfold Icicle.cool
        rw [if_pos hpos]
        simp only [hft, hrm hpos]
        norm_num

theorem Icicle.armed_run (bounds : ℕ → FloatRect) (i0 : Icicle)
    (ht : i0.fallTimer = 60) (hr : i0.resetTimer = 0) (n : ℕ) :
    Icicle.Armed bounds i0 n (Icicle.run bounds n i0) := by
  induction n with
  | zero =>
    refine ⟨⟨0, by simp [Icicle.run, hr]⟩, fun _ => ⟨0, by norm_num, le_rfl, ?_, fun _ => rfl, ?_⟩⟩
    · simp [Icicle.run, ht]
    · intro k hk1 hk2
      omega
  | succ n ih => exact Icicle.armed_step bounds i0 n ih

/-- C4: for an icicle starting at rest (falling = false, fallTimer = 60,
resetTimer = 0) and any sequence of player bounds: if the first block of
`Icicle::update` sets `falling` to true on tick `n`, then the proximity
condition held on tick `n` and on each of the 59 ticks before it (the icicle
being at rest on all of them); and on any tick on which the icicle is at rest
and the condition does not hold, the update leaves fallTimer = 60. -/
theorem c4_icicle_needs_sixty_ticks (bounds : ℕ → FloatRect) (i0 : Icicle)
    (_hf : i0.falling = false) (ht : i0.fallTimer = 60) (hr : i0.resetTimer = 0) (n : ℕ) :
    ((Icicle.run bounds n i0).falling = false →
      (Icicle.arm (bounds n) (Icicle.run bounds n i0)).falling = true →
      59 ≤ n ∧ ∀ k, k ≤ 59 →
        (Icicle.run bounds (n - k) i0).falling = false ∧
        (Icicle.run bounds (n - k) i0).proximity (bounds (n - k)) = true) ∧
    ((Icicle.run bounds n i0).falling = false →
      (Icicle.run bounds n i0).proximity (bounds n) = false →
      (Icicle.run bounds (n + 1) i0).fallTimer = 60) := by
  obtain ⟨hrn, hb⟩ := Icicle.armed_run bounds i0 ht hr n
  constructor
  · intro hf2 harm
    obtain ⟨m, hm59, hmn, hft, -, hprev⟩ := hb hf2
    unfold Icicle.arm at harm
    by_cases hcond : (!(Icicle.run bounds n i0).falling &&
        decide ((Icicle.run bounds n i0).resetTimer ≤ 0)) = true
    · rw [if_pos hcond] at harm
      by_cases hp : (Icicle.run bounds n i0).proximity (bounds n) = true
      · rw [if_pos hp] at harm
        simp only [] at harm
        by_cases hz : (Icicle.run bounds n i0).fallTimer - 1 ≤ 0
        · have hm : m = 59 := by
            rw [hft] at hz
            have h1 : (59 : ℚ) ≤ m := by linarith
            have h2 : 59 ≤ m := by exact_mod_cast h1
            omega
          subst hm
          refine ⟨hmn, fun k hk => ?_⟩
          by_cases hk0 : k = 0
          · subst hk0
            exact ⟨hf2, hp⟩
          · exact hprev k (by omega) hk
        · rw [if_neg hz] at harm
          simp only [hf2] at harm
          exact absurd harm (by simp)
      · rw [if_neg hp] at harm
        simp only [hf2] at harm
        exact absurd harm (by simp)
    · rw [if_neg hcond, hf2] at harm
      exact absurd harm (by simp)
  · intro hf2 hp
    obtain ⟨m, hm59, hmn, hft, hrm, -⟩ := hb hf2
    show (Icicle.update (bounds n) (Icicle.run bounds n i0)).fallTimer = 60
    generalize Icicle.run bounds n i0 = s at hf2 hp hft hrm hrn
    unfold Icicle.update
    by_cases hrt : s.resetTimer ≤ 0
    · have harm : Icicle.arm (bounds n) s = { s with fallTimer := 60 } := by
        unfold Icicle.arm
        simp [hf2, hrt, hp]
      rw [harm]
      unfold Icicle.cool Icicle.fall
      simp only [hf2]
      simp only [Bool.false_eq_true, if_false]
      split_ifs <;> rfl
    · have hpos : 0 < s.resetTimer := lt_of_not_ge hrt
      have harm : Icicle.arm (bounds n) s = s := by
        unfold Icicle.arm
        simp [hf2, hrt]
      rw [harm]
      unfold Icicle.cool Icicle.fall
      simp only [hf2]
      simp only [Bool.false_eq_true, if_false]
      rw [if_pos hpos]
      simp only [hft, hrm hpos]
      norm_num

/-- With the player staying near, the sample icicle counts down one per tick
for 59 ticks. -/
theorem sampleIcicle_countdown (k : ℕ) (hk : k ≤ 59) :
    Icicle.run (fun _ => sampleNear) k sampleIcicle
      = { sampleIcicle with fallTimer := 60 - k } := by
  induction k with
  | zero => simp [Icicle.run, sampleIcicle, icicleUnderBlock, Icicle.new]
  | succ k ih =>
    have hk2 : (k : ℚ) ≤ 58 := by
      have : k ≤ 58 := by omega
      exact_mod_cast this
    simp only [Icicle.run, ih (by omega)]
    unfold Icicle.update Icicle.arm
    have hprox : Icicle.proximity sampleNear { sampleIcicle with fallTimer := 60 - k } = true := by
      norm_num [Icicle.proximity, sampleNear, playerBox, sampleIcicle, icicleUnderBlock,
        Icicle.new, blockSize, abs_lt]
    have hcond : (!({ sampleIcicle with fallTimer := 60 - (k : ℚ) } : Icicle).falling &&
        decide (({ sampleIcicle with fallTimer := 60 - (k : ℚ) } : Icicle).resetTimer ≤ 0)) = true := by
      simp [sampleIcicle, icicleUnderBlock, Icicle.new]
    rw [if_pos hcond, if_pos hprox]
    simp only []
    rw [if_neg (by linarith)]
    unfold Icicle.fall Icicle.cool
    simp [sampleIcicle, icicleUnderBlock, Icicle.new]
    ring

theorem c4_icicle_needs_sixty_ticks_witness :
    (59 ≤ 59 ∧
      (Icicle.run (fun _ => sampleNear) (59 - 59) sampleIcicle).falling = false ∧
      (Icicle.run (fun _ => sampleNear) (59 - 59) sampleIcicle).proximity
        ((fun _ => sampleNear) (59 - 59)) = true) ∧
    (Icicle.run (fun _ => sampleFar) (0 + 1) sampleIcicle).fallTimer = 60 :=
  ⟨(fun h => ⟨h.1, h.2 59 le_rfl⟩)
    ((c4_icicle_needs_sixty_ticks (fun _ => sampleNear) sampleIcicle
      (by simp [sampleIcicle, icicleUnderBlock, Icicle.new])
      (by simp [sampleIcicle, icicleUnderBlock, Icicle.new])
      (by simp [sampleIcicle, icicleUnderBlock, Icicle.new]) 59).1
      (by rw [sampleIcicle_countdown 59 le_rfl]
          simp [sampleIcicle, icicleUnderBlock, Icicle.new])
      (by rw [sampleIcicle_countdown 59 le_rfl]
          norm_num [Icicle.arm, Icicle.proximity, sampleNear, playerBox, sampleIcicle,
            icicleUnderBlock, Icicle.new, blockSize, abs_lt])),
   (c4_icicle_needs_sixty_ticks (fun _ => sampleFar) sampleIcicle
      (by simp [sampleIcicle, icicleUnderBlock, Icicle.new])
      (by simp [sampleIcicle, icicleUnderBlock, Icicle.new])
      (by simp [sampleIcicle, icicleUnderBlock, Icicle.new]) 0).2
      (by simp [Icicle.run, sampleIcicle, icicleUnderBlock, Icicle.new])
      (by norm_num [Icicle.run, Icicle.proximity, sampleFar, playerBox, sampleIcicle,
            icicleUnderBlock, Icicle.new, blockSize, abs_lt])⟩

/-! ## The tick: life loss and fall-out -/

theorem update_playing (env : Env) (inp : Input) (g : Game)
    (hs : g.state = GameState.PLAYING) :
    Game.update env inp g =
      if (physics inp g).player.position.y > WINDOW_HEIGHT + 200 then
        loseLife env (physics inp g)
      else hazardsAndExit env (hammerStep (collectablesStep env (physics inp g))) := by
  unfold Game.update
  rw [if_neg (by simp [hs])]

theorem loseLife_counters (env : Env) (g : Game) :
    (loseLife env g).lives = g.lives - 1 ∧ (loseLife env g).score = g.score ∧
      (loseLife env g).diamondsCollected = g.diamondsCollected ∧
      (loseLife env g).currentLevel = g.currentLevel := by
  unfold loseLife
  simp only []
  split_ifs <;> exact ⟨rfl, rfl, rfl, rfl⟩

theorem loseLife_last (env : Env) (g : Game) (h : g.lives - 1 ≤ 0) :
    loseLife env g = { g with lives := g.lives - 1, state := GameState.GAME_OVER } := by
  unfold loseLife
  simp only []
  rw [if_pos h]

theorem loseLife_rebuild (env : Env) (g : Game) (h : 2 ≤ g.lives) :
    loseLife env g = Game.loadLevel env g.currentLevel { g with lives := g.lives - 1 } := by
  unfold loseLife
  simp only []
  rw [if_neg (by omega)]

theorem physics_frame (inp : Input) (g : Game) :
    (physics inp g).state = g.state ∧ (physics inp g).lives = g.lives ∧
    (physics inp g).score = g.score ∧
    (physics inp g).diamondsCollected = g.diamondsCollected ∧
    (physics inp g).currentLevel = g.currentLevel ∧
    (physics inp g).diamonds = g.diamonds ∧ (physics inp g).enemies = g.enemies ∧
    (physics inp g).icicles = g.icicles ∧ (physics inp g).fallingRocks = g.fallingRocks ∧
    (physics inp g).lavaPools = g.lavaPools ∧ (physics inp g).hammer = g.hammer ∧
    (physics inp g).exitDoor = g.exitDoor ∧ (physics inp g).batTextures = g.batTextures ∧
    (physics inp g).platforms.map Platform.shape = g.platforms.map Platform.shape :=
  ⟨rfl, rfl, rfl, rfl, rfl, rfl, rfl, rfl, rfl, rfl, rfl, rfl, rfl,
   verticalLoop_shapes _ _ _⟩

/-- C9: in a Playing state with lives = 1, a tick after whose physics passes
position.y exceeds WINDOW_HEIGHT + 200 = 800 ends with state GAME_OVER and
lives = 0, and the level is not rebuilt: the result is the state after the
physics passes with only `lives` and `state` changed, so the entity lists, the
hammer and the tile shapes are those of before the tick and the player is where
the physics left it. -/
theorem c9_fall_out_last_life (env : Env) (inp : Input) (g : Game)
    (hs : g.state = GameState.PLAYING) (hl : g.lives = 1)
    (hy : (physics inp g).player.position.y > WINDOW_HEIGHT + 200) :
    (Game.update env inp g).state = GameState.GAME_OVER ∧
    (Game.update env inp g).lives = 0 ∧
    Game.update env inp g
      = { physics inp g with lives := 0, state := GameState.GAME_OVER } ∧
    (Game.update env inp g).diamonds = g.diamonds ∧
    (Game.update env inp g).enemies = g.enemies ∧
    (Game.update env inp g).icicles = g.icicles ∧
    (Game.update env inp g).hammer = g.hammer ∧
    (Game.update env inp g).platforms.map Platform.shape = g.platforms.map Platform.shape ∧
    (Game.update env inp g).player.position.y > 800 := by
  have hu : Game.update env inp g
      = { physics inp g with lives := 0, state := GameState.GAME_OVER } := by
    rw [update_playing env inp g hs, if_pos hy,
      loseLife_last env _ (by rw [(physics_frame inp g).2.1, hl]; norm_num)]
    rw [(physics_frame inp g).2.1, hl]
    norm_num
  rw [hu]
  refine ⟨rfl, rfl, rfl, rfl, rfl, rfl, rfl, verticalLoop_shapes _ _ _, ?_⟩
  have h800 : ((WINDOW_HEIGHT : Int) : ℚ) + 200 = 800 := by norm_num [WINDOW_HEIGHT]
  rw [h800] at hy
  exact hy

theorem c9_fall_out_last_life_witness :
    (Game.update Env.still noInput fallingGame).state = GameState.GAME_OVER ∧
    (Game.update Env.still noInput fallingGame).lives = 0 :=
  (fun h => ⟨h.1, h.2.1⟩)
    (c9_fall_out_last_life Env.still noInput fallingGame rfl rfl
      (by norm_num [physics, applyInput, horizontalPass, verticalPass, verticalLoop,
        clampToWorld, fallingGame, sampleGame, noInput, Player.new, GRAVITY, WORLD_WIDTH,
        WINDOW_HEIGHT]))

theorem hazardsAndExit_counters (env : Env) (g : Game) :
    (hazardsAndExit env g).score = g.score ∧
      (hazardsAndExit env g).diamondsCollected = g.diamondsCollected := by
  unfold hazardsAndExit
  simp only []
  split_ifs
  · exact ⟨(loseLife_counters env _).2.1, (loseLife_counters env _).2.2.1⟩
  · exact ⟨(loseLife_counters env _).2.1, (loseLife_counters env _).2.2.1⟩
  · exact ⟨(loseLife_counters env _).2.1, (loseLife_counters env _).2.2.1⟩
  · exact ⟨(loseLife_counters env _).2.1, (loseLife_counters env _).2.2.1⟩
  · unfold exitStep
    split_ifs <;> exact ⟨rfl, rfl⟩

/-- Either the hazard part of the tick costs a life, or no loop reports a
contact and the tick ends with the exit test. -/
theorem hazardsAndExit_cases (env : Env) (g : Game) :
    (hazardsAndExit env g).lives = g.lives - 1 ∨
    hazardsAndExit env g = exitStep
      { g with
        enemies := (updateEnemies env g.batTextures g.player.getBounds g.enemies).1
        fallingRocks := (updateRocks env g.player.getBounds g.fallingRocks).1
        icicles := (updateIcicles env g.player.getBounds g.icicles).1
        lavaPools := (updateLava g.player.getBounds g.lavaPools).1 } := by
  unfold hazardsAndExit
  simp only []
  split_ifs
  · left; exact (loseLife_counters env _).1
  · left; exact (loseLife_counters env _).1
  · left; exact (loseLife_counters env _).1
  · left; exact (loseLife_counters env _).1
  · right; rfl

theorem exitStep_frame (g : Game) :
    (exitStep g).lives = g.lives ∧ (exitStep g).diamonds = g.diamonds ∧
      (exitStep g).hammer = g.hammer ∧ (exitStep g).player = g.player := by
  unfold exitStep
  split_ifs <;> exact ⟨rfl, rfl, rfl, rfl⟩

theorem hammerStep_frame (g : Game) :
    (hammerStep g).lives = g.lives ∧ (hammerStep g).diamonds = g.diamonds ∧
      (hammerStep g).diamondsCollected = g.diamondsCollected ∧
      (hammerStep g).player.position = g.player.position ∧
      (hammerStep g).enemies = g.enemies ∧ (hammerStep g).batTextures = g.batTextures ∧
      (hammerStep g).currentLevel = g.currentLevel ∧
      (hammerStep g).exitDoor = g.exitDoor ∧
      (g.player.hasHammer = true → (hammerStep g).player.hasHammer = true) := by
  unfold hammerStep
  split
  · exact ⟨rfl, rfl, rfl, rfl, rfl, rfl, rfl, rfl, fun h => h⟩
  · split_ifs
    · exact ⟨rfl, rfl, rfl, rfl, rfl, rfl, rfl, rfl, fun _ => rfl⟩
    · exact ⟨rfl, rfl, rfl, rfl, rfl, rfl, rfl, rfl, fun h => h⟩

/-- In a Playing tick that is not a fall-out tick the counters after the tick
are those left by the pickup steps. -/
theorem update_counters (env : Env) (inp : Input) (g : Game)
    (hs : g.state = GameState.PLAYING)
    (hnf : ¬ (physics inp g).player.position.y > WINDOW_HEIGHT + 200) :
    (Game.update env inp g).score
        = (hammerStep (collectablesStep env (physics inp g))).score ∧
      (Game.update env inp g).diamondsCollected
        = (collectablesStep env (physics inp g)).diamondsCollected := by
  rw [update_playing env inp g hs, if_neg hnf]
  exact ⟨(hazardsAndExit_counters env _).1,
    by rw [(hazardsAndExit_counters env _).2, (hammerStep_frame _).2.2.1]⟩

theorem Diamond.update_collected (env : Env) (d : Diamond) :
    (d.update env).collected = d.collected := rfl

theorem collectDiamond_collected (env : Env) (p : Player) (d : Diamond) (dc sc : Int)
    (h : d.collected = true) :
    collectDiamond env p d dc sc = (d.update env, dc, sc) := by
  unfold collectDiamond
  simp [Diamond.update_collected, h]

theorem collectDiamond_pickup (env : Env) (p : Player) (d : Diamond) (dc sc : Int)
    (hu : d.collected = false)
    (hi : p.getBounds.intersects (d.update env).getBounds = true) :
    collectDiamond env p d dc sc
      = ({ d.update env with collected := true }, wrapInt (dc + 1), wrapInt (sc + 50)) := by
  unfold collectDiamond
  simp [Diamond.update_collected, hu, hi]

theorem collectDiamonds_append (env : Env) (p : Player) (l1 l2 : List Diamond)
    (dc sc : Int) :
    collectDiamonds env p (l1 ++ l2) dc sc
      = ((collectDiamonds env p l1 dc sc).1 ++
           (collectDiamonds env p l2 (collectDiamonds env p l1 dc sc).2.1
             (collectDiamonds env p l1 dc sc).2.2).1,
         (collectDiamonds env p l2 (collectDiamonds env p l1 dc sc).2.1
             (collectDiamonds env p l1 dc sc).2.2).2) := by
  induction l1 generalizing dc sc with
  | nil => rfl
  | cons d ds ih =>
    rw [List.cons_append]
    simp only [collectDiamonds]
    rw [ih]
    rfl

theorem foldl_collectDiamond_collected (env : Env) (ps : List Player) (d : Diamond)
    (dc sc : Int) (h : d.collected = true) :
    (ps.foldl (fun t q => collectDiamond env q t.1 t.2.1 t.2.2) (d, dc, sc)).1.collected = true ∧
    (ps.foldl (fun t q => collectDiamond env q t.1 t.2.1 t.2.2) (d, dc, sc)).2 = (dc, sc) := by
  induction ps generalizing d with
  | nil => exact ⟨h, rfl⟩
  | cons q qs ih =>
    simp only [List.foldl_cons]
    rw [collectDiamond_collected env q d dc sc h]
    exact ih (d.update env) h

/-- C5: for a diamond whose `collected` flag is already true, the body of the
collectible loop leaves score, diamondsCollected and the flag unchanged whatever
the player's bounds; applying it any number of times (for any player positions
`ps`) gives the same flag and counters as applying it once; and in the diamond
loop over a list the diamond contributes nothing to the counters. -/
theorem c5_collected_diamond_is_inert (env : Env) (p : Player) (ps : List Player)
    (l1 l2 : List Diamond) (d : Diamond) (dc sc : Int) (h : d.collected = true) :
    (collectDiamond env p d dc sc).1.collected = true ∧
    (collectDiamond env p d dc sc).2 = (dc, sc) ∧
    (ps.foldl (fun t q => collectDiamond env q t.1 t.2.1 t.2.2) (d, dc, sc)).1.collected
      = (collectDiamond env p d dc sc).1.collected ∧
    (ps.foldl (fun t q => collectDiamond env q t.1 t.2.1 t.2.2) (d, dc, sc)).2
      = (collectDiamond env p d dc sc).2 ∧
    (collectDiamonds env p (l1 ++ d :: l2) dc sc).2
      = (collectDiamonds env p (l1 ++ l2) dc sc).2 := by
  have h1 := collectDiamond_collected env p d dc sc h
  obtain ⟨f1, f2⟩ := foldl_collectDiamond_collected env ps d dc sc h
  refine ⟨by rw [h1]; exact h, by rw [h1], by rw [f1, h1]; exact h.symm, by rw [f2, h1], ?_⟩
  rw [collectDiamonds_append, collectDiamonds_append]
  simp only [collectDiamonds]
  rw [collectDiamond_collected env p d _ _ h]

theorem c5_collected_diamond_is_inert_witness :
    samplePlayer.getBounds.intersects (takenDiamond.update Env.still).getBounds = true ∧
    (collectDiamond Env.still samplePlayer takenDiamond 3 150).1.collected = true ∧
    (collectDiamond Env.still samplePlayer takenDiamond 3 150).2 = (3, 150) ∧
    ([samplePlayer, samplePusher, samplePlayer].foldl
        (fun t q => collectDiamond Env.still q t.1 t.2.1 t.2.2) (takenDiamond, 3, 150)).2
      = (collectDiamond Env.still samplePlayer takenDiamond 3 150).2 :=
  ⟨by norm_num [samplePlayer, Player.new, Player.getBounds, takenDiamond, sampleDiamond,
      Diamond.new, Diamond.update, Diamond.getBounds, Env.still, Sprite.getGlobalBounds,
      Sprite.getLocalBounds, Sprite.setTexture, Sprite.default, FloatRect.intersects],
   (c5_collected_diamond_is_inert Env.still samplePlayer
      [samplePlayer, samplePusher, samplePlayer] [] [] takenDiamond 3 150 rfl).1,
   (c5_collected_diamond_is_inert Env.still samplePlayer
      [samplePlayer, samplePusher, samplePlayer] [] [] takenDiamond 3 150 rfl).2.1,
   (c5_collected_diamond_is_inert Env.still samplePlayer
      [samplePlayer, samplePusher, samplePlayer] [] [] takenDiamond 3 150 rfl).2.2.2.1⟩

theorem physics_diamonds (inp : Input) (g : Game) (ds : List Diamond) :
    physics inp { g with diamonds := ds } = { physics inp g with diamonds := ds } := rfl

theorem applyInput_kit (inp : Input) (p : Player) :
    (applyInput inp p).speed = p.speed ∧ (applyInput inp p).jumpPower = p.jumpPower ∧
      (applyInput inp p).hasHammer = p.hasHammer := by
  unfold applyInput
  simp only []
  split_ifs <;> exact ⟨rfl, rfl, rfl⟩

theorem resolveHorizontal_kit (p : Player) (t : Platform) :
    (resolveHorizontal p t).speed = p.speed ∧
      (resolveHorizontal p t).jumpPower = p.jumpPower ∧
      (resolveHorizontal p t).hasHammer = p.hasHammer := by
  unfold resolveHorizontal
  simp only []
  split_ifs <;> exact ⟨rfl, rfl, rfl⟩

theorem foldl_resolveHorizontal_kit (tiles : List Platform) (p : Player) :
    (tiles.foldl resolveHorizontal p).speed = p.speed ∧
      (tiles.foldl resolveHorizontal p).jumpPower = p.jumpPower ∧
      (tiles.foldl resolveHorizontal p).hasHammer = p.hasHammer := by
  induction tiles generalizing p with
  | nil => exact ⟨rfl, rfl, rfl⟩
  | cons t ts ih =>
    simp only [List.foldl_cons]
    obtain ⟨a, b, c⟩ := ih (resolveHorizontal p t)
    obtain ⟨a2, b2, c2⟩ := resolveHorizontal_kit p t
    exact ⟨a.trans a2, b.trans b2, c.trans c2⟩

theorem resolveVertical_kit (vy : ℚ) (p : Player) (t : Platform) :
    (resolveVertical vy p t).1.speed = p.speed ∧
      (resolveVertical vy p t).1.jumpPower = p.jumpPower ∧
      (resolveVertical vy p t).1.hasHammer = p.hasHammer := by
  unfold resolveVertical
  simp only []
  by_cases h1 : p.getBounds.intersects t.shape.getGlobalBounds = true
  · rw [if_pos h1]
    by_cases h2 : vy > 0
    · rw [if_pos h2]
      exact ⟨rfl, rfl, rfl⟩
    · rw [if_neg h2]
      by_cases h3 : vy < 0
      · rw [if_pos h3]
        exact ⟨rfl, rfl, rfl⟩
      · rw [if_neg h3]
        exact ⟨rfl, rfl, rfl⟩
  · rw [if_neg h1]
    exact ⟨rfl, rfl, rfl⟩

theorem verticalLoop_kit (vy : ℚ) (tiles : List Platform) (p : Player) :
    (verticalLoop vy p tiles).1.speed = p.speed ∧
      (verticalLoop vy p tiles).1.jumpPower = p.jumpPower ∧
      (verticalLoop vy p tiles).1.hasHammer = p.hasHammer := by
  induction tiles generalizing p with
  | nil => exact ⟨rfl, rfl, rfl⟩
  | cons t ts ih =>
    simp only [verticalLoop]
    obtain ⟨a, b, c⟩ := ih (resolveVertical vy p t).1
    obtain ⟨a2, b2, c2⟩ := resolveVertical_kit vy p t
    exact ⟨a.trans a2, b.trans b2, c.trans c2⟩

theorem clampToWorld_kit (p : Player) :
    (clampToWorld p).speed = p.speed ∧ (clampToWorld p).jumpPower = p.jumpPower ∧
      (clampToWorld p).hasHammer = p.hasHammer := by
  unfold clampToWorld
  simp only []
  split_ifs <;> exact ⟨rfl, rfl, rfl⟩

/-- The physics part of a tick changes neither the player's speed and jump
power nor the hammer capability. -/
theorem physics_kit (inp : Input) (g : Game) :
    (physics inp g).player.speed = g.player.speed ∧
      (physics inp g).player.jumpPower = g.player.jumpPower ∧
      (physics inp g).player.hasHammer = g.player.hasHammer := by
  unfold physics verticalPass horizontalPass
  simp only []
  obtain ⟨a1, b1, c1⟩ := clampToWorld_kit
    (verticalLoop ((List.foldl resolveHorizontal
      { applyInput inp g.player with
        position := ⟨(applyInput inp g.player).position.x + (applyInput inp g.player).velocity.x,
                     (applyInput inp g.player).position.y⟩ } g.platforms).velocity.y + GRAVITY)
      { List.foldl resolveHorizontal
          { applyInput inp g.player with
            position := ⟨(applyInput inp g.player).position.x
                          + (applyInput inp g.player).velocity.x,
                         (applyInput inp g.player).position.y⟩ } g.platforms with
        velocity := ⟨_, _⟩, position := ⟨_, _⟩, grounded := false } g.platforms).1
  obtain ⟨a2, b2, c2⟩ := verticalLoop_kit
    ((List.foldl resolveHorizontal
      { applyInput inp g.player with
        position := ⟨(applyInput inp g.player).position.x + (applyInput inp g.player).velocity.x,
                     (applyInput inp g.player).position.y⟩ } g.platforms).velocity.y + GRAVITY)
    g.platforms
    { List.foldl resolveHorizontal
        { applyInput inp g.player with
          position := ⟨(applyInput inp g.player).position.x
                        + (applyInput inp g.player).velocity.x,
                       (applyInput inp g.player).position.y⟩ } g.platforms with
      velocity := ⟨_, _⟩, position := ⟨_, _⟩, grounded := false }
  obtain ⟨a3, b3, c3⟩ := foldl_resolveHorizontal_kit g.platforms
    { applyInput inp g.player with
      position := ⟨(applyInput inp g.player).position.x + (applyInput inp g.player).velocity.x,
                   (applyInput inp g.player).position.y⟩ }
  obtain ⟨a4, b4, c4⟩ := applyInput_kit inp g.player
  exact ⟨a1.trans (a2.trans (a3.trans a4)), b1.trans (b2.trans (b3.trans b4)),
    c1.trans (c2.trans (c3.trans c4))⟩

/-- A rebuild reads, from the game it is applied to, only the player's speed and
jump power, the door shape, the flow state and the loaded images; the session
counters pass through. -/
theorem loadLevel_rebase (env : Env) (l : Int) (a b : Game)
    (hspeed : a.player.speed = b.player.speed)
    (hjump : a.player.jumpPower = b.player.jumpPower)
    (hdoor : a.exitDoor = b.exitDoor) (hstate : a.state = b.state)
    (hmenu : a.menuPage = b.menuPage)
    (haxe : a.axeTexture = b.axeTexture ∧ a.axeLoaded = b.axeLoaded)
    (hdia : a.diamondTexture = b.diamondTexture ∧ a.diamondLoaded = b.diamondLoaded ∧
      a.diamondTexture2 = b.diamondTexture2 ∧ a.diamond2Loaded = b.diamond2Loaded)
    (hflags : a.iceBlockLoaded = b.iceBlockLoaded ∧ a.seaweedLoaded = b.seaweedLoaded ∧
      a.doorLoaded = b.doorLoaded ∧ a.batTextures = b.batTextures) :
    Game.loadLevel env l a
      = { Game.loadLevel env l b with
          lives := a.lives, score := a.score, diamondsCollected := a.diamondsCollected } := by
  obtain ⟨pa, _, _, _, _, _, _, _, _, _, _, _, _, _, _, _, _, _, _, _, _, _, _, _, _, _⟩ := a
  obtain ⟨pb, _, _, _, _, _, _, _, _, _, _, _, _, _, _, _, _, _, _, _, _, _, _, _, _, _⟩ := b
  obtain ⟨_, _, _, _, _, _, _⟩ := pa
  obtain ⟨_, _, _, _, _, _, _⟩ := pb
  obtain ⟨h1, h2⟩ := haxe
  obtain ⟨h3, h4, h5, h6⟩ := hdia
  obtain ⟨h7, h8, h9, h10⟩ := hflags
  simp only [] at hspeed hjump hdoor hstate hmenu h1 h2 h3 h4 h5 h6 h7 h8 h9 h10
  subst hspeed hjump hdoor hstate hmenu h1 h2 h3 h4 h5 h6 h7 h8 h9 h10
  rfl

theorem physics_setup (inp : Input) (g : Game) : SameSetup (physics inp g) g :=
  ⟨(physics_kit inp g).1, (physics_kit inp g).2.1, rfl, rfl, rfl, ⟨rfl, rfl⟩,
   ⟨rfl, rfl, rfl, rfl⟩, ⟨rfl, rfl, rfl, rfl⟩, rfl, rfl⟩

theorem hammerStep_setup (g g0 : Game) (h : SameSetup g g0) : SameSetup (hammerStep g) g0 := by
  unfold hammerStep
  split
  · exact h
  · split_ifs
    · exact h
    · exact h

/-- Losing a life with at least two lives left, in a game that still has the
setup of `g`, rebuilds the current level of `g`. -/
theorem loseLife_rebuild_setup (env : Env) (x g : Game) (h : SameSetup x g)
    (hl : 2 ≤ g.lives) :
    loseLife env x
      = { Game.loadLevel env g.currentLevel g with
          lives := g.lives - 1, score := x.score, diamondsCollected := x.diamondsCollected } := by
  obtain ⟨h1, h2, h3, h4, h5, h6, h7, h8, h9, h10⟩ := h
  rw [loseLife_rebuild env x (by rw [h10]; exact hl), h9, h10]
  exact loadLevel_rebase env g.currentLevel { x with lives := g.lives - 1 } g
    h1 h2 h3 h4 h5 h6 h7 h8

theorem updateEnemies_contact (env : Env) (textures : List Texture) (pb : FloatRect)
    (es : List Enemy)
    (h : ∃ e ∈ es, pb.intersects (e.update env textures).getBounds = true) :
    (updateEnemies env textures pb es).2 = true := by
  induction es with
  | nil =>
    obtain ⟨e, he, -⟩ := h
    exact absurd he (List.not_mem_nil e)
  | cons e es ih =>
    unfold updateEnemies
    simp only []
    by_cases hc : pb.intersects (e.update env textures).getBounds = true
    · rw [if_pos hc]
    · rw [if_neg hc]
      apply ih
      obtain ⟨e2, he2, hi⟩ := h
      rcases List.mem_cons.mp he2 with rfl | hm
      · exact absurd hi hc
      · exact ⟨e2, hm, hi⟩

theorem hazardsAndExit_enemy (env : Env) (g : Game)
    (h : (updateEnemies env g.batTextures g.player.getBounds g.enemies).2 = true) :
    hazardsAndExit env g
      = loseLife env
          { g with enemies := (updateEnemies env g.batTextures g.player.getBounds g.enemies).1 } := by
  unfold hazardsAndExit
  simp only []
  rw [if_pos h]

theorem hammerStep_player_bounds (g : Game) :
    (hammerStep g).player.getBounds = g.player.getBounds := by
  unfold Player.getBounds
  rw [(hammerStep_frame g).2.2.2.1]

/-- A Playing tick, not a fall-out tick, in which an updated enemy's bounds
intersect the moved player's bounds ends in the life-loss rule, applied after
the pickup steps. -/
theorem update_enemy_contact (env : Env) (inp : Input) (g : Game)
    (hs : g.state = GameState.PLAYING)
    (hnf : ¬ (physics inp g).player.position.y > WINDOW_HEIGHT + 200)
    (he : ∃ e ∈ g.enemies,
      (physics inp g).player.getBounds.intersects (e.update env g.batTextures).getBounds = true) :
    ∃ es, Game.update env inp g
      = loseLife env { hammerStep (collectablesStep env (physics inp g)) with enemies := es } := by
  rw [update_playing env inp g hs, if_neg hnf]
  refine ⟨_, hazardsAndExit_enemy env _ ?_⟩
  rw [hammerStep_player_bounds, (hammerStep_frame _).2.2.2.2.1,
    (hammerStep_frame _).2.2.2.2.2.1]
  exact updateEnemies_contact env _ _ _ he

theorem collectDiamonds_none (env : Env) (p : Player) (ds : List Diamond) (dc sc : Int)
    (h : ∀ d ∈ ds, d.collected = true ∨
      p.getBounds.intersects (d.update env).getBounds = false) :
    (collectDiamonds env p ds dc sc).2 = (dc, sc) := by
  induction ds with
  | nil => rfl
  | cons d ds ih =>
    have hd : collectDiamond env p d dc sc = ((collectDiamond env p d dc sc).1, dc, sc) := by
      unfold collectDiamond
      simp only []
      rcases h d (List.mem_cons_self _ _) with hc | hi
      · simp [Diamond.update_collected, hc]
      · simp [hi]
    simp only [collectDiamonds]
    rw [hd]
    exact ih (fun e he => h e (List.mem_cons_of_mem _ he))

theorem hammerStep_none (g : Game)
    (h : ∀ hm, g.hammer = some hm → hm.collected = true ∨
      g.player.getBounds.intersects hm.getBounds = false) :
    (hammerStep g).score = g.score := by
  unfold hammerStep
  split
  · rfl
  · rename_i hm heq
    rcases h hm heq with hc | hi
    · simp [hc]
    · simp [hi]

/-- C8 (as stated, refuted): a Playing state with lives = 3 in which the player
overlaps both an enemy and an uncollected diamond: the tick costs a life
(lives = 2) but the score is 50 and diamondsCollected is 1 after the tick, not
the 0 and 0 of before the tick. -/
theorem c8_score_changes_in_contact_tick :
    contactGame.state = GameState.PLAYING ∧ contactGame.lives = 3 ∧
    (physics noInput contactGame).player.getBounds.intersects
      (sampleEnemy.update Env.still contactGame.batTextures).getBounds = true ∧
    (Game.update Env.still noInput contactGame).lives = 2 ∧
    contactGame.score = 0 ∧ contactGame.diamondsCollected = 0 ∧
    (Game.update Env.still noInput contactGame).score = 50 ∧
    (Game.update Env.still noInput contactGame).diamondsCollected = 1 := by
  have hnf : ¬ (physics noInput contactGame).player.position.y > WINDOW_HEIGHT + 200 := by
    norm_num [physics, applyInput, horizontalPass, verticalPass, verticalLoop,
      clampToWorld, contactGame, sampleGame, noInput, Player.new, GRAVITY, WORLD_WIDTH,
      WINDOW_HEIGHT]
  have hhit : (physics noInput contactGame).player.getBounds.intersects
      (sampleEnemy.update Env.still contactGame.batTextures).getBounds = true := by
    norm_num [physics, applyInput, horizontalPass, verticalPass, verticalLoop,
      clampToWorld, contactGame, sampleGame, noInput, Player.new, GRAVITY, WORLD_WIDTH,
      Player.getBounds, sampleEnemy, Enemy.new, Enemy.update, Enemy.patrol, Enemy.getBounds,
      Env.still, Sprite.getGlobalBounds, Sprite.getLocalBounds, Sprite.setTexture,
      Sprite.default, FloatRect.intersects]
  obtain ⟨es, hu⟩ := update_enemy_contact Env.still noInput contactGame rfl hnf
    ⟨sampleEnemy, List.mem_singleton.mpr rfl, hhit⟩
  obtain ⟨u1, u2⟩ := update_counters Env.still noInput contactGame rfl hnf
  refine ⟨rfl, rfl, hhit, ?_, rfl, rfl, ?_, ?_⟩
  · rw [hu, (loseLife_counters _ _).1]
    show (hammerStep (collectablesStep Env.still (physics noInput contactGame))).lives - 1 = 2
    rw [(hammerStep_frame _).1]
    rfl
  · rw [u1]
    norm_num [hammerStep, collectablesStep, collectDiamonds, collectDiamond, wrapInt,
      physics, applyInput, horizontalPass, verticalPass, verticalLoop,
      clampToWorld, contactGame, sampleGame, noInput, Player.new, GRAVITY, WORLD_WIDTH,
      Player.getBounds, sampleDiamond,
      Diamond.new, Diamond.update, Diamond.getBounds, Env.still, Sprite.getGlobalBounds,
      Sprite.getLocalBounds, Sprite.setTexture, Sprite.default, FloatRect.intersects]
  · rw [u2]
    norm_num [collectablesStep, collectDiamonds, collectDiamond, wrapInt,
      physics, applyInput, horizontalPass, verticalPass, verticalLoop,
      clampToWorld, contactGame, sampleGame, noInput, Player.new, GRAVITY, WORLD_WIDTH,
      Player.getBounds, sampleDiamond,
      Diamond.new, Diamond.update, Diamond.getBounds, Env.still, Sprite.getGlobalBounds,
      Sprite.getLocalBounds, Sprite.setTexture, Sprite.default, FloatRect.intersects]

/-- C8 (amended): in a Playing state with lives = n >= 2, a tick in which an
updated enemy's bounds intersect the moved player's bounds ends with
lives = n - 1, still Playing, the current level rebuilt and the player at the
spawn point (50, GROUND_Y - 60): the result is the rebuilt level of the state
before the tick with only the counters changed.  Score and diamondsCollected
are the values left by the tick's own pickup steps, which run before the enemy
test; they are the values of before the tick when no uncollected diamond and no
uncollected hammer overlaps the moved player. -/
theorem c8_enemy_contact_rebuilds (env : Env) (inp : Input) (g : Game)
    (hs : g.state = GameState.PLAYING) (hl : 2 ≤ g.lives)
    (he : ∃ e ∈ g.enemies,
      (physics inp g).player.getBounds.intersects (e.update env g.batTextures).getBounds = true) :
    (Game.update env inp g).lives = g.lives - 1 ∧
    (Game.update env inp g).state = GameState.PLAYING ∧
    Game.update env inp g
      = { Game.loadLevel env g.currentLevel g with
          lives := g.lives - 1
          score := (Game.update env inp g).score
          diamondsCollected := (Game.update env inp g).diamondsCollected } ∧
    (Game.update env inp g).player.position = ⟨50, GROUND_Y - 60⟩ ∧
    (¬ (physics inp g).player.position.y > WINDOW_HEIGHT + 200 →
      (Game.update env inp g).score
        = (hammerStep (collectablesStep env (physics inp g))).score ∧
      (Game.update env inp g).diamondsCollected
        = (collectablesStep env (physics inp g)).diamondsCollected) ∧
    ((∀ d ∈ g.diamonds, d.collected = true ∨
        (physics inp g).player.getBounds.intersects (d.update env).getBounds = false) →
      (∀ hm, g.hammer = some hm → hm.collected = true ∨
        (physics inp g).player.getBounds.intersects hm.getBounds = false) →
      (Game.update env inp g).score = g.score ∧
      (Game.update env inp g).diamondsCollected = g.diamondsCollected) := by
  have key : ∃ s d, Game.update env inp g
      = { Game.loadLevel env g.currentLevel g with
          lives := g.lives - 1, score := s, diamondsCollected := d } ∧
      ((physics inp g).player.position.y > WINDOW_HEIGHT + 200 →
        s = g.score ∧ d = g.diamondsCollected) := by
    by_cases hf : (physics inp g).player.position.y > WINDOW_HEIGHT + 200
    · refine ⟨g.score, g.diamondsCollected, ?_, fun _ => ⟨rfl, rfl⟩⟩
      rw [update_playing env inp g hs, if_pos hf]
      exact loseLife_rebuild_setup env (physics inp g) g (physics_setup inp g) hl
    · obtain ⟨es, hu⟩ := update_enemy_contact env inp g hs hf he
      refine ⟨(hammerStep (collectablesStep env (physics inp g))).score,
        (hammerStep (collectablesStep env (physics inp g))).diamondsCollected, ?_,
        fun h => absurd h hf⟩
      rw [hu]
      have h1 : SameSetup
          { hammerStep (collectablesStep env (physics inp g)) with enemies := es } g :=
        hammerStep_setup _ g (physics_setup inp g)
      exact loseLife_rebuild_setup env _ g h1 hl
  obtain ⟨s, d, hu, hfall⟩ := key
  refine ⟨by rw [hu], by rw [hu]; exact hs, ?_, by rw [hu]; rfl,
    fun hnf => update_counters env inp g hs hnf, ?_⟩
  · conv_lhs => rw [hu]
    rw [hu]
  · intro hd hh
    by_cases hf : (physics inp g).player.position.y > WINDOW_HEIGHT + 200
    · obtain ⟨e1, e2⟩ := hfall hf
      rw [hu]
      exact ⟨e1, e2⟩
    · obtain ⟨u1, u2⟩ := update_counters env inp g hs hf
      have c := collectDiamonds_none env (physics inp g).player g.diamonds
        g.diamondsCollected g.score hd
      have c1 : (collectablesStep env (physics inp g)).score = g.score :=
        congrArg (fun t => t.2) c
      have c2 : (collectablesStep env (physics inp g)).diamondsCollected
          = g.diamondsCollected := congrArg (fun t => t.1) c
      rw [u1, u2, c2, hammerStep_none _ hh, c1]
      exact ⟨rfl, rfl⟩

theorem c8_enemy_contact_rebuilds_witness :
    (Game.update Env.still noInput enemyGame).lives = enemyGame.lives - 1 ∧
    (Game.update Env.still noInput enemyGame).state = GameState.PLAYING ∧
    (Game.update Env.still noInput enemyGame).player.position = ⟨50, GROUND_Y - 60⟩ ∧
    (Game.update Env.still noInput enemyGame).score = enemyGame.score ∧
    (Game.update Env.still noInput enemyGame).diamondsCollected
      = enemyGame.diamondsCollected :=
  (fun h => ⟨h.1, h.2.1, h.2.2.2.1,
      h.2.2.2.2.2 (fun d hd => absurd hd (List.not_mem_nil d))
        (fun hm hh => absurd hh (by simp [enemyGame, sampleGame]))⟩)
    (c8_enemy_contact_rebuilds Env.still noInput enemyGame rfl
      (by norm_num [enemyGame, sampleGame])
      ⟨sampleEnemy, List.mem_singleton.mpr rfl, by
        norm_num [physics, applyInput, horizontalPass, verticalPass, verticalLoop,
          clampToWorld, enemyGame, sampleGame, noInput, Player.new, GRAVITY, WORLD_WIDTH,
          Player.getBounds, sampleEnemy, Enemy.new, Enemy.update, Enemy.patrol,
          Enemy.getBounds, Env.still, Sprite.getGlobalBounds, Sprite.getLocalBounds,
          Sprite.setTexture, Sprite.default, FloatRect.intersects]⟩)

/-- C10 (as stated, refuted): a Playing state in which the moved player holds
the hammer and overlaps the exit door, and also overlaps an enemy: the enemy
test comes first and ends the tick, so the state after the tick is PLAYING
(with a life lost), not LEVEL_COMPLETE. -/
theorem c10_contact_preempts_exit :
    doorEnemyGame.state = GameState.PLAYING ∧
    (physics noInput doorEnemyGame).player.hasHammer = true ∧
    (physics noInput doorEnemyGame).player.getBounds.intersects
      doorEnemyGame.exitDoor.getGlobalBounds = true ∧
    (Game.update Env.still noInput doorEnemyGame).state = GameState.PLAYING ∧
    (Game.update Env.still noInput doorEnemyGame).state ≠ GameState.LEVEL_COMPLETE ∧
    (Game.update Env.still noInput doorEnemyGame).lives = 2 := by
  have hnf : ¬ (physics noInput doorEnemyGame).player.position.y > WINDOW_HEIGHT + 200 := by
    norm_num [physics, applyInput, horizontalPass, verticalPass, verticalLoop,
      clampToWorld, doorEnemyGame, doorGame, sampleGame, noInput, Player.new, GRAVITY,
      WORLD_WIDTH, WINDOW_HEIGHT]
  have hhit : (physics noInput doorEnemyGame).player.getBounds.intersects
      (sampleEnemy.update Env.still doorEnemyGame.batTextures).getBounds = true := by
    norm_num [physics, applyInput, horizontalPass, verticalPass, verticalLoop,
      clampToWorld, doorEnemyGame, doorGame, sampleGame, noInput, Player.new, GRAVITY,
      WORLD_WIDTH, Player.getBounds, sampleEnemy, Enemy.new, Enemy.update, Enemy.patrol,
      Enemy.getBounds, Env.still, Sprite.getGlobalBounds, Sprite.getLocalBounds,
      Sprite.setTexture, Sprite.default, FloatRect.intersects]
  obtain ⟨es, hu⟩ := update_enemy_contact Env.still noInput doorEnemyGame rfl hnf
    ⟨sampleEnemy, List.mem_singleton.mpr rfl, hhit⟩
  have hset : SameSetup
      { hammerStep (collectablesStep Env.still (physics noInput doorEnemyGame)) with
        enemies := es } doorEnemyGame :=
    hammerStep_setup _ doorEnemyGame (physics_setup noInput doorEnemyGame)
  have hre := loseLife_rebuild_setup Env.still _ doorEnemyGame hset
    (by norm_num [doorEnemyGame, doorGame, sampleGame])
  rw [hu, hre]
  refine ⟨rfl, ?_, ?_, rfl, ?_, rfl⟩
  · rw [(physics_kit noInput doorEnemyGame).2.2]
    rfl
  · norm_num [physics, applyInput, horizontalPass, verticalPass, verticalLoop,
      clampToWorld, doorEnemyGame, doorGame, sampleGame, noInput, Player.new, GRAVITY,
      WORLD_WIDTH, Player.getBounds, RectangleShape.getGlobalBounds, FloatRect.intersects]
  · show GameState.PLAYING ≠ GameState.LEVEL_COMPLETE
    decide

/-- C10 (amended): in a Playing tick in which, once the player has been moved,
player.hasHammer is true and the player's bounds overlap the exit door's
bounds, and which costs no life (no fall-out and no hazard contact ends the tick
before the exit test), the state after the tick is LEVEL_COMPLETE, whatever the
diamonds of the level. -/
theorem c10_exit_reached (env : Env) (inp : Input) (g : Game)
    (hs : g.state = GameState.PLAYING)
    (hh : (physics inp g).player.hasHammer = true)
    (hd : (physics inp g).player.getBounds.intersects g.exitDoor.getGlobalBounds = true)
    (hl : (Game.update env inp g).lives = g.lives) :
    (Game.update env inp g).state = GameState.LEVEL_COMPLETE := by
  by_cases hf : (physics inp g).player.position.y > WINDOW_HEIGHT + 200
  · rw [update_playing env inp g hs, if_pos hf, (loseLife_counters env _).1] at hl
    have : (physics inp g).lives = g.lives := rfl
    omega
  · rw [update_playing env inp g hs, if_neg hf] at hl ⊢
    have hlives : (hammerStep (collectablesStep env (physics inp g))).lives = g.lives :=
      (hammerStep_frame _).1
    rcases hazardsAndExit_cases env (hammerStep (collectablesStep env (physics inp g)))
      with h | h
    · rw [h, hlives] at hl
      omega
    · rw [h]
      have hham : (hammerStep (collectablesStep env (physics inp g))).player.hasHammer
          = true := (hammerStep_frame _).2.2.2.2.2.2.2.2 hh
      have hb : (hammerStep (collectablesStep env (physics inp g))).player.getBounds
          = (physics inp g).player.getBounds := hammerStep_player_bounds _
      have hdoor : (hammerStep (collectablesStep env (physics inp g))).exitDoor
          = g.exitDoor := (hammerStep_frame _).2.2.2.2.2.2.2.1
      unfold exitStep
      simp only [hham, hb, hdoor, hd, Bool.and_self, if_true]

theorem c10_exit_reached_witness :
    (Game.update Env.still noInput doorGame).state = GameState.LEVEL_COMPLETE :=
  c10_exit_reached Env.still noInput doorGame rfl
    (by rw [(physics_kit noInput doorGame).2.2]; rfl)
    (by norm_num [physics, applyInput, horizontalPass, verticalPass, verticalLoop,
      clampToWorld, doorGame, sampleGame, noInput, Player.new, GRAVITY,
      WORLD_WIDTH, Player.getBounds, RectangleShape.getGlobalBounds, FloatRect.intersects])
    (by
      have hnf : ¬ (physics noInput doorGame).player.position.y > WINDOW_HEIGHT + 200 := by
        norm_num [physics, applyInput, horizontalPass, verticalPass, verticalLoop,
          clampToWorld, doorGame, sampleGame, noInput, Player.new, GRAVITY,
          WORLD_WIDTH, WINDOW_HEIGHT]
      rw [update_playing Env.still noInput doorGame rfl, if_neg hnf]
      rcases hazardsAndExit_cases Env.still
        (hammerStep (collectablesStep Env.still (physics noInput doorGame))) with h | h
      · exfalso
        revert h
        simp [hazardsAndExit, updateEnemies, updateRocks, updateIcicles, updateLava,
          hammerStep, collectablesStep, physics, doorGame, sampleGame, exitStep]
        split_ifs <;> simp
      · rw [h, (exitStep_frame _).1]
        exact (hammerStep_frame _).1)

/-! ## Flow commands -/

theorem loadLevel_frame (env : Env) (l : Int) (g : Game) :
    (Game.loadLevel env l g).state = g.state ∧
    (Game.loadLevel env l g).menuPage = g.menuPage ∧
    (Game.loadLevel env l g).currentLevel = l ∧
    (Game.loadLevel env l g).lives = g.lives ∧
    (Game.loadLevel env l g).score = g.score ∧
    (Game.loadLevel env l g).diamondsCollected = g.diamondsCollected ∧
    (Game.loadLevel env l g).player = g.player.reset 50 (GROUND_Y - 60) :=
  ⟨rfl, rfl, rfl, rfl, rfl, rfl, rfl⟩

theorem Player.reset_fields (p : Player) (x y : ℚ) :
    (p.reset x y).position = ⟨x, y⟩ ∧ (p.reset x y).velocity = ⟨0, 0⟩ ∧
    (p.reset x y).grounded = false ∧ (p.reset x y).hasHammer = false ∧
    (p.reset x y).facingDir = 1 :=
  ⟨rfl, rfl, rfl, rfl, rfl⟩

/-- Every diamond of a fresh build is uncollected with its animation at 0. -/
theorem loadLevel_diamonds_fresh (env : Env) (l : Int) (g : Game) :
    ∀ d ∈ (Game.loadLevel env l g).diamonds, d.collected = false ∧ d.animOffset = 0 := by
  intro d hd
  simp only [Game.loadLevel, Game.buildCommonLevelLayout, buildDiamonds, List.mem_cons,
    List.mem_singleton, List.not_mem_nil, or_false] at hd
  rcases hd with h | h | h | h | h | h | h | h | h | h <;> subst h <;> exact ⟨rfl, rfl⟩

/-- Every enemy of a fresh build is in its constructed state: at its start
position heading right, animation at frame 0. -/
theorem loadLevel_enemies_fresh (env : Env) (l : Int) (g : Game) :
    ∀ e ∈ (Game.loadLevel env l g).enemies,
      e.direction = 1 ∧ e.currentFrame = 0 ∧ e.frameTimer = 0 ∧
      e.minX ≤ e.position.x ∧ e.position.x ≤ e.maxX := by
  intro e he
  simp only [Game.loadLevel, Game.buildCommonLevelLayout, buildEnemies] at he
  split_ifs at he
  · simp only [List.mem_cons, List.mem_singleton, List.not_mem_nil, or_false] at he
    rcases he with h | h | h <;> subst h <;>
      exact ⟨rfl, rfl, rfl, by norm_num [Enemy.new], by norm_num [Enemy.new]⟩
  · simp only [List.mem_cons, List.mem_singleton, List.not_mem_nil, or_false] at he
    rcases he with h | h | h | h <;> subst h <;>
      exact ⟨rfl, rfl, rfl, by norm_num [Enemy.new], by norm_num [Enemy.new]⟩
  · exact absurd he (List.not_mem_nil e)

/-- Every icicle of a fresh build is at rest at its start position. -/
theorem loadLevel_icicles_fresh (env : Env) (l : Int) (g : Game) :
    ∀ i ∈ (Game.loadLevel env l g).icicles,
      i.falling = false ∧ i.fallTimer = 60 ∧ i.resetTimer = 0 ∧ i.velocity = ⟨0, 0⟩ ∧
      i.position.y = i.startY := by
  intro i hi
  simp only [Game.loadLevel, Game.buildCommonLevelLayout] at hi
  split_ifs at hi
  · simp only [List.mem_map] at hi
    obtain ⟨c, -, rfl⟩ := hi
    exact ⟨rfl, rfl, rfl, rfl, rfl⟩
  · exact absurd hi (List.not_mem_nil i)

theorem keyPressed_enter (env : Env) (g : Game) :
    keyPressed env Key.Enter g =
      if g.state = GameState.LEVEL_COMPLETE then
        if g.currentLevel < 4 then
          { Game.loadLevel env (g.currentLevel + 1) g with state := GameState.PLAYING }
        else
          { g with state := GameState.MENU, menuPage := MenuPage.MAIN_MENU }
      else if g.state = GameState.GAME_OVER then
        { g with state := GameState.MENU, menuPage := MenuPage.MAIN_MENU }
      else g := by
  unfold keyPressed
  simp

theorem keyPressed_r (env : Env) (g : Game) :
    keyPressed env Key.R g =
      if g.state = GameState.PLAYING then Game.loadLevel env g.currentLevel g else g := by
  unfold keyPressed
  simp

theorem handleEvent_key (env : Env) (ui : MenuUi) (code : Key) (g : Game)
    (hs : g.state ≠ GameState.MENU) :
    handleEvent env ui (Event.KeyPressed code) g = keyPressed env code g := by
  unfold handleEvent
  rw [if_neg hs]

theorem handleInput_single (env : Env) (ui : MenuUi) (event : Event) (g : Game) :
    Game.handleInput env ui [event] g = handleEvent env ui event g := rfl

/-- C11: in state LEVEL_COMPLETE with currentLevel = 4 the Enter key moves the
state to MENU and builds no level: the result is the state before with only
`state` (and the menu page) changed, so currentLevel, score, lives,
diamondsCollected and every list of the level are unchanged. -/
theorem c11_advance_from_last_level (env : Env) (ui : MenuUi) (g : Game)
    (hs : g.state = GameState.LEVEL_COMPLETE) (hl : g.currentLevel = 4) :
    Game.handleInput env ui [Event.KeyPressed Key.Enter] g
      = { g with state := GameState.MENU, menuPage := MenuPage.MAIN_MENU } ∧
    (Game.handleInput env ui [Event.KeyPressed Key.Enter] g).state = GameState.MENU ∧
    (Game.handleInput env ui [Event.KeyPressed Key.Enter] g).currentLevel = g.currentLevel ∧
    (Game.handleInput env ui [Event.KeyPressed Key.Enter] g).score = g.score ∧
    (Game.handleInput env ui [Event.KeyPressed Key.Enter] g).lives = g.lives ∧
    (Game.handleInput env ui [Event.KeyPressed Key.Enter] g).diamondsCollected
      = g.diamondsCollected ∧
    (Game.handleInput env ui [Event.KeyPressed Key.Enter] g).platforms = g.platforms ∧
    (Game.handleInput env ui [Event.KeyPressed Key.Enter] g).diamonds = g.diamonds ∧
    (Game.handleInput env ui [Event.KeyPressed Key.Enter] g).player = g.player := by
  have h : Game.handleInput env ui [Event.KeyPressed Key.Enter] g
      = { g with state := GameState.MENU, menuPage := MenuPage.MAIN_MENU } := by
    rw [handleInput_single, handleEvent_key env ui _ g (by rw [hs]; decide),
      keyPressed_enter, if_pos hs, if_neg (by rw [hl]; decide)]
  rw [h]
  exact ⟨rfl, rfl, rfl, rfl, rfl, rfl, rfl, rfl, rfl⟩

theorem c11_advance_from_last_level_witness :
    (Game.handleInput Env.still sampleUi [Event.KeyPressed Key.Enter] completeGame4).state
      = GameState.MENU ∧
    (Game.handleInput Env.still sampleUi [Event.KeyPressed Key.Enter] completeGame4).score
      = completeGame4.score :=
  (fun h => ⟨h.2.1, h.2.2.2.1⟩)
    (c11_advance_from_last_level Env.still sampleUi completeGame4 rfl rfl)

/-- C12: in state LEVEL_COMPLETE with currentLevel = n < 4 the Enter key yields
state PLAYING with currentLevel = n + 1 and the level for n + 1 freshly built
(the result is `loadLevel (n + 1)` of the state before, with state PLAYING:
every diamond uncollected, the player reset to the spawn point),
player.hasHammer = false, and score, diamondsCollected and lives unchanged. -/
theorem c12_advance_to_next_level (env : Env) (ui : MenuUi) (g : Game)
    (hs : g.state = GameState.LEVEL_COMPLETE) (hl : g.currentLevel < 4) :
    Game.handleInput env ui [Event.KeyPressed Key.Enter] g
      = { Game.loadLevel env (g.currentLevel + 1) g with state := GameState.PLAYING } ∧
    (Game.handleInput env ui [Event.KeyPressed Key.Enter] g).state = GameState.PLAYING ∧
    (Game.handleInput env ui [Event.KeyPressed Key.Enter] g).currentLevel
      = g.currentLevel + 1 ∧
    (Game.handleInput env ui [Event.KeyPressed Key.Enter] g).player.hasHammer = false ∧
    (Game.handleInput env ui [Event.KeyPressed Key.Enter] g).player.position
      = ⟨50, GROUND_Y - 60⟩ ∧
    (Game.handleInput env ui [Event.KeyPressed Key.Enter] g).score = g.score ∧
    (Game.handleInput env ui [Event.KeyPressed Key.Enter] g).diamondsCollected
      = g.diamondsCollected ∧
    (Game.handleInput env ui [Event.KeyPressed Key.Enter] g).lives = g.lives ∧
    (∀ d ∈ (Game.handleInput env ui [Event.KeyPressed Key.Enter] g).diamonds,
      d.collected = false) ∧
    (Game.handleInput env ui [Event.KeyPressed Key.Enter] g).platforms
      = buildPlatforms { g with currentLevel := g.currentLevel + 1 } := by
  have h : Game.handleInput env ui [Event.KeyPressed Key.Enter] g
      = { Game.loadLevel env (g.currentLevel + 1) g with state := GameState.PLAYING } := by
    rw [handleInput_single, handleEvent_key env ui _ g (by rw [hs]; decide),
      keyPressed_enter, if_pos hs, if_pos hl]
  rw [h]
  exact ⟨rfl, rfl, rfl, rfl, rfl, rfl, rfl, rfl,
    fun d hd => (loadLevel_diamonds_fresh env (g.currentLevel + 1) g d hd).1, rfl⟩

theorem c12_advance_to_next_level_witness :
    completeGame2.player.hasHammer = true ∧
    (Game.handleInput Env.still sampleUi [Event.KeyPressed Key.Enter] completeGame2).state
      = GameState.PLAYING ∧
    (Game.handleInput Env.still sampleUi [Event.KeyPressed Key.Enter] completeGame2).currentLevel
      = completeGame2.currentLevel + 1 ∧
    (Game.handleInput Env.still sampleUi
      [Event.KeyPressed Key.Enter] completeGame2).player.hasHammer = false ∧
    (Game.handleInput Env.still sampleUi [Event.KeyPressed Key.Enter] completeGame2).score
      = completeGame2.score :=
  (fun h => ⟨rfl, h.2.1, h.2.2.1, h.2.2.2.1, h.2.2.2.2.2.1⟩)
    (c12_advance_to_next_level Env.still sampleUi completeGame2 rfl (by decide))

theorem startGame_fields (env : Env) (g : Game) :
    (startGame env g).state = GameState.PLAYING ∧ (startGame env g).lives = 3 ∧
    (startGame env g).score = 0 ∧ (startGame env g).diamondsCollected = 0 ∧
    (startGame env g).currentLevel = 1 ∧
    (startGame env g).player.position = ⟨50, GROUND_Y - 60⟩ ∧
    (startGame env g).player.velocity = ⟨0, 0⟩ ∧
    (startGame env g).player.hasHammer = false ∧
    (startGame env g).platforms = buildPlatforms { g with currentLevel := 1 } ∧
    (startGame env g).enemies = buildEnemies { g with currentLevel := 1 } ∧
    (startGame env g).icicles = [] ∧
    (startGame env g).hammer = buildHammer { g with currentLevel := 1 } :=
  ⟨rfl, rfl, rfl, rfl, rfl, rfl, rfl, rfl, rfl, rfl, rfl, rfl⟩

/-- C13: from state MENU, whatever the session counters were, the start command
yields state PLAYING with lives = 3, score = 0, diamondsCollected = 0,
currentLevel = 1, level 1 freshly built (every diamond uncollected) and the
player at the spawn point.  The start command is the Enter key (on any menu
page) or a mouse press inside the start button's bounds on the main menu page,
the only page that shows the button. -/
theorem c13_start_from_menu (env : Env) (ui : MenuUi) (g : Game) (mouseX mouseY : Int)
    (hs : g.state = GameState.MENU) :
    Game.handleInput env ui [Event.KeyPressed Key.Enter] g = startGame env g ∧
    (g.menuPage = MenuPage.MAIN_MENU →
      ui.startButton.getGlobalBounds.contains mouseX mouseY = true →
      Game.handleInput env ui [Event.MouseButtonPressed mouseX mouseY] g = startGame env g) ∧
    (startGame env g).state = GameState.PLAYING ∧ (startGame env g).lives = 3 ∧
    (startGame env g).score = 0 ∧ (startGame env g).diamondsCollected = 0 ∧
    (startGame env g).currentLevel = 1 ∧
    (startGame env g).player.position = ⟨50, GROUND_Y - 60⟩ ∧
    (startGame env g).platforms = buildPlatforms { g with currentLevel := 1 } ∧
    (startGame env g).enemies = buildEnemies { g with currentLevel := 1 } ∧
    (∀ d ∈ (startGame env g).diamonds, d.collected = false) := by
  refine ⟨?_, ?_, rfl, rfl, rfl, rfl, rfl, rfl, rfl, rfl, ?_⟩
  · rw [handleInput_single]
    unfold handleEvent
    rw [if_pos hs]
  · intro hp hc
    rw [handleInput_single]
    unfold handleEvent
    rw [if_pos hs]
    simp only [menuClick]
    rw [if_pos hp, if_pos hc]
  · intro d hd
    exact (loadLevel_diamonds_fresh env 1 _ d hd).1

theorem c13_start_from_menu_witness :
    menuGame.lives = 0 ∧ menuGame.score = 425 ∧
    (Game.handleInput Env.still sampleUi [Event.KeyPressed Key.Enter] menuGame).state
      = GameState.PLAYING ∧
    (Game.handleInput Env.still sampleUi [Event.KeyPressed Key.Enter] menuGame).lives = 3 ∧
    (Game.handleInput Env.still sampleUi [Event.KeyPressed Key.Enter] menuGame).score = 0 ∧
    (Game.handleInput Env.still sampleUi [Event.MouseButtonPressed 300 420] menuGame).lives
      = 3 ∧
    (Game.handleInput Env.still sampleUi
      [Event.MouseButtonPressed 300 420] menuGame).currentLevel = 1 :=
  (fun h => ⟨rfl, rfl, by rw [h.1]; rfl, by rw [h.1]; rfl, by rw [h.1]; rfl,
      by rw [h.2.1 rfl (by norm_num [sampleUi, RectangleShape.getGlobalBounds,
            FloatRect.contains])]; rfl,
      by rw [h.2.1 rfl (by norm_num [sampleUi, RectangleShape.getGlobalBounds,
            FloatRect.contains])]; rfl⟩)
    (c13_start_from_menu Env.still sampleUi menuGame 300 420 rfl)

theorem handleEvent_r_not_playing (env : Env) (ui : MenuUi) (g : Game)
    (hs : g.state ≠ GameState.PLAYING) :
    handleEvent env ui (Event.KeyPressed Key.R) g = g := by
  unfold handleEvent
  by_cases hm : g.state = GameState.MENU
  · rw [if_pos hm]
  · rw [if_neg hm]
    simp only []
    rw [keyPressed_r, if_neg hs]

theorem handleEvent_r_playing (env : Env) (ui : MenuUi) (g : Game)
    (hs : g.state = GameState.PLAYING) :
    handleEvent env ui (Event.KeyPressed Key.R) g = Game.loadLevel env g.currentLevel g := by
  rw [handleEvent_key env ui _ g (by rw [hs]; decide), keyPressed_r, if_pos hs]

/-- C14: in state PLAYING the R key keeps the state PLAYING and leaves
currentLevel, lives, score and diamondsCollected unchanged, while the current
level is rebuilt (the result is `loadLevel currentLevel` of the state before:
every diamond uncollected, every enemy and icicle in its constructed state) and
the player is at the spawn point with zero velocity; in any other state the R
key changes nothing. -/
theorem c14_restart (env : Env) (ui : MenuUi) (g : Game) :
    (g.state = GameState.PLAYING →
      Game.handleInput env ui [Event.KeyPressed Key.R] g
        = Game.loadLevel env g.currentLevel g ∧
      (Game.handleInput env ui [Event.KeyPressed Key.R] g).state = GameState.PLAYING ∧
      (Game.handleInput env ui [Event.KeyPressed Key.R] g).currentLevel = g.currentLevel ∧
      (Game.handleInput env ui [Event.KeyPressed Key.R] g).lives = g.lives ∧
      (Game.handleInput env ui [Event.KeyPressed Key.R] g).score = g.score ∧
      (Game.handleInput env ui [Event.KeyPressed Key.R] g).diamondsCollected
        = g.diamondsCollected ∧
      (Game.handleInput env ui [Event.KeyPressed Key.R] g).platforms = buildPlatforms g ∧
      (∀ d ∈ (Game.handleInput env ui [Event.KeyPressed Key.R] g).diamonds,
        d.collected = false ∧ d.animOffset = 0) ∧
      (∀ e ∈ (Game.handleInput env ui [Event.KeyPressed Key.R] g).enemies,
        e.direction = 1 ∧ e.currentFrame = 0 ∧ e.frameTimer = 0 ∧
        e.minX ≤ e.position.x ∧ e.position.x ≤ e.maxX) ∧
      (∀ i ∈ (Game.handleInput env ui [Event.KeyPressed Key.R] g).icicles,
        i.falling = false ∧ i.fallTimer = 60 ∧ i.resetTimer = 0 ∧ i.velocity = ⟨0, 0⟩ ∧
        i.position.y = i.startY) ∧
      (Game.handleInput env ui [Event.KeyPressed Key.R] g).player.position
        = ⟨50, GROUND_Y - 60⟩ ∧
      (Game.handleInput env ui [Event.KeyPressed Key.R] g).player.velocity = ⟨0, 0⟩) ∧
    (g.state ≠ GameState.PLAYING →
      Game.handleInput env ui [Event.KeyPressed Key.R] g = g) := by
  constructor
  · intro hs
    have h : Game.handleInput env ui [Event.KeyPressed Key.R] g
        = Game.loadLevel env g.currentLevel g := by
      rw [handleInput_single, handleEvent_r_playing env ui g hs]
    rw [h]
    have hg : ({ g with currentLevel := g.currentLevel } : Game) = g := rfl
    refine ⟨rfl, hs, rfl, rfl, rfl, rfl, ?_, loadLevel_diamonds_fresh env _ g,
      loadLevel_enemies_fresh env _ g, loadLevel_icicles_fresh env _ g, rfl, rfl⟩
    show buildPlatforms { g with currentLevel := g.currentLevel } = buildPlatforms g
    rw [hg]
  · intro hs
    rw [handleInput_single, handleEvent_r_not_playing env ui g hs]

theorem c14_restart_witness :
    (Game.handleInput Env.still sampleUi [Event.KeyPressed Key.R] armedGame).state
      = GameState.PLAYING ∧
    (Game.handleInput Env.still sampleUi [Event.KeyPressed Key.R] armedGame).player.position
      = ⟨50, GROUND_Y - 60⟩ ∧
    (Game.handleInput Env.still sampleUi [Event.KeyPressed Key.R] armedGame).lives
      = armedGame.lives ∧
    Game.handleInput Env.still sampleUi [Event.KeyPressed Key.R] pausedGame = pausedGame :=
  ⟨((c14_restart Env.still sampleUi armedGame).1 rfl).2.1,
   ((c14_restart Env.still sampleUi armedGame).1 rfl).2.2.2.2.2.2.2.2.2.2.1,
   ((c14_restart Env.still sampleUi armedGame).1 rfl).2.2.2.1,
   (c14_restart Env.still sampleUi pausedGame).2 (by decide)⟩

theorem SameSetup.trans {a b c : Game} (h1 : SameSetup a b) (h2 : SameSetup b c) :
    SameSetup a c := by
  obtain ⟨a1, a2, a3, a4, a5, ⟨a6, a7⟩, ⟨a8, a9, a10, a11⟩, ⟨a12, a13, a14, a15⟩, a16, a17⟩ := h1
  obtain ⟨b1, b2, b3, b4, b5, ⟨b6, b7⟩, ⟨b8, b9, b10, b11⟩, ⟨b12, b13, b14, b15⟩, b16, b17⟩ := h2
  exact ⟨a1.trans b1, a2.trans b2, a3.trans b3, a4.trans b4, a5.trans b5,
    ⟨a6.trans b6, a7.trans b7⟩,
    ⟨a8.trans b8, a9.trans b9, a10.trans b10, a11.trans b11⟩,
    ⟨a12.trans b12, a13.trans b13, a14.trans b14, a15.trans b15⟩,
    a16.trans b16, a17.trans b17⟩

/-- The hazard part of a tick either leaves `lives` as it was or ends in the
life-loss rule, applied to a game with the setup of the one it started from. -/
theorem hazardsAndExit_lost (env : Env) (g : Game) :
    (hazardsAndExit env g).lives = g.lives ∨
    ∃ x, SameSetup x g ∧ hazardsAndExit env g = loseLife env x := by
  unfold hazardsAndExit
  simp only []
  split_ifs
  · refine Or.inr ⟨_, ?_, rfl⟩
    exact ⟨rfl, rfl, rfl, rfl, rfl, ⟨rfl, rfl⟩, ⟨rfl, rfl, rfl, rfl⟩,
      ⟨rfl, rfl, rfl, rfl⟩, rfl, rfl⟩
  · refine Or.inr ⟨_, ?_, rfl⟩
    exact ⟨rfl, rfl, rfl, rfl, rfl, ⟨rfl, rfl⟩, ⟨rfl, rfl, rfl, rfl⟩,
      ⟨rfl, rfl, rfl, rfl⟩, rfl, rfl⟩
  · refine Or.inr ⟨_, ?_, rfl⟩
    exact ⟨rfl, rfl, rfl, rfl, rfl, ⟨rfl, rfl⟩, ⟨rfl, rfl, rfl, rfl⟩,
      ⟨rfl, rfl, rfl, rfl⟩, rfl, rfl⟩
  · refine Or.inr ⟨_, ?_, rfl⟩
    exact ⟨rfl, rfl, rfl, rfl, rfl, ⟨rfl, rfl⟩, ⟨rfl, rfl, rfl, rfl⟩,
      ⟨rfl, rfl, rfl, rfl⟩, rfl, rfl⟩
  · exact Or.inl (exitStep_frame _).1

/-- A Playing tick that costs a life and leaves at least one ends in the rebuilt
current level of the state before the tick, whatever the cause of the loss. -/
theorem update_life_lost_rebuilds (env : Env) (inp : Input) (g : Game)
    (hs : g.state = GameState.PLAYING)
    (hlt : (Game.update env inp g).lives < g.lives)
    (hpos : 0 < (Game.update env inp g).lives) :
    ∃ s d, Game.update env inp g
      = { Game.loadLevel env g.currentLevel g with
          lives := g.lives - 1, score := s, diamondsCollected := d } := by
  rw [update_playing env inp g hs] at hlt hpos ⊢
  by_cases hf : (physics inp g).player.position.y > WINDOW_HEIGHT + 200
  · rw [if_pos hf] at hlt hpos ⊢
    rw [(loseLife_counters env _).1] at hpos
    have hl : (physics inp g).lives = g.lives := rfl
    exact ⟨_, _, loseLife_rebuild_setup env (physics inp g) g (physics_setup inp g)
      (by omega)⟩
  · rw [if_neg hf] at hlt hpos ⊢
    have hset : SameSetup (hammerStep (collectablesStep env (physics inp g))) g :=
      hammerStep_setup _ g (physics_setup inp g)
    rcases hazardsAndExit_lost env (hammerStep (collectablesStep env (physics inp g)))
      with h | ⟨x, hx, h⟩
    · rw [h, hset.2.2.2.2.2.2.2.2.2] at hlt
      omega
    · have hxg : SameSetup x g := hx.trans hset
      rw [h, (loseLife_counters env _).1, hxg.2.2.2.2.2.2.2.2.2] at hpos
      rw [h]
      exact ⟨_, _, loseLife_rebuild_setup env x g hxg (by omega)⟩

/-- The tick of the door state with an enemy on the player costs one life. -/
theorem update_life_lost_witness_lives :
    (Game.update Env.still noInput doorEnemyGame).lives = 2 := by
  have hnf : ¬ (physics noInput doorEnemyGame).player.position.y > WINDOW_HEIGHT + 200 := by
    norm_num [physics, applyInput, horizontalPass, verticalPass, verticalLoop,
      clampToWorld, doorEnemyGame, doorGame, sampleGame, noInput, Player.new, GRAVITY,
      WORLD_WIDTH, WINDOW_HEIGHT]
  have hhit : (physics noInput doorEnemyGame).player.getBounds.intersects
      (sampleEnemy.update Env.still doorEnemyGame.batTextures).getBounds = true := by
    norm_num [physics, applyInput, horizontalPass, verticalPass, verticalLoop,
      clampToWorld, doorEnemyGame, doorGame, sampleGame, noInput, Player.new, GRAVITY,
      WORLD_WIDTH, Player.getBounds, sampleEnemy, Enemy.new, Enemy.update, Enemy.patrol,
      Enemy.getBounds, Env.still, Sprite.getGlobalBounds, Sprite.getLocalBounds,
      Sprite.setTexture, Sprite.default, FloatRect.intersects]
  obtain ⟨es, hu⟩ := update_enemy_contact Env.still noInput doorEnemyGame rfl hnf
    ⟨sampleEnemy, List.mem_singleton.mpr rfl, hhit⟩
  have hset : SameSetup
      { hammerStep (collectablesStep Env.still (physics noInput doorEnemyGame)) with
        enemies := es } doorEnemyGame :=
    hammerStep_setup _ doorEnemyGame (physics_setup noInput doorEnemyGame)
  have hre := loseLife_rebuild_setup Env.still _ doorEnemyGame hset
    (by norm_num [doorEnemyGame, doorGame, sampleGame])
  rw [hu, hre]
  rfl

/-- C15 (as stated, refuted): a Playing state whose player holds the hammer:
after the restart command hasHammer is false; and in the door state with an
enemy on the player, after the tick that costs a life (lives 3 -> 2, still
Playing) hasHammer is false as well. -/
theorem c15_rebuild_clears_hammer :
    armedGame.state = GameState.PLAYING ∧ armedGame.player.hasHammer = true ∧
    (Game.handleInput Env.still sampleUi
      [Event.KeyPressed Key.R] armedGame).player.hasHammer = false ∧
    doorEnemyGame.state = GameState.PLAYING ∧ doorEnemyGame.player.hasHammer = true ∧
    (Game.update Env.still noInput doorEnemyGame).lives = 2 ∧
    (Game.update Env.still noInput doorEnemyGame).player.hasHammer = false := by
  have hnf : ¬ (physics noInput doorEnemyGame).player.position.y > WINDOW_HEIGHT + 200 := by
    norm_num [physics, applyInput, horizontalPass, verticalPass, verticalLoop,
      clampToWorld, doorEnemyGame, doorGame, sampleGame, noInput, Player.new, GRAVITY,
      WORLD_WIDTH, WINDOW_HEIGHT]
  have hhit : (physics noInput doorEnemyGame).player.getBounds.intersects
      (sampleEnemy.update Env.still doorEnemyGame.batTextures).getBounds = true := by
    norm_num [physics, applyInput, horizontalPass, verticalPass, verticalLoop,
      clampToWorld, doorEnemyGame, doorGame, sampleGame, noInput, Player.new, GRAVITY,
      WORLD_WIDTH, Player.getBounds, sampleEnemy, Enemy.new, Enemy.update, Enemy.patrol,
      Enemy.getBounds, Env.still, Sprite.getGlobalBounds, Sprite.getLocalBounds,
      Sprite.setTexture, Sprite.default, FloatRect.intersects]
  obtain ⟨es, hu⟩ := update_enemy_contact Env.still noInput doorEnemyGame rfl hnf
    ⟨sampleEnemy, List.mem_singleton.mpr rfl, hhit⟩
  have hset : SameSetup
      { hammerStep (collectablesStep Env.still (physics noInput doorEnemyGame)) with
        enemies := es } doorEnemyGame :=
    hammerStep_setup _ doorEnemyGame (physics_setup noInput doorEnemyGame)
  have hre := loseLife_rebuild_setup Env.still _ doorEnemyGame hset
    (by norm_num [doorEnemyGame, doorGame, sampleGame])
  rw [hu, hre, handleInput_single, handleEvent_r_playing Env.still sampleUi armedGame rfl]
  exact ⟨rfl, rfl, rfl, rfl, rfl, rfl, rfl⟩

/-- C15 (amended): every rebuild of the level clears the player's hasHammer
capability, a same-level one included: in a Playing state, after a tick that
costs a life and leaves lives > 0, and after the restart command, hasHammer is
false, and the hammer of the level is the freshly built one (uncollected when
present), to be collected again. -/
theorem c15_hammer_cleared_by_rebuild (env : Env) (inp : Input) (ui : MenuUi) (g : Game)
    (hs : g.state = GameState.PLAYING) :
    ((Game.update env inp g).lives < g.lives → 0 < (Game.update env inp g).lives →
      (Game.update env inp g).player.hasHammer = false ∧
      (Game.update env inp g).hammer = buildHammer g) ∧
    (Game.handleInput env ui [Event.KeyPressed Key.R] g).player.hasHammer = false ∧
    (Game.handleInput env ui [Event.KeyPressed Key.R] g).hammer = buildHammer g ∧
    (∀ h, buildHammer g = some h → h.collected = false) := by
  refine ⟨fun hlt hpos => ?_, ?_, ?_, ?_⟩
  · obtain ⟨s, d, hu⟩ := update_life_lost_rebuilds env inp g hs hlt hpos
    rw [hu]
    exact ⟨rfl, rfl⟩
  · rw [handleInput_single, handleEvent_r_playing env ui g hs]
    rfl
  · rw [handleInput_single, handleEvent_r_playing env ui g hs]
    rfl
  · intro h hh
    unfold buildHammer at hh
    simp only [] at hh
    split_ifs at hh <;> cases hh <;> rfl

theorem c15_hammer_cleared_by_rebuild_witness :
    (Game.update Env.still noInput doorEnemyGame).player.hasHammer = false ∧
    (Game.handleInput Env.still sampleUi
      [Event.KeyPressed Key.R] armedGame).player.hasHammer = false :=
  ⟨((c15_hammer_cleared_by_rebuild Env.still noInput sampleUi doorEnemyGame rfl).1
      (by
        have h := update_life_lost_witness_lives
        rw [h]
        decide)
      (by
        have h := update_life_lost_witness_lives
        rw [h]
        decide)).1,
   (c15_hammer_cleared_by_rebuild Env.still noInput sampleUi armedGame rfl).2.1⟩

/-! ## The level builder -/

theorem addMainPlatform_geometry (g : Game) (x y : ℚ) :
    (addMainPlatform g x y).geometry = (⟨x, y⟩, ⟨32, 32⟩, false) := by
  unfold addMainPlatform
  split_ifs <;> rfl

theorem addMainPlatform_of_ne_two (g : Game) (x y : ℚ) (h : g.currentLevel ≠ 2) :
    addMainPlatform g x y = Platform.ofColor x y blockSize blockSize false := by
  unfold addMainPlatform
  rw [if_neg (fun hc => h hc.1)]

theorem addColumnBlock_geometry (g : Game) (gx gy : ℕ) :
    (addColumnBlock g gx gy).geometry = (⟨gx * 32, gy * 32⟩, ⟨32, 32⟩, false) := by
  unfold addColumnBlock
  split_ifs <;> rfl

/-- Two builds of the same level with the same tile images give the same tile
list. -/
theorem buildPlatforms_congr (a b : Game) (hl : a.currentLevel = b.currentLevel)
    (hi : a.iceBlockLoaded = b.iceBlockLoaded) (hw : a.seaweedLoaded = b.seaweedLoaded) :
    buildPlatforms a = buildPlatforms b := by
  obtain ⟨_, _, _, _, _, _, _, _, _, _, _, _, _, _, _, _, _, _, _, _, _, _, _, _, _, _⟩ := a
  obtain ⟨_, _, _, _, _, _, _, _, _, _, _, _, _, _, _, _, _, _, _, _, _, _, _, _, _, _⟩ := b
  simp only [] at hl hi hw
  subst hl hi hw
  rfl

/-- The grid sub-generators read the game only through the tile constructor
`addMainPlatform`. -/
theorem generators_congr (a b : Game) (hf : addMainPlatform a = addMainPlatform b) :
    groundTiles a = groundTiles b ∧ ceilingTiles a = ceilingTiles b ∧
    decorTiles a = decorTiles b ∧ wallTiles a = wallTiles b ∧
    addBlock a = addBlock b ∧ addPathTile a = addPathTile b := by
  have hb : addBlock a = addBlock b := by
    funext gx gy
    unfold addBlock
    rw [hf]
  have hp : addPathTile a = addPathTile b := by
    funext gx k
    unfold addPathTile
    rw [hf]
  refine ⟨?_, ?_, ?_, ?_, hb, hp⟩
  · unfold groundTiles
    rw [hf]
  · unfold ceilingTiles
    rw [hb]
  · unfold decorTiles
    rw [hb]
  · unfold wallTiles
    rw [hb]

/-- On a level other than 2 and 3 the tile list does not depend on any image. -/
theorem buildPlatforms_generic (a b : Game) (hl : a.currentLevel = b.currentLevel)
    (hn2 : a.currentLevel ≠ 2) (hn3 : a.currentLevel ≠ 3) :
    buildPlatforms a = buildPlatforms b := by
  have hb2 : b.currentLevel ≠ 2 := by rw [← hl]; exact hn2
  have hb3 : b.currentLevel ≠ 3 := by rw [← hl]; exact hn3
  have hf : addMainPlatform a = addMainPlatform b := by
    funext x y
    rw [addMainPlatform_of_ne_two a x y hn2, addMainPlatform_of_ne_two b x y hb2]
  obtain ⟨g1, g2, g3, g4, g5, g6⟩ := generators_congr a b hf
  have hia : iceFixTiles a = [] := by
    unfold iceFixTiles
    rw [if_neg (fun hc => hn2 hc.1)]
  have hib : iceFixTiles b = [] := by
    unfold iceFixTiles
    rw [if_neg (fun hc => hb2 hc.1)]
  have hlp : levelPlatforms a = levelPlatforms b := by
    unfold levelPlatforms
    rw [g5, hf, hl]
  have hpt : pathTiles a = pathTiles b := by
    unfold pathTiles
    rw [g6, hl]
  unfold buildPlatforms
  rw [if_neg hn3, if_neg hb3, if_neg hn2, if_neg hb2, g1, g2, g3, g4, hlp, hpt, hia, hib]

/-- On levels other than 1, 2 and 3 the tile list is the same, whatever the
identifiers. -/
theorem buildPlatforms_no_level (a b : Game)
    (ha1 : a.currentLevel ≠ 1) (ha2 : a.currentLevel ≠ 2) (ha3 : a.currentLevel ≠ 3)
    (hb1 : b.currentLevel ≠ 1) (hb2 : b.currentLevel ≠ 2) (hb3 : b.currentLevel ≠ 3) :
    buildPlatforms a = buildPlatforms b := by
  have hf : addMainPlatform a = addMainPlatform b := by
    funext x y
    rw [addMainPlatform_of_ne_two a x y ha2, addMainPlatform_of_ne_two b x y hb2]
  obtain ⟨g1, g2, g3, g4, -, -⟩ := generators_congr a b hf
  have hia : iceFixTiles a = [] := by
    unfold iceFixTiles
    rw [if_neg (fun hc => ha2 hc.1)]
  have hib : iceFixTiles b = [] := by
    unfold iceFixTiles
    rw [if_neg (fun hc => hb2 hc.1)]
  have hla : levelPlatforms a = [] := by
    unfold levelPlatforms
    rw [if_neg ha1, if_neg ha2]
  have hlb : levelPlatforms b = [] := by
    unfold levelPlatforms
    rw [if_neg hb1, if_neg hb2]
  have hpa : pathTiles a = [] := by
    unfold pathTiles
    rw [if_neg ha1, if_neg ha2]
  have hpb : pathTiles b = [] := by
    unfold pathTiles
    rw [if_neg hb1, if_neg hb2]
  unfold buildPlatforms
  rw [if_neg ha3, if_neg hb3, if_neg ha2, if_neg hb2, g1, g2, g3, g4, hla, hlb, hpa, hpb,
    hia, hib]

/-- On level 3 the positions, sizes and breakable flags of the tiles do not
depend on any image. -/
theorem level3Tiles_geometry (a b : Game) :
    (level3Tiles a).map Platform.geometry = (level3Tiles b).map Platform.geometry := by
  simp only [level3Tiles, List.map_append, List.map_flatMap, List.map_map, Function.comp_def,
    addColumnBlock_geometry]

theorem buildPlatforms_geometry (a b : Game) (hl : a.currentLevel = b.currentLevel)
    (hn2 : a.currentLevel ≠ 2) :
    (buildPlatforms a).map Platform.geometry = (buildPlatforms b).map Platform.geometry := by
  by_cases hn3 : a.currentLevel = 3
  · have hb3 : b.currentLevel = 3 := by rw [← hl]; exact hn3
    unfold buildPlatforms
    rw [if_pos hn3, if_pos hb3]
    exact level3Tiles_geometry a b
  · rw [buildPlatforms_generic a b hl hn2 hn3]

theorem loadLevel_lists (env : Env) (l : Int) (g : Game) :
    (Game.loadLevel env l g).platforms = buildPlatforms { g with currentLevel := l } ∧
    (Game.loadLevel env l g).enemies = buildEnemies { g with currentLevel := l } ∧
    (Game.loadLevel env l g).icicles
      = (if l = 2 then icicleCells.map (fun c => icicleUnderBlock c.1 c.2) else []) ∧
    (Game.loadLevel env l g).hammer = buildHammer { g with currentLevel := l } ∧
    (Game.loadLevel env l g).exitDoor.position = ⟨WORLD_WIDTH - 72, GROUND_Y - 70 - 32⟩ ∧
    (Game.loadLevel env l g).exitDoor.size = ⟨40, 70⟩ ∧
    (Game.loadLevel env l g).player.position = ⟨50, GROUND_Y - 60⟩ ∧
    (Game.loadLevel env l g).fallingRocks = [] ∧ (Game.loadLevel env l g).lavaPools = [] :=
  ⟨rfl, rfl, rfl, rfl, rfl, rfl, rfl, rfl, rfl⟩

theorem buildEnemies_congr (a b : Game) (hl : a.currentLevel = b.currentLevel)
    (hb : a.batTextures = b.batTextures) : buildEnemies a = buildEnemies b := by
  unfold buildEnemies
  rw [hl, hb]

theorem buildEnemies_patrols (a b : Game) (hl : a.currentLevel = b.currentLevel) :
    (buildEnemies a).map (fun e => (e.position, e.speed, e.direction, e.minX, e.maxX))
      = (buildEnemies b).map (fun e => (e.position, e.speed, e.direction, e.minX, e.maxX)) := by
  unfold buildEnemies
  rw [hl]
  split_ifs <;> rfl

theorem buildHammer_congr (a b : Game) (hl : a.currentLevel = b.currentLevel)
    (h1 : a.axeLoaded = b.axeLoaded) (h2 : a.axeTexture = b.axeTexture) :
    buildHammer a = buildHammer b := by
  unfold buildHammer
  rw [hl, h1, h2]

theorem buildHammer_isSome (g : Game) : (buildHammer g).isSome = g.axeLoaded := by
  unfold buildHammer
  simp only []
  cases g.axeLoaded <;> rfl

theorem buildDiamonds_places (t1 t2 : Texture) :
    (buildDiamonds t1).map (fun d => (d.basePos, d.collected))
      = (buildDiamonds t2).map (fun d => (d.basePos, d.collected)) := rfl

set_option maxRecDepth 100000 in
/-- C16 (as stated, refuted): on level 2 the build has 405 tiles when the ice
image is loaded and 399 when it is not (the "ice fix" adds six tiles), and on
level 1 the build has a hammer when the axe image is loaded and none when it is
not: the level does not depend on the identifier alone. -/
theorem c16_build_depends_on_assets :
    (Game.loadLevel Env.still 2 sampleGame).platforms.length = 405 ∧
    (Game.loadLevel Env.still 2 noIceGame).platforms.length = 399 ∧
    (Game.loadLevel Env.still 1 sampleGame).hammer.isSome = true ∧
    (Game.loadLevel Env.still 1 noAxeGame).hammer.isSome = false := by
  refine ⟨?_, ?_, rfl, rfl⟩
  · decide
  · decide

/-- C16 (amended): the level built by `loadLevel id` is determined by the
identifier together with the loaded images, and by nothing else of the prior
state.  For every identifier and every two prior states (and image files): the
tile lists are identical when the two states agree on iceBlockLoaded and
seaweedLoaded, and for an identifier other than 2 the tile positions, sizes and
breakable flags are identical whatever the images; the enemy lists are identical
when the bat images agree, and their positions, speeds and patrol ranges always;
the icicle lists, the diamond positions, the exit door rectangle and the spawn
point are always identical; the hammer is present exactly when axeLoaded is
true, and identical when the two states agree on the axe image. -/
theorem c16_build_determined_by_id_and_assets (env1 env2 : Env) (l : Int) (a b : Game) :
    (a.iceBlockLoaded = b.iceBlockLoaded → a.seaweedLoaded = b.seaweedLoaded →
      (Game.loadLevel env1 l a).platforms = (Game.loadLevel env2 l b).platforms) ∧
    (l ≠ 2 →
      (Game.loadLevel env1 l a).platforms.map Platform.geometry
        = (Game.loadLevel env2 l b).platforms.map Platform.geometry) ∧
    (a.batTextures = b.batTextures →
      (Game.loadLevel env1 l a).enemies = (Game.loadLevel env2 l b).enemies) ∧
    (Game.loadLevel env1 l a).enemies.map
        (fun e => (e.position, e.speed, e.direction, e.minX, e.maxX))
      = (Game.loadLevel env2 l b).enemies.map
        (fun e => (e.position, e.speed, e.direction, e.minX, e.maxX)) ∧
    (Game.loadLevel env1 l a).icicles = (Game.loadLevel env2 l b).icicles ∧
    (Game.loadLevel env1 l a).diamonds.map (fun d => (d.basePos, d.collected))
      = (Game.loadLevel env2 l b).diamonds.map (fun d => (d.basePos, d.collected)) ∧
    (a.axeLoaded = b.axeLoaded → a.axeTexture = b.axeTexture →
      (Game.loadLevel env1 l a).hammer = (Game.loadLevel env2 l b).hammer) ∧
    (Game.loadLevel env1 l a).hammer.isSome = a.axeLoaded ∧
    (Game.loadLevel env1 l a).exitDoor.position
      = (Game.loadLevel env2 l b).exitDoor.position ∧
    (Game.loadLevel env1 l a).exitDoor.size = (Game.loadLevel env2 l b).exitDoor.size ∧
    (Game.loadLevel env1 l a).player.position
      = (Game.loadLevel env2 l b).player.position := by
  refine ⟨fun hi hw => ?_, fun hl => ?_, fun hb => ?_, ?_, rfl, ?_, fun h1 h2 => ?_, ?_,
    rfl, rfl, rfl⟩
  · exact buildPlatforms_congr { a with currentLevel := l } { b with currentLevel := l }
      rfl hi hw
  · exact buildPlatforms_geometry { a with currentLevel := l } { b with currentLevel := l }
      rfl hl
  · exact buildEnemies_congr { a with currentLevel := l } { b with currentLevel := l } rfl hb
  · exact buildEnemies_patrols { a with currentLevel := l } { b with currentLevel := l } rfl
  · exact buildDiamonds_places _ _
  · exact buildHammer_congr { a with currentLevel := l } { b with currentLevel := l }
      rfl h1 h2
  · exact buildHammer_isSome { a with currentLevel := l }

theorem c16_build_determined_by_id_and_assets_witness :
    (Game.loadLevel Env.still 2 sampleGame).platforms
      = (Game.loadLevel Env.still 2 contactGame).platforms ∧
    (Game.loadLevel Env.still 1 sampleGame).platforms.map Platform.geometry
      = (Game.loadLevel Env.still 1 noIceGame).platforms.map Platform.geometry ∧
    (Game.loadLevel Env.still 1 sampleGame).hammer
      = (Game.loadLevel Env.still 1 contactGame).hammer :=
  ⟨(c16_build_determined_by_id_and_assets Env.still Env.still 2 sampleGame contactGame).1
      rfl rfl,
   (c16_build_determined_by_id_and_assets Env.still Env.still 1 sampleGame noIceGame).2.1
      (by decide),
   (c16_build_determined_by_id_and_assets Env.still Env.still 1
      sampleGame contactGame).2.2.2.2.2.2.1 rfl rfl⟩

/-! ### Identifiers outside 1 .. 4 -/

set_option maxRecDepth 100000 in
/-- C17 (as stated, refuted): `loadLevel 7` on the sample state reports nothing
and builds a level: currentLevel is 7 and the level has 312 tiles, ten diamonds
and a hammer. -/
theorem c17_invalid_id_builds_a_level :
    (Game.loadLevel Env.still 7 sampleGame).currentLevel = 7 ∧
    (Game.loadLevel Env.still 7 sampleGame).platforms.length = 312 ∧
    (Game.loadLevel Env.still 7 sampleGame).diamonds.length = 10 ∧
    (Game.loadLevel Env.still 7 sampleGame).hammer.isSome = true := by
  refine ⟨rfl, ?_, rfl, rfl⟩
  decide

/-- C17 (amended): `loadLevel` does not validate its argument.  Called with an
identifier outside {1,2,3,4} it stores the identifier in currentLevel and
silently builds the generic layout: the same tiles, diamonds, hammer, exit door
and spawn point as for level 4, with no enemies and no icicles; the flow state
and the session counters are untouched. -/
theorem c17_invalid_id_builds_generic_layout (env : Env) (l : Int) (g : Game)
    (h1 : l ≠ 1) (h2 : l ≠ 2) (h3 : l ≠ 3) (_h4 : l ≠ 4) :
    (Game.loadLevel env l g).currentLevel = l ∧
    (Game.loadLevel env l g).platforms = (Game.loadLevel env 4 g).platforms ∧
    (Game.loadLevel env l g).platforms ≠ [] ∧
    (Game.loadLevel env l g).diamonds = (Game.loadLevel env 4 g).diamonds ∧
    (Game.loadLevel env l g).hammer = (Game.loadLevel env 4 g).hammer ∧
    (Game.loadLevel env l g).exitDoor = (Game.loadLevel env 4 g).exitDoor ∧
    (Game.loadLevel env l g).player = (Game.loadLevel env 4 g).player ∧
    (Game.loadLevel env l g).enemies = [] ∧ (Game.loadLevel env l g).icicles = [] ∧
    (Game.loadLevel env l g).state = g.state ∧ (Game.loadLevel env l g).lives = g.lives ∧
    (Game.loadLevel env l g).score = g.score := by
  have hp : (Game.loadLevel env l g).platforms = (Game.loadLevel env 4 g).platforms :=
    buildPlatforms_no_level { g with currentLevel := l } { g with currentLevel := 4 }
      h1 h2 h3 (show (4 : Int) ≠ 1 by decide) (show (4 : Int) ≠ 2 by decide)
      (show (4 : Int) ≠ 3 by decide)
  have hne : (Game.loadLevel env l g).platforms ≠ [] := by
    rw [hp]
    show buildPlatforms { g with currentLevel := 4 } ≠ []
    unfold buildPlatforms groundTiles
    rw [if_neg (show ¬ (4 : Int) = 3 by decide)]
    simp [List.range_succ_eq_map]
  refine ⟨rfl, hp, hne, ?_, ?_, rfl, rfl, ?_, ?_, rfl, rfl, rfl⟩
  · simp only [Game.loadLevel, Game.buildCommonLevelLayout, h2, false_and, if_false]
    rfl
  · simp only [Game.loadLevel, Game.buildCommonLevelLayout, buildHammer, h2, if_false]
    rfl
  · simp only [Game.loadLevel, Game.buildCommonLevelLayout, buildEnemies, h1, h2, if_false]
  · simp only [Game.loadLevel, Game.buildCommonLevelLayout, h2, if_false]

theorem c17_invalid_id_builds_generic_layout_witness :
    (Game.loadLevel Env.still 7 sampleGame).currentLevel = 7 ∧
    (Game.loadLevel Env.still 7 sampleGame).platforms
      = (Game.loadLevel Env.still 4 sampleGame).platforms ∧
    (Game.loadLevel Env.still 7 sampleGame).enemies = [] :=
  (fun h => ⟨h.1, h.2.1, h.2.2.2.2.2.2.2.1⟩)
    (c17_invalid_id_builds_generic_layout Env.still 7 sampleGame
      (by decide) (by decide) (by decide) (by decide))

/-! ### Tile sizes and the grid -/

theorem sized_nil : ∀ t ∈ ([] : List Platform), t.Sized :=
  fun t ht => absurd ht (List.not_mem_nil t)

theorem sized_cons {t : Platform} {l : List Platform} (h1 : t.Sized)
    (h2 : ∀ u ∈ l, u.Sized) : ∀ u ∈ t :: l, u.Sized := by
  intro u hu
  rcases List.mem_cons.mp hu with rfl | h
  · exact h1
  · exact h2 u h

theorem sized_append {l1 l2 : List Platform} (h1 : ∀ t ∈ l1, t.Sized)
    (h2 : ∀ t ∈ l2, t.Sized) : ∀ t ∈ l1 ++ l2, t.Sized := by
  intro t ht
  rcases List.mem_append.mp ht with h | h
  · exact h1 t h
  · exact h2 t h

theorem sized_map {α : Type} (f : α → Platform) (l : List α) (h : ∀ a, (f a).Sized) :
    ∀ t ∈ l.map f, t.Sized := by
  intro t ht
  obtain ⟨a, -, rfl⟩ := List.mem_map.mp ht
  exact h a

theorem sized_flatMap {α : Type} (f : α → List Platform) (l : List α)
    (h : ∀ a, ∀ t ∈ f a, t.Sized) : ∀ t ∈ l.flatMap f, t.Sized := by
  intro t ht
  obtain ⟨a, -, ha⟩ := List.mem_flatMap.mp ht
  exact h a t ha

theorem addMainPlatform_sized (g : Game) (x y : ℚ) : (addMainPlatform g x y).Sized := by
  unfold addMainPlatform
  split_ifs <;> rfl

theorem addBlock_sized (g : Game) (gx gy : ℕ) : (addBlock g gx gy).Sized :=
  addMainPlatform_sized g _ _

theorem addPathTile_sized (g : Game) (gx k : ℕ) : (addPathTile g gx k).Sized :=
  addMainPlatform_sized g _ _

theorem addColumnBlock_sized (g : Game) (gx gy : ℕ) : (addColumnBlock g gx gy).Sized := by
  unfold addColumnBlock
  split_ifs <;> rfl

theorem ofColor_sized (x y : ℚ) : (Platform.ofColor x y blockSize blockSize false).Sized :=
  rfl

theorem ofTexture_sized (x y : ℚ) (tex : TileTexture) :
    (Platform.ofTexture x y blockSize blockSize tex false).Sized := rfl

/-- Every tile of a build is 32 x 32. -/
theorem buildPlatforms_sized (g : Game) : ∀ t ∈ buildPlatforms g, t.Sized := by
  unfold buildPlatforms
  by_cases hl3 : g.currentLevel = 3
  · rw [if_pos hl3]
    unfold level3Tiles
    exact sized_append
      (sized_flatMap _ _ (fun gx => sized_map _ _ (fun i => addColumnBlock_sized g _ _)))
      (sized_flatMap _ _ (fun gx => sized_map _ _ (fun gy => addColumnBlock_sized g _ _)))
  · rw [if_neg hl3]
    have hground : ∀ t ∈ groundTiles g, t.Sized :=
      sized_map _ _ (fun gx => addMainPlatform_sized g _ _)
    have hceil : ∀ t ∈ ceilingTiles g, t.Sized :=
      sized_append (sized_map _ _ (fun gx => addBlock_sized g _ _))
        (sized_map _ _ (fun gx => addBlock_sized g _ _))
    have hrow : ∀ (l : List ℕ) (gy : ℕ), ∀ t ∈ l.map (fun gx => addBlock g gx gy), t.Sized :=
      fun l gy => sized_map _ _ (fun gx => addBlock_sized g _ _)
    have hprow : ∀ (l : List ℕ) (k : ℕ),
        ∀ t ∈ l.map (fun gx => addPathTile g gx k), t.Sized :=
      fun l k => sized_map _ _ (fun gx => addPathTile_sized g _ _)
    have hlevel : ∀ t ∈ levelPlatforms g, t.Sized := by
      unfold levelPlatforms
      split_ifs
      · refine sized_append (sized_append (sized_append (sized_append (sized_append
          (hrow _ _) (hrow _ _)) (hrow _ _)) (hrow _ _)) (hrow _ _)) ?_
        repeat (apply sized_cons (addMainPlatform_sized g _ _))
        all_goals (try exact sized_nil)
      · repeat (apply sized_cons (addMainPlatform_sized g _ _))
        all_goals (try exact sized_nil)
      · exact sized_nil
    have hdecor : ∀ t ∈ decorTiles g, t.Sized := by
      unfold decorTiles
      refine sized_append (sized_append (sized_append (sized_append (sized_append
        (sized_append (sized_append (sized_append (sized_append
        (hrow _ _) (hrow _ _)) (hrow _ _)) (hrow _ _)) ?_) (hrow _ _)) (hrow _ _))
        (hrow _ _)) (hrow _ _)) (hrow _ _)
      repeat (apply sized_cons (addBlock_sized g _ _))
      all_goals (try exact sized_nil)
    have hpath : ∀ t ∈ pathTiles g, t.Sized := by
      unfold pathTiles
      split_ifs
      · exact sized_map _ _ (fun k => ofColor_sized _ _)
      · exact sized_append (sized_append (sized_append (sized_append (sized_append
          (hprow _ _) (hprow _ _)) (hprow _ _)) (hprow _ _)) (hprow _ _)) (hprow _ _)
      · exact sized_nil
    have hfix : ∀ t ∈ iceFixTiles g, t.Sized := by
      unfold iceFixTiles
      split_ifs
      · exact sized_flatMap _ _ (fun i =>
          sized_cons (ofTexture_sized _ _ _) (sized_cons (ofTexture_sized _ _ _) sized_nil))
      · exact sized_nil
    have hwall : ∀ t ∈ wallTiles g, t.Sized :=
      sized_map _ _ (fun gy => addBlock_sized g _ _)
    have hice : ∀ t ∈ (if g.currentLevel = 2 then
        icicleCells.map (fun c => addBlock g c.1 c.2) else []), t.Sized := by
      split_ifs
      · exact sized_map _ _ (fun c => addBlock_sized g _ _)
      · exact sized_nil
    exact sized_append (sized_append (sized_append (sized_append (sized_append
      (sized_append (sized_append hground hceil) hlevel) hdecor) hpath) hfix) hwall) hice

/-- The code's floor and ceiling heights are those of the specification. -/
theorem floorHeight_eq_spec (gx : ℕ) : floorHeight gx = specFloorHeight gx := by
  unfold floorHeight specFloorHeight
  have h : gx % 7 < 7 := Nat.mod_lt _ (by norm_num)
  generalize gx % 7 = r at h
  interval_cases r <;> rfl

theorem ceilingHeight_eq_spec (gx : ℕ) : ceilingHeight gx = specCeilingHeight gx := rfl

theorem floorHeight_bounds (gx : ℕ) : 1 ≤ floorHeight gx ∧ floorHeight gx ≤ 4 := by
  unfold floorHeight
  have h : gx % 7 < 7 := Nat.mod_lt _ (by norm_num)
  generalize gx % 7 = r at h
  interval_cases r <;> exact ⟨by norm_num, by norm_num⟩

/-- The tiles of level 3: a tile belongs to the list exactly when it is the
column block of a cell (gx, gy) with gx in 0 .. 74 that lies in the floor of its
column (the top `floorHeight gx` rows ending at row 17) or in its ceiling (the
first `ceilingHeight gx` rows). -/
theorem mem_level3Tiles (g : Game) (t : Platform) :
    t ∈ level3Tiles g ↔
      ∃ gx gy : ℕ, gx ≤ 74 ∧
        ((18 - floorHeight gx ≤ gy ∧ gy ≤ 17) ∨ gy < ceilingHeight gx) ∧
        t = addColumnBlock g gx gy := by
  unfold level3Tiles
  simp only [List.mem_append, List.mem_flatMap, List.mem_map, List.mem_range]
  constructor
  · rintro (⟨gx, hgx, i, hi, rfl⟩ | ⟨gx, hgx, gy, hgy, rfl⟩)
    · have hb := floorHeight_bounds gx
      exact ⟨gx, 17 - i, by omega, Or.inl ⟨by omega, by omega⟩, rfl⟩
    · exact ⟨gx, gy, by omega, Or.inr hgy, rfl⟩
  · rintro ⟨gx, gy, hgx, (⟨h1, h2⟩ | h), rfl⟩
    · have hb := floorHeight_bounds gx
      refine Or.inl ⟨gx, by omega, 17 - gy, by omega, ?_⟩
      have e : 17 - (17 - gy) = gy := by omega
      rw [e]
    · exact Or.inr ⟨gx, by omega, gy, h, rfl⟩

theorem addColumnBlock_onGrid (g : Game) (gx gy : ℕ) :
    OnGrid (addColumnBlock g gx gy).shape.position.x ∧
    OnGrid (addColumnBlock g gx gy).shape.position.y := by
  have h := addColumnBlock_geometry g gx gy
  have hp : (addColumnBlock g gx gy).shape.position = ⟨gx * 32, gy * 32⟩ :=
    congrArg (fun p => p.1) h
  rw [hp]
  exact ⟨⟨gx, by push_cast; ring⟩, ⟨gy, by push_cast; ring⟩⟩

/-- C18 (as stated, refuted): the first tile of the ground strip of level 1 is
at (0, 568): its y coordinate GROUND_Y = 568 = 17 * 32 + 24 is not an integer
multiple of 32. -/
theorem c18_ground_strip_off_grid :
    Platform.ofColor 0 568 32 32 false ∈ (Game.loadLevel Env.still 1 sampleGame).platforms ∧
    (Platform.ofColor 0 568 32 32 false).shape.position.y = 568 ∧
    ¬ OnGrid 568 := by
  refine ⟨?_, rfl, ?_⟩
  · show _ ∈ buildPlatforms { sampleGame with currentLevel := 1 }
    unfold buildPlatforms
    rw [if_neg (show ¬ (1 : Int) = 3 by decide)]
    refine List.mem_append_left _ (List.mem_append_left _ (List.mem_append_left _
      (List.mem_append_left _ (List.mem_append_left _ (List.mem_append_left _
      (List.mem_append_left _ ?_))))))
    unfold groundTiles
    refine List.mem_map.mpr ⟨0, List.mem_range.mpr (by norm_num), ?_⟩
    norm_num [addMainPlatform, Platform.ofColor, blockSize, GROUND_Y]
  · rintro ⟨k, hk⟩
    have h : (568 : ℤ) = 32 * k := by exact_mod_cast hk
    omega

/-- C18 (amended): for every level identifier, every tile produced by
`loadLevel` has size 32 x 32; on level 3 every tile has both its x and its y
coordinate equal to an integer multiple of 32 (on the other levels the ground
strip lies at y = GROUND_Y = 568, off the grid). -/
theorem c18_tiles_sized_and_level3_on_grid (env : Env) (l : Int) (g : Game) :
    (∀ t ∈ (Game.loadLevel env l g).platforms, t.shape.size = ⟨32, 32⟩) ∧
    (l = 3 → ∀ t ∈ (Game.loadLevel env l g).platforms,
      OnGrid t.shape.position.x ∧ OnGrid t.shape.position.y) := by
  constructor
  · exact buildPlatforms_sized { g with currentLevel := l }
  · intro hl t ht
    have ht2 : t ∈ buildPlatforms { g with currentLevel := l } := ht
    unfold buildPlatforms at ht2
    rw [if_pos hl] at ht2
    obtain ⟨gx, gy, -, -, rfl⟩ := (mem_level3Tiles _ t).mp ht2
    exact addColumnBlock_onGrid _ gx gy

/-! ### The hammer -/

/-- C19 (as stated, refuted): with the axe image not loaded, the level built by
`loadLevel 1` has no hammer. -/
theorem c19_no_hammer_without_axe :
    noAxeGame.axeLoaded = false ∧
    (Game.loadLevel Env.still 1 noAxeGame).hammer = none ∧
    (Game.loadLevel Env.still 2 noAxeGame).hammer = none :=
  ⟨rfl, rfl, rfl⟩

/-- C19 (amended): for every level identifier, the level built by `loadLevel`
contains exactly one hammer when the axe image is loaded, uncollected, at
(1600, GROUND_Y - 210) for level 2 and at (1100, GROUND_Y - 150) for every other
level; when the axe image is not loaded it contains no hammer. -/
theorem c19_hammer_when_axe_loaded (env : Env) (l : Int) (g : Game) :
    (g.axeLoaded = true →
      ∃ h, (Game.loadLevel env l g).hammer = some h ∧ h.collected = false ∧
        h.position = (if l = 2 then ⟨1600, GROUND_Y - 210⟩ else ⟨1100, GROUND_Y - 150⟩)) ∧
    (g.axeLoaded = false → (Game.loadLevel env l g).hammer = none) := by
  constructor
  · intro ha
    refine ⟨Hammer.new (if l = 2 then 1600 else 1100)
      (if l = 2 then h3 - 30 else h2 - 30) g.axeTexture, ?_, rfl, ?_⟩
    · show buildHammer { g with currentLevel := l } = _
      unfold buildHammer
      simp only [ha, if_true]
    · simp only [Hammer.new]
      split_ifs <;> norm_num [h2, h3, GROUND_Y]
  · intro ha
    show buildHammer { g with currentLevel := l } = none
    unfold buildHammer
    simp [ha]

theorem c19_hammer_when_axe_loaded_witness :
    (∃ h, (Game.loadLevel Env.still 2 sampleGame).hammer = some h ∧ h.collected = false ∧
        h.position = (if (2 : Int) = 2 then ⟨1600, GROUND_Y - 210⟩
          else ⟨1100, GROUND_Y - 150⟩)) ∧
    (Game.loadLevel Env.still 1 noAxeGame).hammer = none :=
  ⟨(c19_hammer_when_axe_loaded Env.still 2 sampleGame).1 rfl,
   (c19_hammer_when_axe_loaded Env.still 1 noAxeGame).2 rfl⟩

theorem c18_tiles_sized_and_level3_on_grid_witness :
    (addColumnBlock sampleGame 0 17).shape.size = ⟨32, 32⟩ ∧
    OnGrid (addColumnBlock sampleGame 0 17).shape.position.x ∧
    OnGrid (addColumnBlock sampleGame 0 17).shape.position.y :=
  (fun hmem => ⟨(c18_tiles_sized_and_level3_on_grid Env.still 3 sampleGame).1 _ hmem,
      (c18_tiles_sized_and_level3_on_grid Env.still 3 sampleGame).2 rfl _ hmem⟩)
    ((mem_level3Tiles { sampleGame with currentLevel := 3 } _).mpr
      ⟨0, 17, by norm_num, Or.inl ⟨by decide, le_rfl⟩, rfl⟩)

/-! ### Level 3 -/

theorem level3Tiles_length (g : Game) : (level3Tiles g).length = 386 := by
  unfold level3Tiles
  rw [List.length_append, List.length_flatMap, List.length_flatMap]
  have e1 : (List.range 75).map (fun gx =>
      ((List.range (floorHeight gx)).map (fun i => addColumnBlock g gx (17 - i))).length)
      = (List.range 75).map floorHeight :=
    List.map_congr_left (fun gx _ => by rw [List.length_map, List.length_range])
  have e2 : (List.range 75).map (fun gx =>
      ((List.range (ceilingHeight gx)).map (fun gy => addColumnBlock g gx gy)).length)
      = (List.range 75).map ceilingHeight :=
    List.map_congr_left (fun gx _ => by rw [List.length_map, List.length_range])
  show ((List.range 75).map (fun gx =>
      ((List.range (floorHeight gx)).map (fun i => addColumnBlock g gx (17 - i))).length)).sum
    + ((List.range 75).map (fun gx =>
      ((List.range (ceilingHeight gx)).map (fun gy => addColumnBlock g gx gy)).length)).sum
    = 386
  rw [e1, e2]
  decide

/-- C20: the tile list built for level 3 is exactly a floor and a ceiling given
by two per-column height series over the columns gx = 0 .. 74.  A tile is in the
list exactly when it is the column block of a cell (gx, gy) with gy among the
rows 17, 16, ..., 17 - f(gx) + 1 (floor) or among the rows 0 .. c(gx) - 1
(ceiling), f and c being the heights in the words of the specification; the
column block of a cell is the 32 x 32 tile at (32 gx, 32 gy); and the list has
386 tiles, the number of such cells, so it holds nothing else (no ground strip,
walkway, mid-level platform or wall of the generic recipe). -/
theorem c20_level3_floor_and_ceiling (env : Env) (g : Game) :
    (∀ t, t ∈ (Game.loadLevel env 3 g).platforms ↔
      ∃ gx gy : ℕ, gx ≤ 74 ∧
        ((18 - specFloorHeight gx ≤ gy ∧ gy ≤ 17) ∨ gy < specCeilingHeight gx) ∧
        t = addColumnBlock g gx gy) ∧
    (∀ gx gy : ℕ, (addColumnBlock g gx gy).shape.position = ⟨gx * 32, gy * 32⟩ ∧
      (addColumnBlock g gx gy).shape.size = ⟨32, 32⟩) ∧
    (Game.loadLevel env 3 g).platforms.length = 386 ∧
    ((List.range 75).map (fun gx => specFloorHeight gx + specCeilingHeight gx)).sum = 386 := by
  have hp : (Game.loadLevel env 3 g).platforms = level3Tiles { g with currentLevel := 3 } := by
    show buildPlatforms { g with currentLevel := 3 } = _
    unfold buildPlatforms
    rw [if_pos rfl]
  refine ⟨fun t => ?_, fun gx gy => ?_, ?_, by decide⟩
  · rw [hp, mem_level3Tiles]
    constructor
    · rintro ⟨gx, gy, h1, h2, h3⟩
      refine ⟨gx, gy, h1, ?_, h3⟩
      rw [← floorHeight_eq_spec, ← ceilingHeight_eq_spec]
      exact h2
    · rintro ⟨gx, gy, h1, h2, h3⟩
      refine ⟨gx, gy, h1, ?_, h3⟩
      rw [floorHeight_eq_spec, ceilingHeight_eq_spec]
      exact h2
  · have h := addColumnBlock_geometry g gx gy
    exact ⟨congrArg (fun p => p.1) h, congrArg (fun p => p.2.1) h⟩
  · rw [hp]
    exact level3Tiles_length _

/-! ## The patrol invariant over a whole run -/

/-- The second enemy of level 1 after 167 updates is at x = 1350.4. -/
theorem level1Bat_after_167 :
    (Enemy.updateN Env.still sampleGame.batTextures 167 level1Bat).position.x = 6752 / 5 := by
  have hfields : level1Bat.position.x = 1150 ∧ level1Bat.speed = 6 / 5 ∧
      level1Bat.minX = 1080 ∧ level1Bat.maxX = 1350 ∧ level1Bat.direction = 1 := by
    simp [level1Bat, Enemy.new]
  obtain ⟨f1, f2, f3, f4, f5⟩ := hfields
  have hrun := Enemy.updateN_inside Env.still sampleGame.batTextures level1Bat f5 166 (by
    intro k _ hk
    have hk2 : (k : ℚ) ≤ 166 := by exact_mod_cast hk
    have hk0 : (0 : ℚ) ≤ k := Nat.cast_nonneg k
    rw [f1, f2, f3, f4]
    constructor <;> linarith)
  obtain ⟨r1, r2, r3, r4, r5⟩ := hrun
  obtain ⟨u1, -, -, -, -⟩ :=
    Enemy.update_patrol Env.still sampleGame.batTextures
      (Enemy.updateN Env.still sampleGame.batTextures 166 level1Bat)
  show (Enemy.update Env.still sampleGame.batTextures
    (Enemy.updateN Env.still sampleGame.batTextures 166 level1Bat)).position.x = _
  rw [u1]
  simp only [Enemy.patrol, r1, r2, r3, f1, f2]
  norm_num

/-- C29: for an enemy with speed >= 0, minX <= maxX, direction -1 or +1 and
minX <= position.x <= maxX at the start, after any number `n` of
`Enemy::update` calls the position satisfies
minX - speed <= position.x <= maxX + speed, and when the position is beyond
maxX the direction is -1, when it is below minX the direction is +1. -/
theorem c29_enemy_patrol_invariant (env : Env) (textures : List Texture) (e : Enemy)
    (hs : 0 ≤ e.speed) (_hr : e.minX ≤ e.maxX)
    (hd : e.direction = 1 ∨ e.direction = -1)
    (hlo : e.minX ≤ e.position.x) (hhi : e.position.x ≤ e.maxX) (n : ℕ) :
    e.minX - e.speed ≤ (Enemy.updateN env textures n e).position.x ∧
    (Enemy.updateN env textures n e).position.x ≤ e.maxX + e.speed ∧
    (e.maxX < (Enemy.updateN env textures n e).position.x →
      (Enemy.updateN env textures n e).direction = -1) ∧
    ((Enemy.updateN env textures n e).position.x < e.minX →
      (Enemy.updateN env textures n e).direction = 1) := by
  obtain ⟨hinv, k2, k3, k4⟩ :=
    Enemy.patrolInv_updateN env textures e hs
      (Enemy.patrolInv_of_start e hs hlo hhi hd) n
  obtain ⟨a, b, -, c, d⟩ := hinv
  rw [k2, k3] at a
  rw [k2, k4] at b
  rw [k4] at c
  rw [k3] at d
  exact ⟨a, b, c, d⟩

theorem c29_enemy_patrol_invariant_witness :
    level1Bat.minX - level1Bat.speed
        ≤ (Enemy.updateN Env.still sampleGame.batTextures 167 level1Bat).position.x ∧
      (Enemy.updateN Env.still sampleGame.batTextures 167 level1Bat).position.x
        ≤ level1Bat.maxX + level1Bat.speed ∧
      (Enemy.updateN Env.still sampleGame.batTextures 167 level1Bat).direction = -1 :=
  (fun h => ⟨h.1, h.2.1, h.2.2.1 (by
      rw [level1Bat_after_167]
      norm_num [level1Bat, Enemy.new])⟩)
    (c29_enemy_patrol_invariant Env.still sampleGame.batTextures level1Bat
      (by norm_num [level1Bat, Enemy.new]) (by norm_num [level1Bat, Enemy.new])
      (by simp [level1Bat, Enemy.new]) (by norm_num [level1Bat, Enemy.new])
      (by norm_num [level1Bat, Enemy.new]) 167)

/-! ## Icicles and their host tiles -/

/-- The icicle of a cell sits 12 to the right of and 32 below the corner of the
cell's block. -/
theorem icicleUnderBlock_position (g : Game) (gx gy : ℕ) :
    (addBlock g gx gy).shape.position
      = ⟨(icicleUnderBlock gx gy).position.x - 12, (icicleUnderBlock gx gy).position.y - 32⟩ ∧
    (addBlock g gx gy).shape.size = ⟨32, 32⟩ := by
  have h := addMainPlatform_geometry g (gx * blockSize) (gy * blockSize)
  have hp : (addBlock g gx gy).shape.position = ⟨gx * blockSize, gy * blockSize⟩ :=
    congrArg (fun p => p.1) h
  have hz : (addBlock g gx gy).shape.size = ⟨32, 32⟩ := congrArg (fun p => p.2.1) h
  refine ⟨?_, hz⟩
  rw [hp]
  simp only [icicleUnderBlock, Icicle.new, blockSize]
  push_cast
  congr 1 <;> ring

/-- C21: `loadLevel(2)` creates exactly seven icicles, `loadLevel(id)` for id
1, 3 and 4 creates none, and every icicle of level 2 hangs beneath a host tile of
the level's tile list: for an icicle at (x, y) the list holds a 32 x 32 tile
whose rectangle is at (x - 12, y - 32), so that the icicle's top y is the bottom
edge of the tile's rectangle and the centre x + 4 of the icicle's 8-wide base is
the centre of the tile. -/
theorem c21_icicles_under_host_tiles (env : Env) (g : Game) :
    (Game.loadLevel env 2 g).icicles.length = 7 ∧
    (Game.loadLevel env 1 g).icicles = [] ∧
    (Game.loadLevel env 3 g).icicles = [] ∧
    (Game.loadLevel env 4 g).icicles = [] ∧
    ∀ i ∈ (Game.loadLevel env 2 g).icicles,
      ∃ t ∈ (Game.loadLevel env 2 g).platforms,
        t.shape.position = ⟨i.position.x - 12, i.position.y - 32⟩ ∧
        t.shape.size = ⟨32, 32⟩ ∧
        i.position.y = t.shape.position.y + t.shape.size.y ∧
        i.position.x + 4 = t.shape.position.x + t.shape.size.x / 2 := by
  refine ⟨rfl, rfl, rfl, rfl, ?_⟩
  intro i hi
  have hi2 : i ∈ icicleCells.map (fun c => icicleUnderBlock c.1 c.2) := hi
  obtain ⟨c, hc, rfl⟩ := List.mem_map.mp hi2
  refine ⟨addBlock { g with currentLevel := 2 } c.1 c.2, ?_, ?_⟩
  · show _ ∈ buildPlatforms { g with currentLevel := 2 }
    unfold buildPlatforms
    rw [if_neg (show ¬ ((2 : Int) = 3) by decide), if_pos rfl]
    exact List.mem_append_right _
      (List.mem_map.mpr ⟨c, hc, rfl⟩)
  · obtain ⟨hp, hz⟩ := icicleUnderBlock_position { g with currentLevel := 2 } c.1 c.2
    refine ⟨hp, hz, ?_, ?_⟩
    · rw [hp, hz]
      ring
    · rw [hp, hz]
      ring

/-! ## The world clamp -/

theorem clampToWorld_range (p : Player) :
    0 ≤ (clampToWorld p).position.x ∧ (clampToWorld p).position.x ≤ 2368 ∧
    (clampToWorld p).position.y = p.position.y := by
  unfold clampToWorld WORLD_WIDTH
  simp only []
  by_cases h1 : p.position.x < 0
  · rw [if_pos h1]
    simp only []
    rw [if_neg (by norm_num)]
    norm_num
  · rw [if_neg h1]
    by_cases h2 : p.position.x + 32 > 2400
    · rw [if_pos h2]
      norm_num
    · rw [if_neg h2]
      refine ⟨by linarith, by linarith, rfl⟩

/-- The life-loss rule leaves the player where it is or puts it at the spawn
point of a rebuild. -/
theorem loseLife_position (env : Env) (g : Game) :
    (loseLife env g).player.position = g.player.position ∨
    (loseLife env g).player.position = ⟨50, GROUND_Y - 60⟩ := by
  unfold loseLife
  simp only []
  split_ifs
  · left; rfl
  · right; rfl

theorem hazardsAndExit_position (env : Env) (g : Game) :
    (hazardsAndExit env g).player.position = g.player.position ∨
    (hazardsAndExit env g).player.position = ⟨50, GROUND_Y - 60⟩ := by
  unfold hazardsAndExit
  simp only []
  split_ifs
  · exact loseLife_position env _
  · exact loseLife_position env _
  · exact loseLife_position env _
  · exact loseLife_position env _
  · left
    rw [(exitStep_frame _).2.2.2]

/-- After a Playing tick the player is where the physics part left it, or at the
spawn point of a rebuild. -/
theorem update_position (env : Env) (inp : Input) (g : Game)
    (hs : g.state = GameState.PLAYING) :
    (Game.update env inp g).player.position = (physics inp g).player.position ∨
    (Game.update env inp g).player.position = ⟨50, GROUND_Y - 60⟩ := by
  rw [update_playing env inp g hs]
  split_ifs
  · exact loseLife_position env _
  · rcases hazardsAndExit_position env
      (hammerStep (collectablesStep env (physics inp g))) with h | h
    · left
      rw [h, (hammerStep_frame _).2.2.2.1]
      rfl
    · right
      exact h

/-- C23: after every tick of `Game::update` in state Playing, whether or not it
ends in a level rebuild, the player's position.x lies between 0 and
WORLD_WIDTH - 32, which is 2368. -/
theorem c23_player_x_in_world (env : Env) (inp : Input) (g : Game)
    (hs : g.state = GameState.PLAYING) :
    0 ≤ (Game.update env inp g).player.position.x ∧
    (Game.update env inp g).player.position.x ≤ WORLD_WIDTH - 32 ∧
    WORLD_WIDTH - 32 = 2368 := by
  have hw : WORLD_WIDTH - 32 = 2368 := by norm_num [WORLD_WIDTH]
  rw [hw]
  refine ⟨?_, ?_, rfl⟩
  · rcases update_position env inp g hs with h | h
    · rw [h]
      exact (clampToWorld_range _).1
    · rw [h]
      norm_num
  · rcases update_position env inp g hs with h | h
    · rw [h]
      exact (clampToWorld_range _).2.1
    · rw [h]
      norm_num

theorem c23_player_x_in_world_witness :
    0 ≤ (Game.update Env.still ⟨true, false, false⟩ sampleGame).player.position.x ∧
    (Game.update Env.still ⟨true, false, false⟩ sampleGame).player.position.x
      ≤ WORLD_WIDTH - 32 ∧
    WORLD_WIDTH - 32 = 2368 :=
  c23_player_x_in_world Env.still ⟨true, false, false⟩ sampleGame rfl

/-! ## The fall-out tick -/

/-- The state after the life-loss rule is never LEVEL_COMPLETE when the state
before it is Playing. -/
theorem loseLife_state (env : Env) (g : Game) (hs : g.state = GameState.PLAYING) :
    (loseLife env g).state = GameState.GAME_OVER ∨
    (loseLife env g).state = GameState.PLAYING := by
  unfold loseLife
  simp only []
  split_ifs
  · left; rfl
  · right; exact hs

/-- C24: in a Playing tick after whose physics position.y exceeds
WINDOW_HEIGHT + 200 = 800 the tick is the physics followed by the life-loss
rule alone.  The physics leaves diamonds, hammer, enemies, rocks, icicles and
lava as they were, so nothing is collected, advanced or tested; the state after
the tick is not LEVEL_COMPLETE; score and diamondsCollected are those of before
the tick and lives is one less.  On the last life the entity lists after the
tick are those of before the tick; otherwise the result is the rebuild of the
current level. -/
theorem c24_fall_out_short_circuits (env : Env) (inp : Input) (g : Game)
    (hs : g.state = GameState.PLAYING)
    (hy : (physics inp g).player.position.y > WINDOW_HEIGHT + 200) :
    Game.update env inp g = loseLife env (physics inp g) ∧
    ((physics inp g).diamonds = g.diamonds ∧ (physics inp g).hammer = g.hammer ∧
      (physics inp g).enemies = g.enemies ∧ (physics inp g).fallingRocks = g.fallingRocks ∧
      (physics inp g).icicles = g.icicles ∧ (physics inp g).lavaPools = g.lavaPools ∧
      (physics inp g).player.hasHammer = g.player.hasHammer) ∧
    (Game.update env inp g).state ≠ GameState.LEVEL_COMPLETE ∧
    (Game.update env inp g).score = g.score ∧
    (Game.update env inp g).diamondsCollected = g.diamondsCollected ∧
    (Game.update env inp g).lives = g.lives - 1 ∧
    (g.lives ≤ 1 →
      (Game.update env inp g).state = GameState.GAME_OVER ∧
      (Game.update env inp g).diamonds = g.diamonds ∧
      (Game.update env inp g).hammer = g.hammer ∧
      (Game.update env inp g).player.hasHammer = g.player.hasHammer ∧
      (Game.update env inp g).enemies = g.enemies ∧
      (Game.update env inp g).fallingRocks = g.fallingRocks ∧
      (Game.update env inp g).icicles = g.icicles ∧
      (Game.update env inp g).lavaPools = g.lavaPools) ∧
    (2 ≤ g.lives →
      Game.update env inp g
        = Game.loadLevel env g.currentLevel { physics inp g with lives := g.lives - 1 } ∧
      (Game.update env inp g).state = GameState.PLAYING ∧
      (Game.update env inp g).player.hasHammer = false ∧
      ∀ d ∈ (Game.update env inp g).diamonds, d.collected = false) := by
  have hu : Game.update env inp g = loseLife env (physics inp g) := by
    rw [update_playing env inp g hs, if_pos hy]
  obtain ⟨c1, c2, c3, -⟩ := loseLife_counters env (physics inp g)
  have hps : (physics inp g).state = GameState.PLAYING := hs
  refine ⟨hu, ⟨rfl, rfl, rfl, rfl, rfl, rfl, (physics_kit inp g).2.2⟩, ?_, ?_, ?_, ?_, ?_, ?_⟩
  · rw [hu]
    rcases loseLife_state env (physics inp g) hps with h | h <;> rw [h] <;> decide
  · rw [hu, c2]
    rfl
  · rw [hu, c3]
    rfl
  · rw [hu, c1]
    rfl
  · intro hl
    have hlast : (physics inp g).lives - 1 ≤ 0 := by
      show g.lives - 1 ≤ 0
      omega
    rw [hu, loseLife_last env _ hlast]
    exact ⟨rfl, rfl, rfl, (physics_kit inp g).2.2, rfl, rfl, rfl, rfl⟩
  · intro hl
    have hreb : loseLife env (physics inp g)
        = Game.loadLevel env g.currentLevel { physics inp g with lives := g.lives - 1 } :=
      loseLife_rebuild env (physics inp g) hl
    rw [hu, hreb]
    refine ⟨rfl, hs, rfl, ?_⟩
    intro d hd
    exact (loadLevel_diamonds_fresh env _ _ d hd).1

theorem c24_fall_out_short_circuits_witness :
    Game.update Env.still noInput fallingGame
      = loseLife Env.still (physics noInput fallingGame) ∧
    (Game.update Env.still noInput fallingGame).score = fallingGame.score ∧
    (Game.update Env.still noInput fallingGame).diamondsCollected
      = fallingGame.diamondsCollected ∧
    (Game.update Env.still noInput fallingGame).lives = fallingGame.lives - 1 :=
  (fun h => ⟨h.1, h.2.2.2.1, h.2.2.2.2.1, h.2.2.2.2.2.1⟩)
    (c24_fall_out_short_circuits Env.still noInput fallingGame rfl
      (by norm_num [physics, applyInput, horizontalPass, verticalPass, verticalLoop,
        clampToWorld, fallingGame, sampleGame, noInput, Player.new, GRAVITY, WORLD_WIDTH,
        WINDOW_HEIGHT]))

/-! ## Icicle reset and cooldown -/

/-- The tick on which a falling icicle passes y = 650: it is put back at its
start and the reset timer, set to 300, is decremented in the same call. -/
theorem Icicle.update_reset (b : FloatRect) (i : Icicle) (hf : i.falling = true)
    (hy : i.position.y + (i.velocity.y + 4 / 5) > 650) :
    Icicle.update b i
      = { i with falling := false, resetTimer := 299,
                 position := ⟨i.position.x, i.startY⟩,
                 velocity := ⟨i.velocity.x, 0⟩, fallTimer := 60,
                 shapePos := ⟨i.position.x, i.startY⟩ } := by
  unfold Icicle.update
  have harm : Icicle.arm b i = i := by
    unfold Icicle.arm
    simp [hf]
  rw [harm]
  unfold Icicle.fall
  rw [if_pos hf]
  simp only []
  rw [if_pos hy]
  unfold Icicle.cool
  simp only []
  rw [if_pos (by norm_num)]
  norm_num

/-- A tick of an icicle at rest with a running reset timer only decrements the
timer, whatever the player's bounds. -/
theorem Icicle.update_cooling (b : FloatRect) (s : Icicle) (hf : s.falling = false)
    (hr : 0 < s.resetTimer) :
    Icicle.update b s = { s with resetTimer := s.resetTimer - 1 } := by
  unfold Icicle.update
  have harm : Icicle.arm b s = s := by
    unfold Icicle.arm
    simp [hf, not_le.mpr hr]
  rw [harm]
  have hfall : Icicle.fall s = s := by
    unfold Icicle.fall
    simp [hf]
  rw [hfall]
  unfold Icicle.cool
  rw [if_pos hr]

theorem Icicle.run_cooling (bounds : ℕ → FloatRect) (s : Icicle) (hf : s.falling = false)
    (n : ℕ) (hr : s.resetTimer = n) (k : ℕ) (hk : k ≤ n) :
    Icicle.run bounds k s = { s with resetTimer := s.resetTimer - k } := by
  induction k with
  | zero => simp [Icicle.run]
  | succ k ih =>
    have hk2 : (k : ℚ) + 1 ≤ n := by exact_mod_cast hk
    simp only [Icicle.run, ih (by omega)]
    rw [Icicle.update_cooling (bounds k) { s with resetTimer := s.resetTimer - k } hf
      (by simp only [hr]; linarith)]
    simp only [Icicle.mk.injEq, true_and, and_true]
    push_cast
    ring

/-- With the player staying near, the sample icicle starts to fall on its 60th
tick and after `m` fall steps (m = 1 .. 36) is at y = 96 + 0.4 m (m + 1) with
vertical velocity 0.8 m. -/
theorem sampleIcicle_fall (m : ℕ) (hm1 : 1 ≤ m) (hm : m ≤ 36) :
    Icicle.run (fun _ => sampleNear) (59 + m) sampleIcicle
      = { sampleIcicle with falling := true, fallTimer := 0,
                            position := ⟨204, 96 + 2 / 5 * m * (m + 1)⟩,
                            shapePos := ⟨204, 96 + 2 / 5 * m * (m + 1)⟩,
                            velocity := ⟨0, 4 / 5 * m⟩ } := by
  induction m with
  | zero => omega
  | succ k ih =>
    by_cases hk : k = 0
    · subst hk
      show Icicle.update sampleNear (Icicle.run (fun _ => sampleNear) 59 sampleIcicle) = _
      rw [sampleIcicle_countdown 59 le_rfl]
      norm_num [Icicle.update, Icicle.arm, Icicle.fall, Icicle.cool, Icicle.proximity,
        sampleNear, playerBox, sampleIcicle, icicleUnderBlock, Icicle.new, blockSize, abs_lt]
    · have hk35 : (k : ℚ) ≤ 35 := by
        have : k ≤ 35 := by omega
        exact_mod_cast this
      have hk0 : (0 : ℚ) ≤ k := Nat.cast_nonneg k
      show Icicle.update sampleNear (Icicle.run (fun _ => sampleNear) (59 + k) sampleIcicle) = _
      rw [ih (by omega) (by omega)]
      have hy : ¬ ((96 : ℚ) + 2 / 5 * k * (k + 1) + (4 / 5 * k + 4 / 5) > 650) := by
        nlinarith
      unfold Icicle.update
      have harm : Icicle.arm sampleNear
          { sampleIcicle with falling := true, fallTimer := 0,
                              position := ⟨204, 96 + 2 / 5 * k * (k + 1)⟩,
                              shapePos := ⟨204, 96 + 2 / 5 * k * (k + 1)⟩,
                              velocity := ⟨0, 4 / 5 * k⟩ }
          = { sampleIcicle with falling := true, fallTimer := 0,
                                position := ⟨204, 96 + 2 / 5 * k * (k + 1)⟩,
                                shapePos := ⟨204, 96 + 2 / 5 * k * (k + 1)⟩,
                                velocity := ⟨0, 4 / 5 * k⟩ } := by
        unfold Icicle.arm
        simp
      rw [harm]
      unfold Icicle.fall
      rw [if_pos rfl]
      simp only []
      rw [if_neg hy]
      unfold Icicle.cool
      rw [if_neg (by norm_num [sampleIcicle, icicleUnderBlock, Icicle.new])]
      simp only [Icicle.mk.injEq, Vector2f.mk.injEq, true_and, and_true]
      push_cast
      refine ⟨?_, ?_, ?_⟩ <;> ring

/-- The state `droppingIcicle` is the first icicle of level 2 after 95 ticks with
the player staying near it. -/
theorem droppingIcicle_reached :
    sampleIcicle ∈ (Game.loadLevel Env.still 2 sampleGame).icicles ∧
    Icicle.run (fun _ => sampleNear) 95 sampleIcicle = droppingIcicle := by
  constructor
  · show sampleIcicle ∈ icicleCells.map (fun c => icicleUnderBlock c.1 c.2)
    exact List.mem_map.mpr ⟨(6, 2), by decide, rfl⟩
  · rw [show (95 : ℕ) = 59 + 36 from rfl, sampleIcicle_fall 36 (by norm_num) le_rfl]
    norm_num [droppingIcicle]

/-- C25 (as stated, refuted): the first icicle of level 2, with the player
staying near it, is after 95 ticks late in its fall (y = 628.8, velocity 28.8)
and passes y = 650 on the next tick, which puts it back at rest with
fallTimer = 60; 299 ticks later fallTimer is still 60, and on the 300th tick
after the reset the countdown has advanced: fallTimer = 59. -/
theorem c25_countdown_resumes_on_tick_300 :
    sampleIcicle ∈ (Game.loadLevel Env.still 2 sampleGame).icicles ∧
    Icicle.run (fun _ => sampleNear) 95 sampleIcicle = droppingIcicle ∧
    droppingIcicle.falling = true ∧
    droppingIcicle.position.y + (droppingIcicle.velocity.y + 4 / 5) > 650 ∧
    (Icicle.update sampleNear droppingIcicle).falling = false ∧
    (Icicle.update sampleNear droppingIcicle).fallTimer = 60 ∧
    (Icicle.run (fun _ => sampleNear) 299 (Icicle.update sampleNear droppingIcicle)).fallTimer
      = 60 ∧
    (Icicle.run (fun _ => sampleNear) 300 (Icicle.update sampleNear droppingIcicle)).fallTimer
      = 59 := by
  have hf : droppingIcicle.falling = true := rfl
  have hy : droppingIcicle.position.y + (droppingIcicle.velocity.y + 4 / 5) > 650 := by
    norm_num [droppingIcicle]
  have hr := Icicle.update_reset sampleNear droppingIcicle hf hy
  have hrun := Icicle.run_cooling (fun _ => sampleNear)
    (Icicle.update sampleNear droppingIcicle) (by rw [hr]) 299 (by rw [hr]; norm_num) 299 le_rfl
  refine ⟨droppingIcicle_reached.1, droppingIcicle_reached.2, hf, hy, by rw [hr], by rw [hr],
    by rw [hrun, hr], ?_⟩
  show (Icicle.update sampleNear
    (Icicle.run (fun _ => sampleNear) 299 (Icicle.update sampleNear droppingIcicle))).fallTimer
      = 59
  rw [hrun, hr]
  norm_num [Icicle.update, Icicle.arm, Icicle.fall, Icicle.cool, Icicle.proximity, sampleNear,
    playerBox, droppingIcicle, sampleIcicle, icicleUnderBlock, Icicle.new, blockSize, abs_lt]

/-- C25 (amended): when a falling icicle passes y = 650 on a tick, that tick puts
it back at startY with vertical velocity 0, falling = false and fallTimer = 60,
and after each of the 299 ticks that follow (k = 0 .. 299 ticks later), whatever
the player's bounds, it is still at rest at startY with falling = false and
fallTimer = 60, its reset timer being 299 - k. -/
theorem c25_icicle_reset_cooldown (bounds : ℕ → FloatRect) (b0 : FloatRect) (i : Icicle)
    (hf : i.falling = true) (hy : i.position.y + (i.velocity.y + 4 / 5) > 650) :
    (Icicle.update b0 i).position = ⟨i.position.x, i.startY⟩ ∧
    (Icicle.update b0 i).velocity.y = 0 ∧
    (Icicle.update b0 i).falling = false ∧
    (Icicle.update b0 i).fallTimer = 60 ∧
    ∀ k : ℕ, k ≤ 299 →
      (Icicle.run bounds k (Icicle.update b0 i)).falling = false ∧
      (Icicle.run bounds k (Icicle.update b0 i)).fallTimer = 60 ∧
      (Icicle.run bounds k (Icicle.update b0 i)).position = ⟨i.position.x, i.startY⟩ ∧
      (Icicle.run bounds k (Icicle.update b0 i)).velocity.y = 0 ∧
      (Icicle.run bounds k (Icicle.update b0 i)).resetTimer = 299 - k := by
  have hr := Icicle.update_reset b0 i hf hy
  refine ⟨by rw [hr], by rw [hr], by rw [hr], by rw [hr], ?_⟩
  intro k hk
  have hrun := Icicle.run_cooling bounds (Icicle.update b0 i) (by rw [hr]) 299
    (by rw [hr]; norm_num) k hk
  rw [hrun, hr]
  exact ⟨rfl, rfl, rfl, rfl, rfl⟩

theorem c25_icicle_reset_cooldown_witness :
    (Icicle.update sampleNear droppingIcicle).fallTimer = 60 ∧
    (Icicle.run (fun _ => sampleNear) 299 (Icicle.update sampleNear droppingIcicle)).falling
      = false ∧
    (Icicle.run (fun _ => sampleNear) 299 (Icicle.update sampleNear droppingIcicle)).fallTimer
      = 60 :=
  (fun h => ⟨h.2.2.2.1, (h.2.2.2.2 299 le_rfl).1, (h.2.2.2.2 299 le_rfl).2.1⟩)
    (c25_icicle_reset_cooldown (fun _ => sampleNear) sampleNear droppingIcicle rfl
      (by norm_num [droppingIcicle]))

/-! ## The spawn point -/

theorem loadLevel_spawn_box (env : Env) (l : Int) (g : Game) :
    (Game.loadLevel env l g).player.getBounds = playerBox 50 (GROUND_Y - 60) := rfl

/-- A coloured 32 x 32 tile (outline 2) far enough above, below or beside the
spawn box is clear of it. -/
theorem ofColor_clearOfSpawn (x y : ℚ)
    (h : y ≤ 474 ∨ 556 ≤ y ∨ 84 ≤ x ∨ x ≤ 16) :
    (Platform.ofColor x y blockSize blockSize false).ClearOfSpawn := by
  unfold Platform.ClearOfSpawn
  rw [Bool.eq_false_iff, Ne, playerBox_intersects_iff _ _ _
    (by norm_num [Platform.ofColor, RectangleShape.getGlobalBounds, blockSize])
    (by norm_num [Platform.ofColor, RectangleShape.getGlobalBounds, blockSize])]
  simp only [Platform.ofColor, RectangleShape.getGlobalBounds, blockSize, GROUND_Y]
  rintro ⟨⟨a1, a2⟩, a3, a4⟩
  rcases h with h | h | h | h <;> linarith

theorem addBlock_clear_row (g : Game) (hl : g.currentLevel ≠ 2) (gx gy : ℕ) (h : gy ≤ 14) :
    (addBlock g gx gy).ClearOfSpawn := by
  unfold addBlock
  rw [addMainPlatform_of_ne_two g _ _ hl]
  apply ofColor_clearOfSpawn
  left
  have h2 : (gy : ℚ) ≤ 14 := by exact_mod_cast h
  simp only [blockSize]
  linarith

theorem addBlock_clear_col (g : Game) (hl : g.currentLevel ≠ 2) (gx gy : ℕ) (h : 3 ≤ gx) :
    (addBlock g gx gy).ClearOfSpawn := by
  unfold addBlock
  rw [addMainPlatform_of_ne_two g _ _ hl]
  apply ofColor_clearOfSpawn
  right; right; left
  have h2 : (3 : ℚ) ≤ gx := by exact_mod_cast h
  simp only [blockSize]
  linarith

theorem clear_append {l1 l2 : List Platform} (h1 : ∀ t ∈ l1, t.ClearOfSpawn)
    (h2 : ∀ t ∈ l2, t.ClearOfSpawn) : ∀ t ∈ l1 ++ l2, t.ClearOfSpawn := by
  intro t ht
  rcases List.mem_append.mp ht with h | h
  · exact h1 t h
  · exact h2 t h

theorem clear_map {α : Type} (f : α → Platform) (l : List α)
    (h : ∀ a, (f a).ClearOfSpawn) : ∀ t ∈ l.map f, t.ClearOfSpawn := by
  intro t ht
  obtain ⟨a, -, rfl⟩ := List.mem_map.mp ht
  exact h a

theorem clear_nil : ∀ t ∈ ([] : List Platform), t.ClearOfSpawn :=
  fun t ht => absurd ht (List.not_mem_nil t)

theorem clear_cons {t : Platform} {l : List Platform} (h1 : t.ClearOfSpawn)
    (h2 : ∀ u ∈ l, u.ClearOfSpawn) : ∀ u ∈ t :: l, u.ClearOfSpawn := by
  intro u hu
  rcases List.mem_cons.mp hu with h | h
  · rw [h]; exact h1
  · exact h2 u h

/-- On level 4 every tile of the build is clear of the spawn box: the ground
strip lies below it, the ceiling and the decorative blocks (rows 0 .. 9) above
it, the wall (column 74) to its right. -/
theorem buildPlatforms_level4_clear (g : Game) (hl : g.currentLevel = 4) :
    ∀ t ∈ buildPlatforms g, t.ClearOfSpawn := by
  have hn2 : g.currentLevel ≠ 2 := by rw [hl]; decide
  have hn3 : ¬ g.currentLevel = 3 := by rw [hl]; decide
  have hn1 : ¬ g.currentLevel = 1 := by rw [hl]; decide
  have hground : ∀ t ∈ groundTiles g, t.ClearOfSpawn := by
    unfold groundTiles
    apply clear_map
    intro gx
    rw [addMainPlatform_of_ne_two g _ _ hn2]
    exact ofColor_clearOfSpawn _ _ (Or.inr (Or.inl (by norm_num [GROUND_Y])))
  have hceil : ∀ t ∈ ceilingTiles g, t.ClearOfSpawn :=
    clear_append (clear_map _ _ (fun gx => addBlock_clear_row g hn2 gx 0 (by norm_num)))
      (clear_map _ _ (fun gx => addBlock_clear_row g hn2 gx 1 (by norm_num)))
  have hlevel : levelPlatforms g = [] := by
    unfold levelPlatforms
    rw [if_neg hn1, if_neg hn2]
  have hdecor : ∀ t ∈ decorTiles g, t.ClearOfSpawn := by
    unfold decorTiles
    have hrow : ∀ (l : List ℕ) (r : ℕ), r ≤ 14 →
        ∀ t ∈ l.map (fun c => addBlock g c r), t.ClearOfSpawn :=
      fun l r hr => clear_map _ l (fun c => addBlock_clear_row g hn2 c r hr)
    have hlist : ∀ t ∈ [addBlock g 5 2, addBlock g 5 3, addBlock g 14 2, addBlock g 14 3,
        addBlock g 21 2, addBlock g 21 3], t.ClearOfSpawn :=
      clear_cons (addBlock_clear_row g hn2 5 2 (by norm_num))
        (clear_cons (addBlock_clear_row g hn2 5 3 (by norm_num))
        (clear_cons (addBlock_clear_row g hn2 14 2 (by norm_num))
        (clear_cons (addBlock_clear_row g hn2 14 3 (by norm_num))
        (clear_cons (addBlock_clear_row g hn2 21 2 (by norm_num))
        (clear_cons (addBlock_clear_row g hn2 21 3 (by norm_num)) clear_nil)))))
    exact clear_append (clear_append (clear_append (clear_append (clear_append
      (clear_append (clear_append (clear_append (clear_append
        (hrow _ 0 (by norm_num)) (hrow _ 1 (by norm_num))) (hrow _ 1 (by norm_num)))
        (hrow _ 1 (by norm_num))) hlist) (hrow _ 0 (by norm_num)))
        (hrow _ 1 (by norm_num))) (hrow _ 1 (by norm_num))) (hrow _ 8 (by norm_num)))
        (hrow _ 9 (by norm_num))
  have hpath : pathTiles g = [] := by
    unfold pathTiles
    rw [if_neg hn1, if_neg hn2]
  have hfix : iceFixTiles g = [] := by
    unfold iceFixTiles
    rw [if_neg (fun hc => hn2 hc.1)]
  have hwall : ∀ t ∈ wallTiles g, t.ClearOfSpawn :=
    clear_map _ _ (fun gy => addBlock_clear_col g hn2 74 gy (by norm_num))
  unfold buildPlatforms
  rw [if_neg hn3, if_neg hn2, hlevel, hpath, hfix]
  exact clear_append (clear_append (clear_append (clear_append (clear_append
    (clear_append (clear_append hground hceil) clear_nil) hdecor) clear_nil) clear_nil)
    hwall) clear_nil

/-- Level 4 is the one level on which the spawn box is clear: right after
`loadLevel(4)` the player's 32 x 46 box at the spawn point (50, GROUND_Y - 60)
intersects no tile of the level just built; and after `loadLevel(id)` for any id
the player's box is that box, whose bottom edge GROUND_Y - 14 = 554 lies above
GROUND_Y, the top of the ground strip's rectangles. -/
theorem loadLevel_four_spawn_clear (env : Env) (g : Game) :
    (∀ t ∈ (Game.loadLevel env 4 g).platforms,
      (Game.loadLevel env 4 g).player.getBounds.intersects t.shape.getGlobalBounds = false) ∧
    (∀ l : Int,
      (Game.loadLevel env l g).player.getBounds = ⟨50, GROUND_Y - 60, 32, 46⟩ ∧
      (Game.loadLevel env l g).player.getBounds.top
        + (Game.loadLevel env l g).player.getBounds.height = GROUND_Y - 14 ∧
      GROUND_Y - 14 = 554) := by
  refine ⟨?_, fun l => ⟨rfl, ?_, by norm_num [GROUND_Y]⟩⟩
  · intro t ht
    rw [loadLevel_spawn_box]
    exact buildPlatforms_level4_clear { g with currentLevel := 4 } rfl t ht
  · rw [loadLevel_spawn_box]
    simp only [playerBox]
    ring

/-- C26, the code at the failing inputs: right after `loadLevel` the player's
box at the spawn point, x 50 .. 82 and y 508 .. 554, intersects a tile of the
level just built on each of the levels 1, 2 and 3, although the comment at the
spawn line says that the player starts slightly above ground: on level 1 the
walkway tile at (32, 536), on level 2 the first-segment walkway tile at
(32, 536), on level 3 the floor block of cell (1, 16) at (32, 512). -/
theorem c26_spawn_inside_tiles :
    (Platform.ofColor 32 536 32 32 false ∈ (Game.loadLevel Env.still 1 sampleGame).platforms ∧
      (Game.loadLevel Env.still 1 sampleGame).player.getBounds.intersects
        (Platform.ofColor 32 536 32 32 false).shape.getGlobalBounds = true) ∧
    (Platform.ofTexture 32 536 32 32 TileTexture.iceBlock false
        ∈ (Game.loadLevel Env.still 2 sampleGame).platforms ∧
      (Game.loadLevel Env.still 2 sampleGame).player.getBounds.intersects
        (Platform.ofTexture 32 536 32 32 TileTexture.iceBlock false).shape.getGlobalBounds
          = true) ∧
    (Platform.ofTexture 32 512 32 32 TileTexture.seaweed false
        ∈ (Game.loadLevel Env.still 3 sampleGame).platforms ∧
      (Game.loadLevel Env.still 3 sampleGame).player.getBounds.intersects
        (Platform.ofTexture 32 512 32 32 TileTexture.seaweed false).shape.getGlobalBounds
          = true) := by
  refine ⟨⟨?_, ?_⟩, ⟨?_, ?_⟩, ⟨?_, ?_⟩⟩
  · have hm : Platform.ofColor 32 536 32 32 false
        ∈ pathTiles { sampleGame with currentLevel := 1 } := by
      unfold pathTiles
      rw [if_pos rfl]
      refine List.mem_map.mpr ⟨1, List.mem_range.mpr (by norm_num), ?_⟩
      norm_num [blockSize, GROUND_Y]
    show _ ∈ buildPlatforms { sampleGame with currentLevel := 1 }
    unfold buildPlatforms
    rw [if_neg (show ¬ ((1 : Int) = 3) by decide)]
    exact List.mem_append_left _ (List.mem_append_left _ (List.mem_append_left _
      (List.mem_append_right _ hm)))
  · rw [loadLevel_spawn_box]
    norm_num [playerBox, Platform.ofColor, RectangleShape.getGlobalBounds,
      FloatRect.intersects, GROUND_Y]
  · have hm : Platform.ofTexture 32 536 32 32 TileTexture.iceBlock false
        ∈ pathTiles { sampleGame with currentLevel := 2 } := by
      unfold pathTiles
      rw [if_neg (show ¬ ((2 : Int) = 1) by decide), if_pos rfl]
      refine List.mem_append_left _ (List.mem_append_left _ (List.mem_append_left _
        (List.mem_append_left _ (List.mem_append_left _
          (List.mem_map.mpr ⟨1, by decide, ?_⟩)))))
      unfold addPathTile addMainPlatform
      rw [if_pos ⟨rfl, rfl⟩]
      norm_num [blockSize, GROUND_Y]
    show _ ∈ buildPlatforms { sampleGame with currentLevel := 2 }
    unfold buildPlatforms
    rw [if_neg (show ¬ ((2 : Int) = 3) by decide)]
    exact List.mem_append_left _ (List.mem_append_left _ (List.mem_append_left _
      (List.mem_append_right _ hm)))
  · rw [loadLevel_spawn_box]
    norm_num [playerBox, Platform.ofTexture, RectangleShape.getGlobalBounds,
      FloatRect.intersects, GROUND_Y]
  · show _ ∈ buildPlatforms { sampleGame with currentLevel := 3 }
    unfold buildPlatforms
    rw [if_pos rfl, mem_level3Tiles]
    refine ⟨1, 16, by norm_num, Or.inl ⟨by decide, by norm_num⟩, ?_⟩
    have hs : ({ sampleGame with currentLevel := 3 } : Game).seaweedLoaded = true := rfl
    unfold addColumnBlock
    rw [if_pos hs]
    norm_num [blockSize]
  · rw [loadLevel_spawn_box]
    norm_num [playerBox, Platform.ofTexture, RectangleShape.getGlobalBounds,
      FloatRect.intersects, GROUND_Y]

/-! ## Reachable states: lives and the current level -/

theorem flowInv_alive (state : GameState) (lives level : Int)
    (hs : state ≠ GameState.GAME_OVER) (h1 : 1 ≤ lives) (h3 : lives ≤ 3)
    (hl1 : 1 ≤ level) (hl4 : level ≤ 4) : FlowInv state lives level := by
  unfold FlowInv
  exact ⟨by omega, h3, fun _ => h1, fun h => absurd h hs, hl1, hl4⟩

theorem flowInv_menu (lives level : Int) (h0 : 0 ≤ lives) (h3 : lives ≤ 3)
    (hl1 : 1 ≤ level) (hl4 : level ≤ 4) : FlowInv GameState.MENU lives level := by
  unfold FlowInv
  refine ⟨h0, h3, fun h => ?_, fun h => ?_, hl1, hl4⟩
  · rcases h with h | h | h <;> cases h
  · cases h

theorem flowInv_loseLife (env : Env) (g : Game) (hs : g.state = GameState.PLAYING)
    (h : FlowInv g.state g.lives g.currentLevel) :
    FlowInv (loseLife env g).state (loseLife env g).lives (loseLife env g).currentLevel := by
  unfold FlowInv at h
  obtain ⟨h0, h3, ha, -, hl1, hl4⟩ := h
  have h1 := ha (Or.inl hs)
  by_cases hc : g.lives - 1 ≤ 0
  · rw [loseLife_last env g hc]
    show FlowInv GameState.GAME_OVER (g.lives - 1) g.currentLevel
    unfold FlowInv
    refine ⟨by omega, by omega, fun h => ?_, fun _ => by omega, hl1, hl4⟩
    rcases h with h | h | h <;> cases h
  · rw [loseLife_rebuild env g (by omega)]
    show FlowInv g.state (g.lives - 1) g.currentLevel
    rw [hs]
    exact flowInv_alive GameState.PLAYING (g.lives - 1) g.currentLevel (by decide)
      (by omega) (by omega) hl1 hl4

theorem flowInv_exitStep (g : Game) (hs : g.state = GameState.PLAYING)
    (h : FlowInv g.state g.lives g.currentLevel) :
    FlowInv (exitStep g).state (exitStep g).lives (exitStep g).currentLevel := by
  have h2 := h
  unfold FlowInv at h2
  obtain ⟨h0, h3, ha, -, hl1, hl4⟩ := h2
  have h1 := ha (Or.inl hs)
  unfold exitStep
  split_ifs
  · show FlowInv GameState.LEVEL_COMPLETE g.lives g.currentLevel
    exact flowInv_alive GameState.LEVEL_COMPLETE g.lives g.currentLevel (by decide)
      h1 h3 hl1 hl4
  · exact h

theorem flowInv_hazardsAndExit (env : Env) (g : Game) (hs : g.state = GameState.PLAYING)
    (h : FlowInv g.state g.lives g.currentLevel) :
    FlowInv (hazardsAndExit env g).state (hazardsAndExit env g).lives
      (hazardsAndExit env g).currentLevel := by
  unfold hazardsAndExit
  simp only []
  split_ifs
  · exact flowInv_loseLife env _ hs h
  · exact flowInv_loseLife env _ hs h
  · exact flowInv_loseLife env _ hs h
  · exact flowInv_loseLife env _ hs h
  · exact flowInv_exitStep _ hs h

theorem hammerStep_flow (g : Game) :
    (hammerStep g).state = g.state ∧ (hammerStep g).lives = g.lives ∧
      (hammerStep g).currentLevel = g.currentLevel := by
  unfold hammerStep
  split
  · exact ⟨rfl, rfl, rfl⟩
  · split_ifs <;> exact ⟨rfl, rfl, rfl⟩

/-- A tick keeps the flow invariant. -/
theorem flowInv_update (env : Env) (inp : Input) (g : Game)
    (h : FlowInv g.state g.lives g.currentLevel) :
    FlowInv (Game.update env inp g).state (Game.update env inp g).lives
      (Game.update env inp g).currentLevel := by
  by_cases hs : g.state = GameState.PLAYING
  · rw [update_playing env inp g hs]
    split_ifs
    · exact flowInv_loseLife env (physics inp g) hs h
    · obtain ⟨a1, a2, a3⟩ := hammerStep_flow (collectablesStep env (physics inp g))
      apply flowInv_hazardsAndExit
      · rw [a1]
        exact hs
      · rw [a1, a2, a3]
        exact h
  · unfold Game.update
    rw [if_pos hs]
    exact h

theorem flowInv_startGame (env : Env) (g : Game) :
    FlowInv (startGame env g).state (startGame env g).lives (startGame env g).currentLevel :=
  flowInv_alive GameState.PLAYING 3 1 (by decide) (by decide) (by decide) (by decide)
    (by decide)

theorem flowInv_menuClick (env : Env) (ui : MenuUi) (mouseX mouseY : Int) (g : Game)
    (h : FlowInv g.state g.lives g.currentLevel) :
    FlowInv (menuClick env ui mouseX mouseY g).state (menuClick env ui mouseX mouseY g).lives
      (menuClick env ui mouseX mouseY g).currentLevel := by
  unfold menuClick
  split_ifs
  · exact flowInv_startGame env g
  all_goals exact h

theorem flowInv_keyPressed (env : Env) (code : Key) (g : Game)
    (h : FlowInv g.state g.lives g.currentLevel) :
    FlowInv (keyPressed env code g).state (keyPressed env code g).lives
      (keyPressed env code g).currentLevel := by
  have h2 := h
  unfold FlowInv at h2
  obtain ⟨h0, h3, ha, hg, hl1, hl4⟩ := h2
  cases code
  · rw [keyPressed_enter]
    by_cases c1 : g.state = GameState.LEVEL_COMPLETE
    · rw [if_pos c1]
      by_cases c2 : g.currentLevel < 4
      · rw [if_pos c2]
        show FlowInv GameState.PLAYING g.lives (g.currentLevel + 1)
        exact flowInv_alive GameState.PLAYING g.lives (g.currentLevel + 1) (by decide)
          (ha (Or.inr (Or.inr c1))) h3 (by omega) (by omega)
      · rw [if_neg c2]
        exact flowInv_menu _ _ h0 h3 hl1 hl4
    · rw [if_neg c1]
      by_cases c3 : g.state = GameState.GAME_OVER
      · rw [if_pos c3]
        exact flowInv_menu _ _ h0 h3 hl1 hl4
      · rw [if_neg c3]
        exact h
  · have hk : keyPressed env Key.Escape g
        = { g with state :=
              if g.state = GameState.PLAYING then GameState.PAUSED
              else if g.state = GameState.PAUSED then GameState.PLAYING
              else g.state } := by
      unfold keyPressed
      simp
    rw [hk]
    show FlowInv (if g.state = GameState.PLAYING then GameState.PAUSED
      else if g.state = GameState.PAUSED then GameState.PLAYING else g.state)
      g.lives g.currentLevel
    by_cases c1 : g.state = GameState.PLAYING
    · rw [if_pos c1]
      exact flowInv_alive GameState.PAUSED g.lives g.currentLevel (by decide)
        (ha (Or.inl c1)) h3 hl1 hl4
    · rw [if_neg c1]
      by_cases c2 : g.state = GameState.PAUSED
      · rw [if_pos c2]
        exact flowInv_alive GameState.PLAYING g.lives g.currentLevel (by decide)
          (ha (Or.inr (Or.inl c2))) h3 hl1 hl4
      · rw [if_neg c2]
        exact h
  · rw [keyPressed_r]
    split_ifs
    · exact h
    · exact h
  · have hk : keyPressed env Key.Other g = g := by
      unfold keyPressed
      simp
    rw [hk]
    exact h

/-- Handling one event keeps the flow invariant. -/
theorem flowInv_handleEvent (env : Env) (ui : MenuUi) (event : Event) (g : Game)
    (h : FlowInv g.state g.lives g.currentLevel) :
    FlowInv (handleEvent env ui event g).state (handleEvent env ui event g).lives
      (handleEvent env ui event g).currentLevel := by
  unfold handleEvent
  split_ifs with hs
  · cases event with
    | Closed => exact h
    | MouseButtonPressed mouseX mouseY => exact flowInv_menuClick env ui mouseX mouseY g h
    | KeyPressed code =>
      cases code
      · exact flowInv_startGame env g
      · exact h
      · exact h
      · exact h
    | Other => exact h
  · cases event with
    | Closed => exact h
    | MouseButtonPressed mouseX mouseY => exact h
    | KeyPressed code => exact flowInv_keyPressed env code g h
    | Other => exact h

theorem flowInv_handleInput (env : Env) (ui : MenuUi) (events : List Event) (g : Game)
    (h : FlowInv g.state g.lives g.currentLevel) :
    FlowInv (Game.handleInput env ui events g).state (Game.handleInput env ui events g).lives
      (Game.handleInput env ui events g).currentLevel := by
  induction events generalizing g with
  | nil => exact h
  | cons e es ih => exact ih (handleEvent env ui e g) (flowInv_handleEvent env ui e g h)

theorem flowInv_runSteps (steps : List Step) (g : Game)
    (h : FlowInv g.state g.lives g.currentLevel) :
    FlowInv (Game.runSteps steps g).state (Game.runSteps steps g).lives
      (Game.runSteps steps g).currentLevel := by
  induction steps generalizing g with
  | nil => exact h
  | cons s ss ih =>
    apply ih (s.apply g)
    cases s with
    | input env ui events => exact flowInv_handleInput env ui events g h
    | tick env inp => exact flowInv_update env inp g h

theorem flowInv_new (a : Assets) :
    FlowInv (Game.new a).state (Game.new a).lives (Game.new a).currentLevel :=
  flowInv_menu 3 1 (by decide) (by decide) (by decide) (by decide)

/-- C27: the constructor leaves the game in state MENU with lives = 3, and in
the state reached from it by any sequence of `handleInput` calls (any events)
and `update` ticks (any keys held): 0 <= lives <= 3; lives >= 1 whenever the
state is PLAYING, PAUSED or LEVEL_COMPLETE; lives = 0 whenever the state is
GAME_OVER. -/
theorem c27_lives_invariant (a : Assets) (steps : List Step) :
    (Game.new a).state = GameState.MENU ∧ (Game.new a).lives = 3 ∧
    0 ≤ (Game.runSteps steps (Game.new a)).lives ∧
    (Game.runSteps steps (Game.new a)).lives ≤ 3 ∧
    (((Game.runSteps steps (Game.new a)).state = GameState.PLAYING ∨
      (Game.runSteps steps (Game.new a)).state = GameState.PAUSED ∨
      (Game.runSteps steps (Game.new a)).state = GameState.LEVEL_COMPLETE) →
        1 ≤ (Game.runSteps steps (Game.new a)).lives) ∧
    ((Game.runSteps steps (Game.new a)).state = GameState.GAME_OVER →
      (Game.runSteps steps (Game.new a)).lives = 0) := by
  obtain ⟨h0, h3, ha, hg, -, -⟩ := flowInv_runSteps steps (Game.new a) (flowInv_new a)
  exact ⟨rfl, rfl, h0, h3, ha, hg⟩

/-- C28: in the state reached from the constructed game by any sequence of
`handleInput` calls and `update` ticks, 1 <= currentLevel <= 4.  The arguments
that the call sites pass to `loadLevel` from such a state are therefore in
1 .. 4: the constant 1 (start), currentLevel itself (restart and life loss), and
currentLevel + 1 under the guard currentLevel < 4 (advance). -/
theorem c28_level_in_range (a : Assets) (steps : List Step) :
    (Game.new a).currentLevel = 1 ∧
    1 ≤ (Game.runSteps steps (Game.new a)).currentLevel ∧
    (Game.runSteps steps (Game.new a)).currentLevel ≤ 4 ∧
    ((Game.runSteps steps (Game.new a)).currentLevel < 4 →
      1 ≤ (Game.runSteps steps (Game.new a)).currentLevel + 1 ∧
      (Game.runSteps steps (Game.new a)).currentLevel + 1 ≤ 4) := by
  obtain ⟨-, -, -, -, hl1, hl4⟩ := flowInv_runSteps steps (Game.new a) (flowInv_new a)
  exact ⟨rfl, hl1, hl4, fun h => ⟨by omega, by omega⟩⟩

/-! ## The horizontal pass and the order of the tiles -/

/-- A tile that moves a right-moving player back blocks every position between
the new one and the far end of the step. -/
theorem resolveHorizontal_right_block (x0 y : ℚ) (t : Platform)
    (hpos : 0 < t.shape.getGlobalBounds.width ∧ 0 < t.shape.getGlobalBounds.height)
    (hfree : (playerBox x0 y).intersects t.shape.getGlobalBounds = false)
    (q : Player) (hy : q.position.y = y) (hv : 0 < q.velocity.x)
    (hx : x0 ≤ q.position.x) :
    (resolveHorizontal q t).position.x = q.position.x ∨
    ∀ x1, (resolveHorizontal q t).position.x < x1 → x1 ≤ x0 + 32 →
      (playerBox x1 y).intersects t.shape.getGlobalBounds = true := by
  have hbox : q.getBounds = playerBox q.position.x y := by
    simp [Player.getBounds, playerBox, hy]
  have hfree2 := (Bool.eq_false_iff.mp hfree)
  rw [Ne, playerBox_intersects_iff x0 y _ hpos.1 hpos.2] at hfree2
  unfold resolveHorizontal
  simp only [hbox]
  by_cases hi : (playerBox q.position.x y).intersects t.shape.getGlobalBounds = true
  · rw [if_pos hi, if_pos hv]
    rw [playerBox_intersects_iff _ y _ hpos.1 hpos.2] at hi
    obtain ⟨⟨i1, i2⟩, i3, i4⟩ := hi
    have hL : x0 + 32 ≤ t.shape.getGlobalBounds.left := by
      by_contra hc
      push_neg at hc
      exact hfree2 ⟨⟨hc, lt_of_le_of_lt hx i2⟩, i3, i4⟩
    right
    intro x1 h1 h2
    simp only [playerBox] at h1
    rw [playerBox_intersects_iff _ y _ hpos.1 hpos.2]
    exact ⟨⟨by linarith, by linarith [hpos.1]⟩, i3, i4⟩
  · rw [if_neg hi]
    left
    rfl

theorem resolveHorizontal_left_block (x0 y : ℚ) (t : Platform)
    (hpos : 0 < t.shape.getGlobalBounds.width ∧ 0 < t.shape.getGlobalBounds.height)
    (hfree : (playerBox x0 y).intersects t.shape.getGlobalBounds = false)
    (q : Player) (hy : q.position.y = y) (hv : q.velocity.x < 0)
    (hx : q.position.x ≤ x0) :
    (resolveHorizontal q t).position.x = q.position.x ∨
    ∀ x1, x1 < (resolveHorizontal q t).position.x → x0 - 32 ≤ x1 →
      (playerBox x1 y).intersects t.shape.getGlobalBounds = true := by
  have hbox : q.getBounds = playerBox q.position.x y := by
    simp [Player.getBounds, playerBox, hy]
  have hfree2 := (Bool.eq_false_iff.mp hfree)
  rw [Ne, playerBox_intersects_iff x0 y _ hpos.1 hpos.2] at hfree2
  have hnv : ¬ q.velocity.x > 0 := not_lt.mpr (le_of_lt hv)
  unfold resolveHorizontal
  simp only [hbox]
  by_cases hi : (playerBox q.position.x y).intersects t.shape.getGlobalBounds = true
  · rw [if_pos hi, if_neg hnv, if_pos hv]
    rw [playerBox_intersects_iff _ y _ hpos.1 hpos.2] at hi
    obtain ⟨⟨i1, i2⟩, i3, i4⟩ := hi
    have hR : t.shape.getGlobalBounds.left + t.shape.getGlobalBounds.width ≤ x0 := by
      by_contra hc
      push_neg at hc
      exact hfree2 ⟨⟨by linarith, hc⟩, i3, i4⟩
    right
    intro x1 h1 h2
    dsimp only at h1
    rw [playerBox_intersects_iff _ y _ hpos.1 hpos.2]
    exact ⟨⟨by linarith [hpos.1], h1⟩, i3, i4⟩
  · rw [if_neg hi]
    left
    rfl

/-- When the pass stops a right-moving player short of the end of its step, some
tile of the list blocks every position beyond the final one. -/
theorem foldl_resolveHorizontal_right_block (x0 y : ℚ) (tiles : List Platform)
    (hpos : ∀ t ∈ tiles,
      0 < t.shape.getGlobalBounds.width ∧ 0 < t.shape.getGlobalBounds.height)
    (hfree : ∀ t ∈ tiles, (playerBox x0 y).intersects t.shape.getGlobalBounds = false)
    (q : Player) (hy : q.position.y = y) (hv : 0 < q.velocity.x)
    (hx : x0 ≤ q.position.x) (hx4 : q.position.x ≤ x0 + 32) :
    (tiles.foldl resolveHorizontal q).position.x = q.position.x ∨
    ∃ t ∈ tiles, ∀ x1, (tiles.foldl resolveHorizontal q).position.x < x1 → x1 ≤ x0 + 32 →
      (playerBox x1 y).intersects t.shape.getGlobalBounds = true := by
  induction tiles generalizing q with
  | nil => left; rfl
  | cons t ts ih =>
    obtain ⟨s1, s2, s3, s4, -⟩ :=
      resolveHorizontal_right x0 y t (hpos t (List.mem_cons_self _ _))
        (hfree t (List.mem_cons_self _ _)) q hy hv hx hx4
    have hstep := resolveHorizontal_right_block x0 y t (hpos t (List.mem_cons_self _ _))
      (hfree t (List.mem_cons_self _ _)) q hy hv hx
    have hrest := ih (fun u hu => hpos u (List.mem_cons_of_mem _ hu))
      (fun u hu => hfree u (List.mem_cons_of_mem _ hu))
      (resolveHorizontal q t) s1 (by rw [s2]; exact hv) s3 (le_trans s4 hx4)
    simp only [List.foldl_cons]
    rcases hrest with hr | ⟨u, hu, hr⟩
    · rcases hstep with hs | hs
      · left
        rw [hr, hs]
      · right
        refine ⟨t, List.mem_cons_self _ _, ?_⟩
        intro x1 h1 h2
        rw [hr] at h1
        exact hs x1 h1 h2
    · right
      exact ⟨u, List.mem_cons_of_mem _ hu, hr⟩

theorem foldl_resolveHorizontal_left_block (x0 y : ℚ) (tiles : List Platform)
    (hpos : ∀ t ∈ tiles,
      0 < t.shape.getGlobalBounds.width ∧ 0 < t.shape.getGlobalBounds.height)
    (hfree : ∀ t ∈ tiles, (playerBox x0 y).intersects t.shape.getGlobalBounds = false)
    (q : Player) (hy : q.position.y = y) (hv : q.velocity.x < 0)
    (hx : q.position.x ≤ x0) (hx4 : x0 - 32 ≤ q.position.x) :
    (tiles.foldl resolveHorizontal q).position.x = q.position.x ∨
    ∃ t ∈ tiles, ∀ x1, x1 < (tiles.foldl resolveHorizontal q).position.x → x0 - 32 ≤ x1 →
      (playerBox x1 y).intersects t.shape.getGlobalBounds = true := by
  induction tiles generalizing q with
  | nil => left; rfl
  | cons t ts ih =>
    obtain ⟨s1, s2, s3, s4, -⟩ :=
      resolveHorizontal_left x0 y t (hpos t (List.mem_cons_self _ _))
        (hfree t (List.mem_cons_self _ _)) q hy hv hx hx4
    have hstep := resolveHorizontal_left_block x0 y t (hpos t (List.mem_cons_self _ _))
      (hfree t (List.mem_cons_self _ _)) q hy hv hx
    have hrest := ih (fun u hu => hpos u (List.mem_cons_of_mem _ hu))
      (fun u hu => hfree u (List.mem_cons_of_mem _ hu))
      (resolveHorizontal q t) s1 (by rw [s2]; exact hv) s3 (le_trans hx4 s4)
    simp only [List.foldl_cons]
    rcases hrest with hr | ⟨u, hu, hr⟩
    · rcases hstep with hs | hs
      · left
        rw [hr, hs]
      · right
        refine ⟨t, List.mem_cons_self _ _, ?_⟩
        intro x1 h1 h2
        rw [hr] at h1
        exact hs x1 h1 h2
    · right
      exact ⟨u, List.mem_cons_of_mem _ hu, hr⟩

/-- The loop body changes nothing but the position. -/
theorem resolveHorizontal_only_position (q : Player) (t : Platform) :
    ∃ pos, resolveHorizontal q t = { q with position := pos } := by
  unfold resolveHorizontal
  simp only []
  split_ifs
  · exact ⟨_, rfl⟩
  · exact ⟨_, rfl⟩
  · exact ⟨q.position, rfl⟩
  · exact ⟨q.position, rfl⟩

theorem foldl_resolveHorizontal_only_position (tiles : List Platform) (q : Player) :
    tiles.foldl resolveHorizontal q
      = { q with position := (tiles.foldl resolveHorizontal q).position } := by
  have h : ∀ (l : List Platform) (q : Player),
      ∃ pos, l.foldl resolveHorizontal q = { q with position := pos } := by
    intro l
    induction l with
    | nil => exact fun q => ⟨q.position, rfl⟩
    | cons t ts ih =>
      intro q
      obtain ⟨pos1, h1⟩ := resolveHorizontal_only_position q t
      obtain ⟨pos2, h2⟩ := ih { q with position := pos1 }
      exact ⟨pos2, by rw [List.foldl_cons, h1, h2]⟩
  obtain ⟨pos, hp⟩ := h tiles q
  rw [hp]

/-- With no horizontal velocity the loop body leaves the player as it is. -/
theorem resolveHorizontal_still (q : Player) (t : Platform) (hv : q.velocity.x = 0) :
    resolveHorizontal q t = q := by
  unfold resolveHorizontal
  simp only []
  split_ifs with h1 h2 h3
  · rw [hv] at h2
    exact absurd h2 (lt_irrefl 0)
  · rw [hv] at h3
    exact absurd h3 (lt_irrefl 0)
  · rfl
  · rfl

theorem foldl_resolveHorizontal_still (tiles : List Platform) (q : Player)
    (hv : q.velocity.x = 0) : tiles.foldl resolveHorizontal q = q := by
  induction tiles with
  | nil => rfl
  | cons t ts ih => rw [List.foldl_cons, resolveHorizontal_still q t hv, ih]

/-- The final position of the horizontal pass is the same for two lists with the
same tiles, when the box overlaps no tile before the pass and the step is at
most 32 long. -/
theorem horizontalPass_position_perm (l1 l2 : List Platform) (p : Player)
    (hsub : ∀ t, t ∈ l1 ↔ t ∈ l2)
    (hpos : ∀ t ∈ l1,
      0 < t.shape.getGlobalBounds.width ∧ 0 < t.shape.getGlobalBounds.height)
    (hfree : ∀ t ∈ l1, p.getBounds.intersects t.shape.getGlobalBounds = false)
    (hv : |p.velocity.x| ≤ 32) :
    (horizontalPass l1 p).position = (horizontalPass l2 p).position := by
  have hpos2 : ∀ t ∈ l2,
      0 < t.shape.getGlobalBounds.width ∧ 0 < t.shape.getGlobalBounds.height :=
    fun t ht => hpos t ((hsub t).mpr ht)
  have hfree1 : ∀ t ∈ l1,
      (playerBox p.position.x p.position.y).intersects t.shape.getGlobalBounds = false :=
    hfree
  have hfree2 : ∀ t ∈ l2,
      (playerBox p.position.x p.position.y).intersects t.shape.getGlobalBounds = false :=
    fun t ht => hfree t ((hsub t).mpr ht)
  obtain ⟨hv1, hv2⟩ := abs_le.mp hv
  unfold horizontalPass
  rcases lt_trichotomy p.velocity.x 0 with hneg | hzero | hpos0
  · obtain ⟨a1, a2, a3, a4⟩ :=
      foldl_resolveHorizontal_left p.position.x p.position.y l1 hpos hfree1
        { p with position := ⟨p.position.x + p.velocity.x, p.position.y⟩ } rfl hneg
        (by show p.position.x + p.velocity.x ≤ p.position.x; linarith)
        (by show p.position.x - 32 ≤ p.position.x + p.velocity.x; linarith)
    obtain ⟨b1, b2, b3, b4⟩ :=
      foldl_resolveHorizontal_left p.position.x p.position.y l2 hpos2 hfree2
        { p with position := ⟨p.position.x + p.velocity.x, p.position.y⟩ } rfl hneg
        (by show p.position.x + p.velocity.x ≤ p.position.x; linarith)
        (by show p.position.x - 32 ≤ p.position.x + p.velocity.x; linarith)
    have ha := foldl_resolveHorizontal_left_block p.position.x p.position.y l1 hpos hfree1
        { p with position := ⟨p.position.x + p.velocity.x, p.position.y⟩ } rfl hneg
        (by show p.position.x + p.velocity.x ≤ p.position.x; linarith)
        (by show p.position.x - 32 ≤ p.position.x + p.velocity.x; linarith)
    have hb := foldl_resolveHorizontal_left_block p.position.x p.position.y l2 hpos2 hfree2
        { p with position := ⟨p.position.x + p.velocity.x, p.position.y⟩ } rfl hneg
        (by show p.position.x + p.velocity.x ≤ p.position.x; linarith)
        (by show p.position.x - 32 ≤ p.position.x + p.velocity.x; linarith)
    generalize List.foldl resolveHorizontal
      { p with position := ⟨p.position.x + p.velocity.x, p.position.y⟩ } l1 = r1
      at a1 a2 a3 a4 ha ⊢
    generalize List.foldl resolveHorizontal
      { p with position := ⟨p.position.x + p.velocity.x, p.position.y⟩ } l2 = r2
      at b1 b2 b3 b4 hb ⊢
    dsimp only at a3 b3 ha hb
    have hxeq : r1.position.x = r2.position.x := by
      apply le_antisymm
      · by_contra hc
        push_neg at hc
        rcases ha with ha | ⟨t, ht, ha⟩
        · linarith
        · have h1 := ha r2.position.x hc (by linarith)
          rw [b4 t ((hsub t).mp ht) r2.position.x le_rfl b2] at h1
          exact absurd h1 (by simp)
      · by_contra hc
        push_neg at hc
        rcases hb with hb | ⟨t, ht, hb⟩
        · linarith
        · have h1 := hb r1.position.x hc (by linarith)
          rw [a4 t ((hsub t).mpr ht) r1.position.x le_rfl a2] at h1
          exact absurd h1 (by simp)
    show r1.position = r2.position
    rw [show r1.position = ⟨r1.position.x, r1.position.y⟩ from rfl,
      show r2.position = ⟨r2.position.x, r2.position.y⟩ from rfl, hxeq, a1, b1]
  · rw [foldl_resolveHorizontal_still l1
        { p with position := ⟨p.position.x + p.velocity.x, p.position.y⟩ } hzero,
      foldl_resolveHorizontal_still l2
        { p with position := ⟨p.position.x + p.velocity.x, p.position.y⟩ } hzero]
  · obtain ⟨a1, a2, a3, a4⟩ :=
      foldl_resolveHorizontal_right p.position.x p.position.y l1 hpos hfree1
        { p with position := ⟨p.position.x + p.velocity.x, p.position.y⟩ } rfl hpos0
        (by show p.position.x ≤ p.position.x + p.velocity.x; linarith)
        (by show p.position.x + p.velocity.x ≤ p.position.x + 32; linarith)
    obtain ⟨b1, b2, b3, b4⟩ :=
      foldl_resolveHorizontal_right p.position.x p.position.y l2 hpos2 hfree2
        { p with position := ⟨p.position.x + p.velocity.x, p.position.y⟩ } rfl hpos0
        (by show p.position.x ≤ p.position.x + p.velocity.x; linarith)
        (by show p.position.x + p.velocity.x ≤ p.position.x + 32; linarith)
    have ha := foldl_resolveHorizontal_right_block p.position.x p.position.y l1 hpos hfree1
        { p with position := ⟨p.position.x + p.velocity.x, p.position.y⟩ } rfl hpos0
        (by show p.position.x ≤ p.position.x + p.velocity.x; linarith)
        (by show p.position.x + p.velocity.x ≤ p.position.x + 32; linarith)
    have hb := foldl_resolveHorizontal_right_block p.position.x p.position.y l2 hpos2 hfree2
        { p with position := ⟨p.position.x + p.velocity.x, p.position.y⟩ } rfl hpos0
        (by show p.position.x ≤ p.position.x + p.velocity.x; linarith)
        (by show p.position.x + p.velocity.x ≤ p.position.x + 32; linarith)
    generalize List.foldl resolveHorizontal
      { p with position := ⟨p.position.x + p.velocity.x, p.position.y⟩ } l1 = r1
      at a1 a2 a3 a4 ha ⊢
    generalize List.foldl resolveHorizontal
      { p with position := ⟨p.position.x + p.velocity.x, p.position.y⟩ } l2 = r2
      at b1 b2 b3 b4 hb ⊢
    dsimp only at a3 b3 ha hb
    have hxeq : r1.position.x = r2.position.x := by
      apply le_antisymm
      · by_contra hc
        push_neg at hc
        rcases hb with hb | ⟨t, ht, hb⟩
        · linarith
        · have h1 := hb r1.position.x hc (by linarith)
          rw [a4 t ((hsub t).mpr ht) r1.position.x a2 le_rfl] at h1
          exact absurd h1 (by simp)
      · by_contra hc
        push_neg at hc
        rcases ha with ha | ⟨t, ht, ha⟩
        · linarith
        · have h1 := ha r2.position.x hc (by linarith)
          rw [b4 t ((hsub t).mp ht) r2.position.x b2 le_rfl] at h1
          exact absurd h1 (by simp)
    show r1.position = r2.position
    rw [show r1.position = ⟨r1.position.x, r1.position.y⟩ from rfl,
      show r2.position = ⟨r2.position.x, r2.position.y⟩ from rfl, hxeq, a1, b1]

/-- C22 (as stated, refuted): a player at (96, 0) with velocity.x = 4, whose box
already overlaps the tile at x = 110, is moved to x = 100; with the tiles in the
order [110, 60] the pass snaps it to 110 - 32 = 78 and then, the box now
overlapping the tile at x = 60, to 60 - 32 = 28; in the order [60, 110] it ends
at 78. -/
theorem c22_order_changes_result :
    [rightTile, leftTile].Perm [leftTile, rightTile] ∧
    (horizontalPass [rightTile, leftTile] overlappingPusher).position = ⟨28, 0⟩ ∧
    (horizontalPass [leftTile, rightTile] overlappingPusher).position = ⟨78, 0⟩ := by
  refine ⟨List.Perm.swap _ _ _, ?_, ?_⟩
  · norm_num [horizontalPass, resolveHorizontal, rightTile, leftTile, overlappingPusher,
      Platform.ofTexture, Player.new, Player.getBounds, RectangleShape.getGlobalBounds,
      FloatRect.intersects]
  · norm_num [horizontalPass, resolveHorizontal, rightTile, leftTile, overlappingPusher,
      Platform.ofTexture, Player.new, Player.getBounds, RectangleShape.getGlobalBounds,
      FloatRect.intersects]

/-- C22 (amended): for a list of tiles whose bounds have positive width and
height, a player whose 32 x 46 box overlaps no tile of the list before the pass
and whose horizontal velocity is at most 32 in absolute value, the horizontal
pass of `Game::update` over the list and over any permutation of it gives the
same final player, so the same final position. -/
theorem c22_horizontal_pass_order_independent (l1 l2 : List Platform) (p : Player)
    (hperm : l1.Perm l2)
    (hpos : ∀ t ∈ l1,
      0 < t.shape.getGlobalBounds.width ∧ 0 < t.shape.getGlobalBounds.height)
    (hfree : ∀ t ∈ l1, p.getBounds.intersects t.shape.getGlobalBounds = false)
    (hv : |p.velocity.x| ≤ 32) :
    horizontalPass l1 p = horizontalPass l2 p ∧
    (horizontalPass l1 p).position = (horizontalPass l2 p).position := by
  have hposEq := horizontalPass_position_perm l1 l2 p (fun t => hperm.mem_iff) hpos hfree hv
  refine ⟨?_, hposEq⟩
  unfold horizontalPass at hposEq ⊢
  rw [foldl_resolveHorizontal_only_position l1, foldl_resolveHorizontal_only_position l2,
    hposEq]

theorem c22_horizontal_pass_order_independent_witness :
    horizontalPass [sampleBlock, sampleFloor] samplePusher
      = horizontalPass [sampleFloor, sampleBlock] samplePusher ∧
    (horizontalPass [sampleBlock, sampleFloor] samplePusher).position
      = (horizontalPass [sampleFloor, sampleBlock] samplePusher).position :=
  c22_horizontal_pass_order_independent [sampleBlock, sampleFloor] [sampleFloor, sampleBlock]
    samplePusher (List.Perm.swap _ _ _)
    (by
      intro t ht
      rcases List.mem_cons.mp ht with h | h
      · rw [h]
        norm_num [sampleBlock, Platform.ofColor, RectangleShape.getGlobalBounds]
      · rw [List.mem_singleton.mp h]
        norm_num [sampleFloor, Platform.ofColor, RectangleShape.getGlobalBounds])
    (by
      intro t ht
      rcases List.mem_cons.mp ht with h | h
      · rw [h]
        norm_num [sampleBlock, samplePusher, samplePlayer, applyInput, Platform.ofColor,
          Player.new, Player.getBounds, RectangleShape.getGlobalBounds, FloatRect.intersects]
      · rw [List.mem_singleton.mp h]
        norm_num [sampleFloor, samplePusher, samplePlayer, applyInput, Platform.ofColor,
          Player.new, Player.getBounds, RectangleShape.getGlobalBounds, FloatRect.intersects])
    (by norm_num [samplePusher, samplePlayer, applyInput, Player.new, abs_le])

/-! ## A player at rest -/

theorem applyInput_noInput (p : Player) :
    applyInput noInput p = { p with velocity := ⟨0, p.velocity.y⟩ } := by
  unfold applyInput noInput
  simp

theorem horizontalPass_still (tiles : List Platform) (p : Player) (hv : p.velocity.x = 0) :
    horizontalPass tiles p = p := by
  unfold horizontalPass
  rw [foldl_resolveHorizontal_still tiles
    { p with position := ⟨p.position.x + p.velocity.x, p.position.y⟩ } hv]
  rw [hv, add_zero]

theorem resolveVertical_free (vy : ℚ) (p : Player) (t : Platform)
    (h : p.getBounds.intersects t.shape.getGlobalBounds = false) :
    resolveVertical vy p t = (p, t) := by
  unfold resolveVertical
  simp only []
  rw [if_neg (by rw [h]; decide)]

theorem resolveVertical_land (vy : ℚ) (p : Player) (t : Platform) (hv : vy > 0)
    (h : p.getBounds.intersects t.shape.getGlobalBounds = true) :
    (resolveVertical vy p t).1
      = { p with position := ⟨p.position.x, t.shape.getGlobalBounds.top - 46⟩,
                 velocity := ⟨p.velocity.x, 0⟩, grounded := true } := by
  unfold resolveVertical
  simp only []
  rw [if_pos h, if_pos hv]
  rfl

/-- The vertical loop leaves a player alone whose box intersects no tile. -/
theorem verticalLoop_free (vy : ℚ) (tiles : List Platform) (p : Player)
    (h : ∀ u ∈ tiles, p.getBounds.intersects u.shape.getGlobalBounds = false) :
    (verticalLoop vy p tiles).1 = p := by
  induction tiles with
  | nil => rfl
  | cons t ts ih =>
    simp only [verticalLoop]
    rw [resolveVertical_free vy p t (h t (List.mem_cons_self _ _))]
    exact ih (fun u hu => h u (List.mem_cons_of_mem _ hu))

/-- A falling player whose shifted box meets only the tile `T`, and whose box at
rest on `T` meets no other tile, ends the vertical loop at rest on `T`. -/
theorem verticalLoop_lands (vy : ℚ) (hvy : vy > 0) (T : Platform) (x y : ℚ)
    (htop : T.shape.getGlobalBounds.top - 46 = y)
    (tiles : List Platform) (hT : T ∈ tiles) (pS : Player)
    (hS : pS.position = ⟨x, y + vy⟩)
    (hTS : (playerBox x (y + vy)).intersects T.shape.getGlobalBounds = true)
    (hTR : (playerBox x y).intersects T.shape.getGlobalBounds = false)
    (hoth : ∀ u ∈ tiles, u ≠ T →
      (playerBox x (y + vy)).intersects u.shape.getGlobalBounds = false ∧
      (playerBox x y).intersects u.shape.getGlobalBounds = false) :
    (verticalLoop vy pS tiles).1
      = { pS with position := ⟨x, y⟩, velocity := ⟨pS.velocity.x, 0⟩, grounded := true } := by
  have hboxS : pS.getBounds = playerBox x (y + vy) := by
    simp only [Player.getBounds, playerBox, hS]
  induction tiles with
  | nil => exact absurd hT (List.not_mem_nil T)
  | cons t ts ih =>
    simp only [verticalLoop]
    by_cases ht : t = T
    · subst ht
      have hland := resolveVertical_land vy pS t hvy (by rw [hboxS]; exact hTS)
      rw [hland, htop, hS]
      apply verticalLoop_free
      intro u hu
      show (playerBox x y).intersects u.shape.getGlobalBounds = false
      by_cases hut : u = t
      · rw [hut]
        exact hTR
      · exact (hoth u (List.mem_cons_of_mem _ hu) hut).2
    · have hfree := (hoth t (List.mem_cons_self _ _) ht).1
      rw [resolveVertical_free vy pS t (by rw [hboxS]; exact hfree)]
      have hT2 : T ∈ ts := by
        rcases List.mem_cons.mp hT with h | h
        · exact absurd h.symm ht
        · exact h
      exact ih hT2 (fun u hu => hoth u (List.mem_cons_of_mem _ hu))

theorem clampToWorld_inside (p : Player) (h0 : 0 ≤ p.position.x)
    (h1 : p.position.x ≤ 2368) : clampToWorld p = p := by
  unfold clampToWorld
  simp only []
  rw [if_neg (not_lt.mpr h0), if_neg (by rw [WORLD_WIDTH]; linarith)]

/-- C30 (as stated, refuted): two players at rest that the physics part of a
tick moves although no key is held and no other tile intersects the box shifted
down by 0.5.  At (0, 0) on `restTile`, with `headTile` (bottom edge at y = 0.5)
listed after it: the shifted box, y 0.5 .. 46.5, does not intersect `headTile`,
the landing on `restTile` puts the box back at y 0 .. 46, which does, and the
player is put on top of `headTile` at y = -77.5.  At (-10, 0) on `outsideTile`:
the world clamp moves the player to x = 0. -/
theorem c30_player_at_rest_moves :
    (restTile ∈ restGame.platforms ∧ restGame.player.velocity.y = 0 ∧
      restGame.player.position.y + 46 = restTile.shape.getGlobalBounds.top ∧
      restTile.shape.getGlobalBounds.left < restGame.player.position.x + 32 ∧
      restGame.player.position.x
        < restTile.shape.getGlobalBounds.left + restTile.shape.getGlobalBounds.width ∧
      restGame.platforms = [restTile, headTile] ∧
      (playerBox restGame.player.position.x
        (restGame.player.position.y + 1 / 2)).intersects headTile.shape.getGlobalBounds
          = false ∧
      restGame.player.position = ⟨0, 0⟩ ∧
      (physics noInput restGame).player.position = ⟨0, -155 / 2⟩) ∧
    (outsideTile ∈ outsideGame.platforms ∧ outsideGame.player.velocity.y = 0 ∧
      outsideGame.player.position.y + 46 = outsideTile.shape.getGlobalBounds.top ∧
      outsideTile.shape.getGlobalBounds.left < outsideGame.player.position.x + 32 ∧
      outsideGame.player.position.x
        < outsideTile.shape.getGlobalBounds.left + outsideTile.shape.getGlobalBounds.width ∧
      outsideGame.platforms = [outsideTile] ∧
      outsideGame.player.position = ⟨-10, 0⟩ ∧
      (physics noInput outsideGame).player.position = ⟨0, 0⟩) := by
  refine ⟨⟨List.mem_cons_self _ _, rfl, ?_, ?_, ?_, rfl, ?_, rfl, ?_⟩,
    ⟨List.mem_cons_self _ _, rfl, ?_, ?_, ?_, rfl, rfl, ?_⟩⟩
  · norm_num [restGame, sampleGame, Player.new, restTile, Platform.ofTexture,
      RectangleShape.getGlobalBounds]
  · norm_num [restGame, sampleGame, Player.new, restTile, Platform.ofTexture,
      RectangleShape.getGlobalBounds]
  · norm_num [restGame, sampleGame, Player.new, restTile, Platform.ofTexture,
      RectangleShape.getGlobalBounds]
  · norm_num [restGame, sampleGame, Player.new, headTile, Platform.ofTexture,
      RectangleShape.getGlobalBounds, playerBox, FloatRect.intersects]
  · norm_num [physics, applyInput, horizontalPass, verticalPass, verticalLoop,
      resolveHorizontal, resolveVertical, clampToWorld, restGame, sampleGame, noInput,
      restTile, headTile, Platform.ofTexture, Player.new, Player.getBounds,
      RectangleShape.getGlobalBounds, FloatRect.intersects, GRAVITY, WORLD_WIDTH]
  · norm_num [outsideGame, sampleGame, Player.new, outsideTile, Platform.ofTexture,
      RectangleShape.getGlobalBounds]
  · norm_num [outsideGame, sampleGame, Player.new, outsideTile, Platform.ofTexture,
      RectangleShape.getGlobalBounds]
  · norm_num [outsideGame, sampleGame, Player.new, outsideTile, Platform.ofTexture,
      RectangleShape.getGlobalBounds]
  · norm_num [physics, applyInput, horizontalPass, verticalPass, verticalLoop,
      resolveHorizontal, resolveVertical, clampToWorld, outsideGame, sampleGame, noInput,
      outsideTile, Platform.ofTexture, Player.new, Player.getBounds,
      RectangleShape.getGlobalBounds, FloatRect.intersects, GRAVITY, WORLD_WIDTH]

/-- C30 (amended): for a tile T of the game's tile list whose bounds have
positive width and height, and a player inside the world (0 <= position.x <=
2368) with velocity.y = 0, bottom edge on T's top edge (position.y + 46 = T.top)
and horizontal overlap with T: if no key is held and no tile other than T
intersects the player's box, either where it is or shifted down by the gravity
step 0.5, then the physics part of one `Game::update` tick leaves the position
unchanged, leaves velocity = (0, 0) and sets grounded = true. -/
theorem c30_player_at_rest_stays (g : Game) (T : Platform) (hT : T ∈ g.platforms)
    (hpos : 0 < T.shape.getGlobalBounds.width ∧ 0 < T.shape.getGlobalBounds.height)
    (hvy : g.player.velocity.y = 0)
    (hbottom : g.player.position.y + 46 = T.shape.getGlobalBounds.top)
    (hover : T.shape.getGlobalBounds.left < g.player.position.x + 32 ∧
      g.player.position.x < T.shape.getGlobalBounds.left + T.shape.getGlobalBounds.width)
    (hothers : ∀ u ∈ g.platforms, u ≠ T →
      (playerBox g.player.position.x (g.player.position.y + 1 / 2)).intersects
        u.shape.getGlobalBounds = false ∧
      (playerBox g.player.position.x g.player.position.y).intersects
        u.shape.getGlobalBounds = false)
    (hx0 : 0 ≤ g.player.position.x) (hx1 : g.player.position.x ≤ 2368) :
    (physics noInput g).player.position = g.player.position ∧
    (physics noInput g).player.velocity = ⟨0, 0⟩ ∧
    (physics noInput g).player.grounded = true := by
  have h2 : horizontalPass g.platforms (applyInput noInput g.player)
      = { g.player with velocity := ⟨0, g.player.velocity.y⟩ } := by
    rw [applyInput_noInput]
    exact horizontalPass_still _ _ rfl
  have hTS : (playerBox g.player.position.x (g.player.position.y + 1 / 2)).intersects
      T.shape.getGlobalBounds = true := by
    rw [playerBox_intersects_iff _ _ _ hpos.1 hpos.2]
    exact ⟨hover, by linarith, by linarith [hpos.2]⟩
  have hTR : (playerBox g.player.position.x g.player.position.y).intersects
      T.shape.getGlobalBounds = false := by
    rw [Bool.eq_false_iff, Ne, playerBox_intersects_iff _ _ _ hpos.1 hpos.2]
    rintro ⟨-, a, -⟩
    linarith
  have hg : g.player.velocity.y + GRAVITY = 1 / 2 := by
    rw [hvy]
    norm_num [GRAVITY]
  have h3 : (verticalPass g.platforms
      { g.player with velocity := ⟨0, g.player.velocity.y⟩ }).1
      = { g.player with velocity := ⟨0, 0⟩, grounded := true } := by
    unfold verticalPass
    simp only []
    rw [hg]
    rw [verticalLoop_lands (1 / 2) (by norm_num) T g.player.position.x g.player.position.y
      (by linarith) g.platforms hT _ rfl hTS hTR hothers]
  have h4 : (physics noInput g).player
      = clampToWorld (verticalPass g.platforms
          (horizontalPass g.platforms (applyInput noInput g.player))).1 := rfl
  rw [h4, h2, h3,
    clampToWorld_inside { g.player with velocity := ⟨0, 0⟩, grounded := true } hx0 hx1]
  exact ⟨rfl, rfl, rfl⟩

theorem c30_player_at_rest_stays_witness :
    (physics noInput restOnlyGame).player.position = restOnlyGame.player.position ∧
    (physics noInput restOnlyGame).player.velocity = ⟨0, 0⟩ ∧
    (physics noInput restOnlyGame).player.grounded = true :=
  c30_player_at_rest_stays restOnlyGame restTile (List.mem_singleton.mpr rfl)
    (by norm_num [restTile, Platform.ofTexture, RectangleShape.getGlobalBounds])
    rfl
    (by norm_num [restOnlyGame, sampleGame, Player.new, restTile, Platform.ofTexture,
      RectangleShape.getGlobalBounds])
    (by norm_num [restOnlyGame, sampleGame, Player.new, restTile, Platform.ofTexture,
      RectangleShape.getGlobalBounds])
    (fun u hu hne => absurd (List.mem_singleton.mp hu) hne)
    (by norm_num [restOnlyGame, sampleGame, Player.new])
    (by norm_num [restOnlyGame, sampleGame, Player.new])

/-! ## Pickups in a tick that costs a life, and at the end of the `int` range -/

/-- A diamond built from an image that did not load (height 0) has NaN bounds,
and the collection test succeeds for every player, wherever the diamond is. -/
theorem unloaded_diamond_always_hit (env : Env) (p : Player) (x y : ℚ) (w : ℕ) :
    ((Diamond.new x y ⟨w, 0⟩).update env).getBounds = Bounds.nan ∧
    p.getBounds.intersects ((Diamond.new x y ⟨w, 0⟩).update env).getBounds = true := by
  have hb : ((Diamond.new x y ⟨w, 0⟩).update env).getBounds = Bounds.nan := by
    simp [Diamond.new, Diamond.update, Diamond.getBounds, Sprite.getGlobalBounds,
      Sprite.getLocalBounds, Sprite.setTexture, Sprite.default]
  refine ⟨hb, ?_⟩
  rw [hb]
  norm_num [Player.getBounds, FloatRect.intersects]

/-- The ten diamonds built from an image that did not load are all collected by
the first collectible step, wherever the player is: the counters go from 0 and 0
to 10 and 500. -/
theorem unloaded_diamonds_all_collected (env : Env) (p : Player) (w : ℕ) :
    (collectDiamonds env p (buildDiamonds ⟨w, 0⟩) 0 0).2 = (10, 500) := by
  have hp : ∀ (x y : ℚ) (dc sc : Int),
      collectDiamond env p (Diamond.new x y ⟨w, 0⟩) dc sc
        = ({ (Diamond.new x y ⟨w, 0⟩).update env with collected := true },
           wrapInt (dc + 1), wrapInt (sc + 50)) :=
    fun x y dc sc => collectDiamond_pickup env p _ dc sc rfl
      (unloaded_diamond_always_hit env p x y w).2
  simp only [buildDiamonds, collectDiamonds, hp]
  norm_num [wrapInt]

end EscapeOreo
